import Mathlib

/-!
# Collada animation exporter (source/blender/collada/AnimationExporter.cpp)

A shallow embedding of the animation export pipeline of Blender's Collada
exporter, together with the properties of it that are established below.

Conventions of the embedding

* `float` is an abstract type `F`; the float operations the exporter uses
  (`RAD2DEGF`, `FRA2TIME`, addition, subtraction, ...) are fields of
  `Externals`, as is every other collaborator whose code lies outside the
  sources.
* C `int` is `Int`; a conversion to `size_t` is written out (`to_size_t`).
* A `std::map` is an association list in ascending key order, `find` is
  `map_find` and the end iterator is `none`.
* An access whose behaviour is undefined in C++ (indexing outside a vector,
  dereferencing an end iterator) makes the embedded function return `none`.
* Everything the exporter writes to the document sink, and every call it makes
  to the sampler, is recorded as a list of `Event`s.
-/

namespace Collada

/-! ## Lookup tables -/

/-- Lookup `std::map::find`: the value stored under the key, `none` for `end()`. -/
def map_find {κ ν : Type} [DecidableEq κ] : List (κ × ν) → κ → Option ν
  | [], _ => none
  | (k, v) :: rest, key => if key = k then some v else map_find rest key

/-- Conversion of a C `int` to `size_t` (64 bit): reduction modulo `2^64`. -/
def to_size_t (i : Int) : Nat := (i % 2 ^ 64).toNat

/-- Table BC_CHANNEL_NAME_FROM_TYPE (AnimationExporter.cpp, lines 32-40). -/
def BC_CHANNEL_NAME_FROM_TYPE : List (String × List String) :=
  [ ("color", ["R", "G", "B"]),
    ("specular_color", ["R", "G", "B"]),
    ("diffuse_color", ["R", "G", "B"]),
    ("alpha", ["R", "G", "B"]),
    ("scale", ["X", "Y", "Z"]),
    ("location", ["X", "Y", "Z"]),
    ("rotation_euler", ["X", "Y", "Z"]) ]

/-- Function AnimationExporter::get_axis_name (lines 80-91).  The comparison
`id >= subchannel.size()` is made in `size_t`, so `id` is converted first; the
result is `none` exactly when `subchannel[id]` would index outside the row. -/
def get_axis_name (channel : String) (id : Int) : Option String :=
  match map_find BC_CHANNEL_NAME_FROM_TYPE channel with
  | none => some ""
  | some subchannel =>
    if to_size_t id ≥ subchannel.length then some ""
    else subchannel.get? (to_size_t id)

/-! ## Bones -/

/-- Bone of an armature (DNA_armature_types.h): only the fields the exporter
reads.  `childbase` is the list of children, in sibling (`next`) order. -/
inductive Bone where
  | mk (name : String) (flag : Nat) (childbase : List Bone) : Bone
deriving Repr

mutual
/-- Decidable equality of bones (the type is nested through `List`). -/
def Bone.decEq : (a b : Bone) → Decidable (a = b)
  | .mk n1 f1 c1, .mk n2 f2 c2 =>
    if hn : n1 = n2 then
      if hf : f1 = f2 then
        match Bone.decEqList c1 c2 with
        | isTrue h => isTrue (by rw [hn, hf, h])
        | isFalse h => isFalse (fun e => h (by cases e; rfl))
      else isFalse (fun e => hf (by cases e; rfl))
    else isFalse (fun e => hn (by cases e; rfl))
/-- Decidable equality of lists of bones. -/
def Bone.decEqList : (a b : List Bone) → Decidable (a = b)
  | [], [] => isTrue rfl
  | [], _ :: _ => isFalse (fun e => by cases e)
  | _ :: _, [] => isFalse (fun e => by cases e)
  | a :: as, b :: bs =>
    match Bone.decEq a b with
    | isTrue h1 =>
      match Bone.decEqList as bs with
      | isTrue h2 => isTrue (by rw [h1, h2])
      | isFalse h2 => isFalse (fun e => h2 (by cases e; rfl))
    | isFalse h1 => isFalse (fun e => h1 (by cases e; rfl))
end

instance : DecidableEq Bone := Bone.decEq

namespace Bone

/-- Field `bone->name`. -/
def name : Bone → String
  | mk n _ _ => n

/-- Field `bone->flag`. -/
def flag : Bone → Nat
  | mk _ f _ => f

/-- Field `bone->childbase`, as the list of the children. -/
def childbase : Bone → List Bone
  | mk _ _ cs => cs

end Bone

mutual
/-- Function AnimationExporter::is_bone_deform_group (lines 463-478);
`BONE_NO_DEFORM` is the flag bit of DNA_armature_types.h. -/
def is_bone_deform_group (BONE_NO_DEFORM : Nat) : Bone → Bool
  | Bone.mk _ flag childbase =>
    if flag &&& BONE_NO_DEFORM = 0 then true
    else is_bone_deform_group_children BONE_NO_DEFORM childbase
/-- The `for (child = childbase.first; child; child = child->next)` loop of
is_bone_deform_group: returns at the first child that is a deform group. -/
def is_bone_deform_group_children (BONE_NO_DEFORM : Nat) : List Bone → Bool
  | [] => false
  | child :: rest =>
    if is_bone_deform_group BONE_NO_DEFORM child then true
    else is_bone_deform_group_children BONE_NO_DEFORM rest
end

mutual
/-- The bone itself followed by all its descendants, in pre-order. -/
def Bone.subtree : Bone → List Bone
  | Bone.mk name flag childbase => Bone.mk name flag childbase :: Bone.subtree_list childbase
/-- Concatenation of the subtrees of a list of sibling bones. -/
def Bone.subtree_list : List Bone → List Bone
  | [] => []
  | child :: rest => Bone.subtree child ++ Bone.subtree_list rest
end

/-! ## Data model -/

/-- Enumeration BC_animation_transform_type (BCSampleData.h, lines 47-81).  The
three lamp entries of the name table in AnimationExporter.cpp are spelled
FALL_OFF_ANGLE, FALL_OFF_EXPONENT and BLENDER_DIST there; they are the lamp
channels LIGHT_FALLOFF_ANGLE, LIGHT_FALLOFF_EXPONENT and LIGHT_BLENDER_DIST. -/
inductive BC_animation_transform_type where
  | BC_ANIMATION_TYPE_ROTATION_EULER
  | BC_ANIMATION_TYPE_ROTATION_QUAT
  | BC_ANIMATION_TYPE_SCALE
  | BC_ANIMATION_TYPE_LOCATION
  | BC_ANIMATION_TYPE_SPECULAR_HARDNESS
  | BC_ANIMATION_TYPE_SPECULAR_COLOR
  | BC_ANIMATION_TYPE_DIFFUSE_COLOR
  | BC_ANIMATION_TYPE_ALPHA
  | BC_ANIMATION_TYPE_IOR
  | BC_ANIMATION_TYPE_LIGHT_COLOR
  | BC_ANIMATION_TYPE_LIGHT_FALLOFF_ANGLE
  | BC_ANIMATION_TYPE_LIGHT_FALLOFF_EXPONENT
  | BC_ANIMATION_TYPE_LIGHT_BLENDER_DIST
  | BC_ANIMATION_TYPE_LENS
  | BC_ANIMATION_TYPE_XFOV
  | BC_ANIMATION_TYPE_SENSOR_X
  | BC_ANIMATION_TYPE_SENSOR_Y
  | BC_ANIMATION_TYPE_XMAG
  | BC_ANIMATION_TYPE_ZFAR
  | BC_ANIMATION_TYPE_ZNEAR
  | BC_ANIMATION_TYPE_ROTATION
  | BC_ANIMATION_TYPE_UNKNOWN
  | BC_ANIMATION_TYPE_TIMEFRAME
deriving DecidableEq, Repr

open BC_animation_transform_type

/-- Kind of entity a curve animates (BCAnimationCurve.h, lines 51-57; the
exporter names the material kind BC_ANIMATION_CURVE_TYPE_MATERIAL). -/
inductive BC_animation_curve_type where
  | BC_ANIMATION_CURVE_TYPE_OBJECT
  | BC_ANIMATION_CURVE_TYPE_BONE
  | BC_ANIMATION_CURVE_TYPE_CAMERA
  | BC_ANIMATION_CURVE_TYPE_MATERIAL
  | BC_ANIMATION_CURVE_TYPE_LIGHT
deriving DecidableEq, Repr

open BC_animation_curve_type

/-- The input semantics of COLLADASW::InputSemantic the exporter switches on;
`OTHER` stands for every remaining enumerator (the `default` branches). -/
inductive Semantics where
  | INPUT
  | OUTPUT
  | INTERPOLATION
  | IN_TANGENT
  | OUT_TANGENT
  | OTHER
deriving DecidableEq, Repr

/-- Modelled from the spec: the transform-export mode of the export settings,
"combined-matrix vs separate-curves" (the declaring header is not part of the
sources).  The exporter only tests equality with TRANSROTLOC. -/
inductive BC_export_transformation_type where
  | BC_TRANSFORMATION_TYPE_MATRIX
  | BC_TRANSFORMATION_TYPE_TRANSROTLOC
deriving DecidableEq, Repr

open BC_export_transformation_type

/-- Modelled from the spec: the animation-export mode of the export settings,
"sample-all vs sample-keyframes" (the declaring header is not part of the
sources).  The exporter only passes the value on to the sampler. -/
inductive BC_export_animation_type where
  | BC_ANIMATION_EXPORT_SAMPLES
  | BC_ANIMATION_EXPORT_KEYS
deriving DecidableEq, Repr

/-- Keyframe point BezTriple (DNA): the 3x3 handle/knot vector and the
interpolation kind `ipo`. -/
structure BezTriple (F : Type) where
  vec : List (List F)
  ipo : Int
deriving DecidableEq, Repr

/-- Authored F-curve (DNA): the fields the exporter reads. -/
structure FCurve (F : Type) where
  rna_path : String
  array_index : Int
  totvert : Int
  bezt : List (BezTriple F)
deriving DecidableEq, Repr

/-- Action (DNA): its ID name and its list of F-curves. -/
structure bAction (F : Type) where
  id_name : String
  curves : List (FCurve F)
deriving DecidableEq, Repr

/-- Material (DNA): only its ID name is read. -/
structure Material where
  id_name : String
deriving DecidableEq, Repr

/-- Payload `ob->data` together with `ob->type`: an armature with its root
bones (`arm->bonebase`), or anything else. -/
inductive ObjectData where
  | armature (bonebase : List Bone)
  | other
deriving DecidableEq, Repr

/-- Object (DNA): `id_name(ob)`, its type and data, and the result of
`bc_getSceneObjectAction(ob)` (`none` is the null pointer). -/
structure Object (F : Type) where
  id_name : String
  data : ObjectData
  action : Option (bAction F)
deriving DecidableEq, Repr

/-- Class BCCamera (BCSampleData.h, lines 101-110). -/
structure BCCamera (F : Type) where
  lens : F
  xfov : F
  xsensor : F
  ysensor : F
  xmag : F
  zfar : F
  znear : F
deriving DecidableEq, Repr

/-- Class BCMatrix (BCSampleData.h, lines 127-157): the 4x4 matrix; the cached
decomposition is a function of it. -/
structure BCMatrix (F : Type) where
  matrix : List (List F)
deriving DecidableEq, Repr

/-- Class BCSample (BCSampleData.h, lines 162-204): the parts read here. -/
structure BCSample (F : Type) where
  matrix : BCMatrix F
  camera : BCCamera F
deriving DecidableEq, Repr

/-- Class BCAnimationCurve, as far as the exporter observes it: the values its
accessors return (`get_channel_target`, `get_array_index`, `get_channel_type`,
`get_transform_type`, `get_tag`, `get_value_map`, `get_fcurve`) and the
local-copy flag.  `samples` is the BCValueMap, ascending by frame. -/
structure BCAnimationCurve (F : Type) where
  channel_target : String
  array_index : Int
  channel_type : BC_animation_curve_type
  tm_type : BC_animation_transform_type
  tag : Int
  samples : List (Int × F)
  curve_is_local_copy : Bool
  fcurve : Option (FCurve F)
deriving DecidableEq, Repr

/-- Everything the exporter does that is visible outside it: the calls to the
animation sampler, the records handed to the document sink (COLLADASW), the
entries pushed on `anim_meta`, and the allocation and release of temporary
curves.  A source is recorded with its id, array id, accessor count, stride,
parameter names and appended values; a matrix value is recorded as the
`get_matrix(daemat, transposed, precision)` call that produced it. -/
inductive Event (F : Type) where
  | add_object (ob : Object F)
  | sample_scene (sampling_rate : Int) (keyframe_at_end open_sim keep_keyframes : Bool)
      (export_animation_type : BC_export_animation_type)
  | openLibrary
  | closeLibrary
  | anim_meta_push_back (entry : List String)
  | openAnimation (id name : String)
  | closeAnimation
  | float_source (id array_id : String) (count stride : Int) (params : List String)
      (values : List F)
  | name_source (id array_id : String) (count stride : Int) (params : List String)
      (values : List String)
  | matrix_source (id array_id : String) (count stride : Int) (params : List String)
      (values : List (BCMatrix F × Bool × Int))
  | addSampler (id : String) (inputs : List (Semantics × String))
  | addChannel (sampler_id target : String)
  | new_curve (curve : BCAnimationCurve F)
  | delete_curve (curve : BCAnimationCurve F)
deriving DecidableEq, Repr

/-- Results of the queries the exporter makes to a BCAnimationSampler once the
scene has been sampled (the class is not part of the sources).  The maps are
listed in iteration order; the Boolean returned with matrix samples is the
`is_flat` result of `get_samples`. -/
structure BCAnimationSampler (F : Type) where
  get_curves : Object F → List (BCAnimationCurve F)
  get_samples : Object F → List (Int × BCSample F)
  get_frame_set : Object F → List F
  get_frame_set_bone : Object F → Bone → List F
  get_matrix_samples : Object F → List (Int × BCMatrix F) × Bool
  get_bone_matrix_samples : Object F → Bone → List (Int × BCMatrix F) × Bool
  add_value_set : BCAnimationCurve F → List (Int × BCSample F) → BC_export_animation_type →
    BCAnimationCurve F

/-- The export settings the animation exporter reads (the declaring header is
not part of the sources).  The field `keyframe_at_end` is modelled from the
spec, which lists a "keyframe-at-end-forced (bool)" among the configuration;
no function of the exporter reads it. -/
structure ExportSettings (F : Type) where
  export_set : List (Object F)
  sampling_rate : Int
  keyframe_at_end : Bool
  open_sim : Bool
  keep_keyframes : Bool
  export_animation_type : BC_export_animation_type
  export_transformation_type : BC_export_transformation_type
  keep_smooth_curves : Bool
  limit_precision : Bool

/-- Collaborators whose code is outside the sources and that are therefore
taken as parameters: the float arithmetic, the helpers of collada_utils and of
Blender's kernel and of the C library, the id suffixes of COLLADASW, the
methods of BCAnimationCurve whose bodies are not part of the sources, and the
static queries and the sampling run of BCAnimationSampler. -/
structure Externals (F : Type) where
  RAD2DEGF : F → F
  FRA2TIME : F → F
  fadd : F → F → F
  fsub : F → F → F
  fmul : F → F → F
  fdiv : F → F → F
  atanf : F → F
  ftwo : F
  translate_id : String → String
  bc_get_action_id : String → String → String → String → Option String → String
  give_current_material : Object F → Int → Option Material
  INPUT_SOURCE_ID_SUFFIX : String
  OUTPUT_SOURCE_ID_SUFFIX : String
  INTERPOLATION_SOURCE_ID_SUFFIX : String
  INTANGENT_SOURCE_ID_SUFFIX : String
  OUTTANGENT_SOURCE_ID_SUFFIX : String
  ARRAY_ID_SUFFIX : String
  SAMPLER_ID_SUFFIX : String
  is_transform_curve : BCAnimationCurve F → Bool
  is_flat : BCAnimationCurve F → Bool
  is_rot : BCAnimationCurve F → Bool
  size : BCAnimationCurve F → Nat
  get_sampled_frames : BCAnimationCurve F → List F
  get_sampled_values : BCAnimationCurve F → List F
  get_ipo : BCAnimationCurve F → F → Int
  closest_index_below : BCAnimationCurve F → F → Int
  get_animation_name : BCAnimationCurve F → Object F → String
  set_transform_type : BCAnimationCurve F → String → Int → BCAnimationCurve F
  reset_values : BCAnimationCurve F → BCAnimationCurve F
  edit_fcurve_add_value : Option (FCurve F) → F → Int → Option (FCurve F)
  edit_fcurve_clean_handles : Option (FCurve F) → Option (FCurve F)
  get_time : BezTriple F → F
  get_value : BezTriple F → Bool → F
  get_in_tangent : BezTriple F → Bool → F × F
  get_out_tangent : BezTriple F → Bool → F × F
  fzero : F
  quat_to_eul : List F → F × F × F
  bc_string_after : String → Char → String
  has_animations : List (Object F) → Bool
  get_animated_subset : List (Object F) → List (Object F)
  sample_scene : List (Object F) → Int → Bool → Bool → Bool → BC_export_animation_type →
    BCAnimationSampler F

/-! ## The exporter: naming -/

/-- Modelled from the spec: the name of linear interpolation in an
interpolation stream, "LINEAR" (the constant COLLADASW LINEAR_NAME). -/
def LINEAR_NAME : String := "LINEAR"

/-- Modelled from the spec: the name of Bezier interpolation in an
interpolation stream (the constant COLLADASW BEZIER_NAME). -/
def BEZIER_NAME : String := "BEZIER"

/-- Modelled from the spec: the name of constant (step) interpolation in an
interpolation stream (the constant COLLADASW STEP_NAME). -/
def STEP_NAME : String := "STEP"

/-- Modelled from the spec: the interpolation kind Constant of a keyframe point
(the DNA enumerator BEZT_IPO_CONST). -/
def BEZT_IPO_CONST : Int := 0

/-- Modelled from the spec: the interpolation kind Linear of a keyframe point
(the DNA enumerator BEZT_IPO_LIN). -/
def BEZT_IPO_LIN : Int := 1

/-- Modelled from the spec: the interpolation kind Bezier of a keyframe point
(the DNA enumerator BEZT_IPO_BEZ). -/
def BEZT_IPO_BEZ : Int := 2

/-- Table BC_ANIMATION_NAME_FROM_TYPE (AnimationExporter.cpp, lines 48-76). -/
def BC_ANIMATION_NAME_FROM_TYPE : List (BC_animation_transform_type × String) :=
  [ (BC_ANIMATION_TYPE_ROTATION, "rotation"),
    (BC_ANIMATION_TYPE_ROTATION_EULER, "rotation"),
    (BC_ANIMATION_TYPE_ROTATION_QUAT, "rotation"),
    (BC_ANIMATION_TYPE_SCALE, "scale"),
    (BC_ANIMATION_TYPE_LOCATION, "location"),
    (BC_ANIMATION_TYPE_SPECULAR_COLOR, "specular"),
    (BC_ANIMATION_TYPE_DIFFUSE_COLOR, "diffuse"),
    (BC_ANIMATION_TYPE_IOR, "index_of_refraction"),
    (BC_ANIMATION_TYPE_SPECULAR_HARDNESS, "specular_hardness"),
    (BC_ANIMATION_TYPE_ALPHA, "alpha"),
    (BC_ANIMATION_TYPE_LIGHT_COLOR, "color"),
    (BC_ANIMATION_TYPE_LIGHT_FALLOFF_ANGLE, "fall_off_angle"),
    (BC_ANIMATION_TYPE_LIGHT_FALLOFF_EXPONENT, "fall_off_exponent"),
    (BC_ANIMATION_TYPE_LIGHT_BLENDER_DIST, "blender/blender_dist"),
    (BC_ANIMATION_TYPE_LENS, "xfov"),
    (BC_ANIMATION_TYPE_XFOV, "xfov"),
    (BC_ANIMATION_TYPE_XMAG, "xmag"),
    (BC_ANIMATION_TYPE_ZFAR, "zfar"),
    (BC_ANIMATION_TYPE_ZNEAR, "znear"),
    (BC_ANIMATION_TYPE_UNKNOWN, "") ]

/-- Function AnimationExporter::get_collada_name (lines 868-873): `find`
followed by `name_it->second` without a test against `end()`; the result is
`none` when the end iterator is dereferenced. -/
def get_collada_name (tm_type : BC_animation_transform_type) : Option String :=
  map_find BC_ANIMATION_NAME_FROM_TYPE tm_type

/-- Function AnimationExporter::get_collada_sid (lines 879-902). -/
def get_collada_sid {F : Type} (curve : BCAnimationCurve F) (axis_name : String) :
    Option String :=
  match get_collada_name curve.tm_type with
  | none => none
  | some tm_name =>
    let is_angle : Bool :=
      decide (curve.tm_type = BC_ANIMATION_TYPE_ROTATION_EULER) ||
      decide (curve.tm_type = BC_ANIMATION_TYPE_ROTATION_QUAT) ||
      decide (curve.tm_type = BC_ANIMATION_TYPE_ROTATION)
    if tm_name.length ≠ 0 then
      if is_angle then some (tm_name ++ axis_name ++ ".ANGLE")
      else if axis_name ≠ "" then some (tm_name ++ "." ++ axis_name)
      else some tm_name
    else some tm_name

/-- Function AnimationExporter::get_semantic_suffix (lines 558-575). -/
def get_semantic_suffix {F : Type} (E : Externals F) : Semantics → String
  | Semantics.INPUT => E.INPUT_SOURCE_ID_SUFFIX
  | Semantics.OUTPUT => E.OUTPUT_SOURCE_ID_SUFFIX
  | Semantics.INTERPOLATION => E.INTERPOLATION_SOURCE_ID_SUFFIX
  | Semantics.IN_TANGENT => E.INTANGENT_SOURCE_ID_SUFFIX
  | Semantics.OUT_TANGENT => E.OUTTANGENT_SOURCE_ID_SUFFIX
  | Semantics.OTHER => ""

/-- Function AnimationExporter::add_source_parameters (lines 577-614): the
parameter names pushed on `param`. -/
def add_source_parameters (param : List String) (semantic : Semantics) (is_rot : Bool)
    (axis : String) (transform : Bool) : List String :=
  match semantic with
  | Semantics.INPUT => param ++ ["TIME"]
  | Semantics.OUTPUT =>
    if is_rot then param ++ ["ANGLE"]
    else if axis ≠ "" then param ++ [axis]
    else if transform then param ++ ["TRANSFORM"]
    else param ++ ["X", "Y", "Z"]
  | Semantics.IN_TANGENT => param ++ ["X", "Y"]
  | Semantics.OUT_TANGENT => param ++ ["X", "Y"]
  | _ => param

/-! ## The exporter: sources -/

/-- The unit conversion of the scalar collada_source_from_values (the `switch`
of lines 735-744). -/
def convert_source_value {F : Type} (E : Externals F) (tm_type : BC_animation_transform_type)
    (val : F) : F :=
  match tm_type with
  | BC_ANIMATION_TYPE_TIMEFRAME => E.FRA2TIME val
  | BC_ANIMATION_TYPE_ROTATION_EULER => E.RAD2DEGF val
  | BC_ANIMATION_TYPE_ROTATION => E.RAD2DEGF val
  | _ => val

/-- Function AnimationExporter::collada_source_from_values, scalar form (lines
708-751): the source id and the source written. -/
def collada_source_from_values {F : Type} (E : Externals F)
    (tm_type : BC_animation_transform_type) (semantic : Semantics) (values : List F)
    (is_rot : Bool) (anim_id : String) (axis_name : String) : String × List (Event F) :=
  let stride : Int := 1
  let entry_count : Int := (values.length : Int) / stride
  let source_id := anim_id ++ get_semantic_suffix E semantic
  let param := add_source_parameters [] semantic is_rot axis_name false
  (source_id,
    [Event.float_source source_id (source_id ++ E.ARRAY_ID_SUFFIX) entry_count stride param
      ((values.take entry_count.toNat).map (convert_source_value E tm_type))])

/-- Function AnimationExporter::collada_source_from_values, matrix form (lines
756-784). -/
def collada_source_from_values_matrix {F : Type} (E : Externals F) (st : ExportSettings F)
    (samples : List (Int × BCMatrix F)) (anim_id : String) : String × List (Event F) :=
  let semantic := Semantics.OUTPUT
  let source_id := anim_id ++ get_semantic_suffix E semantic
  let param := add_source_parameters [] semantic false "" true
  let precision : Int := if st.limit_precision then 6 else -1
  (source_id,
    [Event.matrix_source source_id (source_id ++ E.ARRAY_ID_SUFFIX) samples.length 16 param
      (samples.map (fun it => (it.2, true, precision)))])

/-- The loop of collada_interpolation_source (lines 810-823) over the indices
still to visit: the names appended and whether `has_tangents` was set; `none`
when `frames[i]` is read outside the vector. -/
def interpolation_loop {F : Type} (E : Externals F) (curve : BCAnimationCurve F)
    (frames : List F) : List Nat → Option (List String × Bool)
  | [] => some ([], false)
  | i :: rest =>
    match frames.get? i with
    | none => none
    | some frame =>
      match interpolation_loop E curve frames rest with
      | none => none
      | some (names, has_tangents) =>
        let ipo := E.get_ipo curve frame
        if ipo = BEZT_IPO_BEZ then some (BEZIER_NAME :: names, true)
        else if ipo = BEZT_IPO_CONST then some (STEP_NAME :: names, has_tangents)
        else some (LINEAR_NAME :: names, has_tangents)

/-- Function AnimationExporter::collada_interpolation_source (lines 786-829):
the source id, the source written and the value left in `*has_tangents`. -/
def collada_interpolation_source {F : Type} (E : Externals F) (curve : BCAnimationCurve F)
    (anim_id : String) (_axis : String) : Option ((String × List (Event F)) × Bool) :=
  let source_id := anim_id ++ get_semantic_suffix E Semantics.INTERPOLATION
  let frames := E.get_sampled_frames curve
  match interpolation_loop E curve frames (List.range (E.size curve)) with
  | none => none
  | some (names, has_tangents) =>
    some ((source_id,
      [Event.name_source source_id (source_id ++ E.ARRAY_ID_SUFFIX) (E.size curve) 1
        ["INTERPOLATION"] names]), has_tangents)

/-- Function AnimationExporter::collada_linear_interpolation_source (lines
831-853); `tot` is a C `int`. -/
def collada_linear_interpolation_source {F : Type} (E : Externals F) (tot : Int)
    (anim_id : String) : String × List (Event F) :=
  let source_id := anim_id ++ get_semantic_suffix E Semantics.INTERPOLATION
  (source_id,
    [Event.name_source source_id (source_id ++ E.ARRAY_ID_SUFFIX) tot 1 ["INTERPOLATION"]
      (List.replicate tot.toNat LINEAR_NAME)])

/-- Function AnimationExporter::get_point_in_curve on a BezTriple (lines
631-659): the returned length and the `values` array after the call (an entry
that was never written is `none`). -/
def get_point_in_curve_bezt {F : Type} (E : Externals F) (bezt : BezTriple F)
    (semantic : Semantics) (is_angle : Bool) (values : List (Option F)) :
    Int × List (Option F) :=
  match semantic with
  | Semantics.INPUT => (1, values.set 0 (some (E.get_time bezt)))
  | Semantics.OUTPUT => (1, values.set 0 (some (E.get_value bezt is_angle)))
  | Semantics.IN_TANGENT =>
    (2, (values.set 0 (some (E.get_in_tangent bezt is_angle).1)).set 1
      (some (E.get_in_tangent bezt is_angle).2))
  | Semantics.OUT_TANGENT =>
    (2, (values.set 0 (some (E.get_out_tangent bezt is_angle).1)).set 1
      (some (E.get_out_tangent bezt is_angle).2))
  | _ => (0, values)

/-- Function AnimationExporter::get_point_in_curve on a curve (lines 623-628):
`none` when the F-curve pointer is null or `bezt[lower_index]` lies outside
the keyframe array. -/
def get_point_in_curve {F : Type} (E : Externals F) (curve : BCAnimationCurve F) (val : F)
    (semantic : Semantics) (is_angle : Bool) (values : List (Option F)) :
    Option (Int × List (Option F)) :=
  match curve.fcurve with
  | none => none
  | some fcu =>
    let lower_index := E.closest_index_below curve val
    if lower_index < 0 then none
    else
      match fcu.bezt.get? lower_index.toNat with
      | none => none
      | some bezt => some (get_point_in_curve_bezt E bezt semantic is_angle values)

/-- Modelled from the spec: the helper bc_startswith of collada_utils (not part
of the sources), which tells whether `value` starts with `starting`. -/
def bc_startswith (value starting : String) : Bool :=
  starting.data.isPrefixOf value.data

/-- The loop of collada_tangent_from_curve (lines 686-703), from index
`frame_index` on, over the sampled values still to visit: the floats appended;
`none` when `frames[frame_index]` is read outside the vector, when the keyframe
lookup is undefined, or when an unwritten entry of `vals` or `bases` is read. -/
def tangent_loop {F : Type} (E : Externals F) (curve : BCAnimationCurve F) (frames : List F)
    (semantic : Semantics) (is_angle : Bool) : Nat → List F → Option (List F)
  | _, [] => some []
  | frame_index, value :: rest =>
    let sampled_val := if is_angle then E.RAD2DEGF value else value
    match frames.get? frame_index with
    | none => none
    | some frame =>
      match get_point_in_curve E curve frame semantic is_angle [none, none, none],
            get_point_in_curve E curve frame Semantics.OUTPUT is_angle [none, none, none] with
      | some (_, vals), some (_, bases) =>
        match vals.get? 0, vals.get? 1, bases.get? 0 with
        | some (some v0), some (some v1), some (some b0) =>
          match tangent_loop E curve frames semantic is_angle (frame_index + 1) rest with
          | none => none
          | some appended => some (v0 :: E.fadd sampled_val (E.fsub v1 b0) :: appended)
        | _, _, _ => none
      | _, _ => none

/-- Function AnimationExporter::collada_tangent_from_curve (lines 661-706). -/
def collada_tangent_from_curve {F : Type} (E : Externals F) (semantic : Semantics)
    (curve : BCAnimationCurve F) (frames : List F) (anim_id : String) (axis_name : String) :
    Option (String × List (Event F)) :=
  let channel := curve.channel_target
  let source_id := anim_id ++ get_semantic_suffix E semantic
  let is_angle : Bool := bc_startswith channel "rotation" || decide (channel = "spot_size")
  let param := add_source_parameters [] semantic is_angle axis_name false
  let values := E.get_sampled_values curve
  match tangent_loop E curve frames semantic is_angle 0 values with
  | none => none
  | some appended =>
    some (source_id,
      [Event.float_source source_id (source_id ++ E.ARRAY_ID_SUFFIX) (E.size curve) 2 param
        appended])

/-! ## The exporter: records -/

/-- Function AnimationExporter::open_animation_container (lines 93-101): the
returned flag and the record opened. -/
def open_animation_container {F : Type} (E : Externals F) (has_container : Bool)
    (ob : Object F) : Bool × List (Event F) :=
  (true,
    if !has_container then
      [Event.openAnimation ("action_container-" ++ E.translate_id ob.id_name) ob.id_name]
    else [])

/-- Function AnimationExporter::openAnimationWithClip (lines 103-111). -/
def openAnimationWithClip {F : Type} (E : Externals F) (action_id action_name : String) :
    List (Event F) :=
  [Event.anim_meta_push_back [E.translate_id action_id, action_name],
   Event.openAnimation (E.translate_id action_id) action_name]

/-- Function AnimationExporter::close_animation_container (lines 113-117). -/
def close_animation_container {F : Type} (has_container : Bool) : List (Event F) :=
  if has_container then [Event.closeAnimation] else []

/-- The inputs added to the COLLADASW sampler of a curve animation (lines
518-525). -/
def curve_sampler_inputs (input_id output_id interpolation_id intangent_id outtangent_id : String)
    (has_tangents : Bool) : List (Semantics × String) :=
  [(Semantics.INPUT, input_id), (Semantics.OUTPUT, output_id),
   (Semantics.INTERPOLATION, interpolation_id)] ++
  (if has_tangents then
    [(Semantics.IN_TANGENT, intangent_id), (Semantics.OUT_TANGENT, outtangent_id)]
   else [])

/-- Function AnimationExporter::export_collada_curve_animation (lines 481-531);
the size of `frames` is passed to collada_linear_interpolation_source as an
`int`.  The line printed on stdout is not part of the trace. -/
def export_collada_curve_animation {F : Type} (E : Externals F) (st : ExportSettings F)
    (id name target axis : String) (curve : BCAnimationCurve F) : Option (List (Event F)) :=
  let frames := E.get_sampled_frames curve
  let values := E.get_sampled_values curve
  let tm_type := curve.tm_type
  let is_rot := E.is_rot curve
  let input := collada_source_from_values E BC_ANIMATION_TYPE_TIMEFRAME Semantics.INPUT frames
    false id axis
  let output := collada_source_from_values E tm_type Semantics.OUTPUT values is_rot id axis
  let interpolation : Option ((String × List (Event F)) × Bool) :=
    if st.keep_smooth_curves then collada_interpolation_source E curve id axis
    else some (collada_linear_interpolation_source E (frames.length : Int) id, false)
  match interpolation with
  | none => none
  | some (interpolation, has_tangents) =>
    let tangents : Option ((String × List (Event F)) × (String × List (Event F))) :=
      if has_tangents then
        match collada_tangent_from_curve E Semantics.IN_TANGENT curve frames id axis,
              collada_tangent_from_curve E Semantics.OUT_TANGENT curve frames id axis with
        | some intangent, some outtangent => some (intangent, outtangent)
        | _, _ => none
      else some (("", []), ("", []))
    match tangents with
    | none => none
    | some (intangent, outtangent) =>
      let sampler_id := id ++ E.SAMPLER_ID_SUFFIX
      some ([Event.openAnimation id name] ++ input.2 ++ output.2 ++ interpolation.2 ++
        intangent.2 ++ outtangent.2 ++
        [Event.addSampler sampler_id
          (curve_sampler_inputs input.1 output.1 interpolation.1 intangent.1 outtangent.1
            has_tangents),
         Event.addChannel sampler_id target,
         Event.closeAnimation])

/-- Function AnimationExporter::export_collada_matrix_animation (lines 533-556).
The line printed on stdout is not part of the trace. -/
def export_collada_matrix_animation {F : Type} (E : Externals F) (st : ExportSettings F)
    (id name target : String) (frames : List F) (samples : List (Int × BCMatrix F)) :
    List (Event F) :=
  let input := collada_source_from_values E BC_ANIMATION_TYPE_TIMEFRAME Semantics.INPUT frames
    false id ""
  let output := collada_source_from_values_matrix E st samples id
  let interpolation := collada_linear_interpolation_source E (frames.length : Int) id
  let sampler_id := id ++ E.SAMPLER_ID_SUFFIX
  openAnimationWithClip E id name ++ input.2 ++ output.2 ++ interpolation.2 ++
    [Event.addSampler sampler_id
      [(Semantics.INPUT, input.1), (Semantics.OUTPUT, output.1),
       (Semantics.INTERPOLATION, interpolation.1)],
     Event.addChannel sampler_id target,
     Event.closeAnimation]

/-! ## The exporter: curve conversion -/

/-- Insertion into a `std::map<int, T>` (`m[k] = v`): the entry is overwritten
when the key is present and otherwise inserted at its place in key order. -/
def map_insert {ν : Type} : List (Int × ν) → Int → ν → List (Int × ν)
  | [], k, v => [(k, v)]
  | (k0, v0) :: rest, k, v =>
    if k < k0 then (k, v) :: (k0, v0) :: rest
    else if k = k0 then (k, v) :: rest
    else (k0, v0) :: map_insert rest k v

/-- Modelled from the spec: the helper focallength_to_fov of Blender's kernel,
which is not part of the sources: the "standard photographic conversion
formula" from focal length and sensor width to the field of view in radians,
which the spec writes `2*atan(sensor/(2*lens))`, over the float operations of
`Externals` (`ftwo` is the float 2). -/
def focallength_to_fov {F : Type} (E : Externals F) (lens sensor : F) : F :=
  E.fmul E.ftwo (E.atanf (E.fdiv sensor (E.fmul E.ftwo lens)))

/-- Modelled from the spec: BCAnimationCurve::add_value, which "inserts or
overwrites a sample; when modify_curve is true, mutates the backing keyframe
representation" of what is then a temporary edit copy (the method body is not
part of the sources). -/
def BCAnimationCurve.add_value {F : Type} (E : Externals F) (c : BCAnimationCurve F) (val : F)
    (frame : Int) (modify_curve : Bool) : BCAnimationCurve F :=
  if modify_curve then
    { c with samples := map_insert c.samples frame val,
             fcurve := E.edit_fcurve_add_value c.fcurve val frame,
             curve_is_local_copy := true }
  else { c with samples := map_insert c.samples frame val }

/-- Modelled from the spec: BCAnimationCurve::clean_handles, which resets the
tangent handles of the backing keyframes and leaves the sampled values alone
(the method body is not part of the sources). -/
def BCAnimationCurve.clean_handles {F : Type} (E : Externals F) (c : BCAnimationCurve F) :
    BCAnimationCurve F :=
  { c with fcurve := E.edit_fcurve_clean_handles c.fcurve }

/-- The loop of get_modified_export_curve over the value map of the original
curve (lines 383-396): `sample_map[frame]` is null when the object has no
sample at the frame. -/
def xfov_loop {F : Type} (E : Externals F) (sample_map : List (Int × BCSample F)) :
    List (Int × F) → BCAnimationCurve F → BCAnimationCurve F
  | [], mcurve => mcurve
  | (frame, _value) :: rest, mcurve =>
    match map_find sample_map frame with
    | some sample =>
      let lens := sample.camera.lens
      let sensor := sample.camera.xsensor
      let value := E.RAD2DEGF (focallength_to_fov E lens sensor)
      xfov_loop E sample_map rest (mcurve.add_value E value frame true)
    | none => xfov_loop E sample_map rest mcurve

/-- Function AnimationExporter::get_modified_export_curve (lines 367-400);
`none` is the null pointer.  The methods set_transform_type and reset_values
of the curve class are not part of the sources and are called through
`Externals`. -/
def get_modified_export_curve {F : Type} (E : Externals F) (S : BCAnimationSampler F)
    (ob : Object F) (curve : BCAnimationCurve F) : Option (BCAnimationCurve F) :=
  let tm_type := curve.tm_type
  if tm_type = BC_ANIMATION_TYPE_LENS then
    let sample_map := S.get_samples ob
    let mcurve := E.set_transform_type curve "xfov" 0
    let mcurve := E.reset_values mcurve
    let mcurve := xfov_loop E sample_map curve.samples mcurve
    some (mcurve.clean_handles E)
  else none

/-- Function AnimationExporter::export_curve_animation (lines 406-450). -/
def export_curve_animation {F : Type} (E : Externals F) (st : ExportSettings F)
    (S : BCAnimationSampler F) (ob : Object F) (icurve : BCAnimationCurve F) :
    Option (List (Event F)) :=
  let channel := icurve.channel_target
  let channel_type := icurve.channel_type
  let mcurve := get_modified_export_curve E S ob icurve
  let curve := match mcurve with
    | some m => m
    | none => icurve
  let array_index := curve.array_index
  match get_axis_name channel array_index with
  | none => none
  | some axis =>
    let action_name := match ob.action with
      | some action => action.id_name
      | none => "constraint_anim"
    let curve_name := E.get_animation_name curve ob
    let id := E.bc_get_action_id action_name curve_name channel axis (some ".")
    let target := E.translate_id curve_name
    let target : Option String :=
      if channel_type = BC_ANIMATION_CURVE_TYPE_MATERIAL then
        let material_index := curve.tag
        match E.give_current_material ob (material_index + 1) with
        | some ma =>
          match get_collada_sid curve axis with
          | none => none
          | some sid => some (ma.id_name ++ "-effect/common/" ++ sid)
        | none => some target
      else
        match get_collada_sid curve axis with
        | none => none
        | some sid => some (target ++ "/" ++ sid)
    match target with
    | none => none
    | some target =>
      match export_collada_curve_animation E st id curve_name target axis curve with
      | none => none
      | some record =>
        match mcurve with
        | some m => some ([Event.new_curve m] ++ record ++ [Event.delete_curve m])
        | none => some record

/-! ## The exporter: objects -/

/-- Function AnimationExporter::export_matrix_animation (lines 253-273). -/
def export_matrix_animation {F : Type} (E : Externals F) (st : ExportSettings F)
    (S : BCAnimationSampler F) (ob : Object F) : List (Event F) :=
  let frames := S.get_frame_set ob
  if frames.length > 0 then
    let samples := (S.get_matrix_samples ob).1
    let is_flat := (S.get_matrix_samples ob).2
    if !is_flat then
      let action := ob.action
      let name := ob.id_name
      let action_name := match action with
        | none => name ++ "-action"
        | some a => a.id_name
      let channel_type := "transform"
      let axis := ""
      let id := E.bc_get_action_id action_name name channel_type axis none
      let target := E.translate_id name ++ "/" ++ channel_type
      export_collada_matrix_animation E st id name target frames samples
    else []
  else []

/-- Function AnimationExporter::export_bone_animation (lines 452-461);
`id_name(action)` dereferences the action, so the result is `none` when the
object has no scene action. -/
def export_bone_animation {F : Type} (E : Externals F) (st : ExportSettings F) (ob : Object F)
    (bone : Bone) (frames : List F) (samples : List (Int × BCMatrix F)) :
    Option (List (Event F)) :=
  match ob.action with
  | none => none
  | some action =>
    let bone_name := bone.name
    let name := ob.id_name
    let id := E.bc_get_action_id action.id_name name bone_name "pose_matrix" none
    let target := E.translate_id (ob.id_name ++ "_" ++ bone_name) ++ "/transform"
    some (export_collada_matrix_animation E st id name target frames samples)

/-- The part of export_bone_animations_recursive that concerns the bone itself
(lines 278-287). -/
def export_bone_own_animation {F : Type} (E : Externals F) (st : ExportSettings F)
    (S : BCAnimationSampler F) (ob : Object F) (bone : Bone) : Option (List (Event F)) :=
  let frames := S.get_frame_set_bone ob bone
  if frames.length ≠ 0 then
    let samples := (S.get_bone_matrix_samples ob bone).1
    let is_flat := (S.get_bone_matrix_samples ob bone).2
    if !is_flat then export_bone_animation E st ob bone frames samples
    else some []
  else some []

mutual
/-- Function AnimationExporter::export_bone_animations_recursive (lines
276-291). -/
def export_bone_animations_recursive {F : Type} (E : Externals F) (st : ExportSettings F)
    (S : BCAnimationSampler F) (ob : Object F) : Bone → Option (List (Event F))
  | Bone.mk name flag childbase =>
    match export_bone_own_animation E st S ob (Bone.mk name flag childbase) with
    | none => none
    | some own =>
      match export_bone_animations_list E st S ob childbase with
      | none => none
      | some below => some (own ++ below)
/-- The loop `for (bone = first; bone; bone = bone->next)` that calls
export_bone_animations_recursive on each bone of a sibling list (lines 289-290
for the children, lines 200-201 for the root bones). -/
def export_bone_animations_list {F : Type} (E : Externals F) (st : ExportSettings F)
    (S : BCAnimationSampler F) (ob : Object F) : List Bone → Option (List (Event F))
  | [] => some []
  | bone :: rest =>
    match export_bone_animations_recursive E st S ob bone with
    | none => none
    | some first =>
      match export_bone_animations_list E st S ob rest with
      | none => none
      | some others => some (first ++ others)
end

/-- The loop of export_curve_animation_set over the curves of the object (lines
227-250). -/
def export_curve_animation_set_loop {F : Type} (E : Externals F) (st : ExportSettings F)
    (S : BCAnimationSampler F) (ob : Object F) (samples : List (Int × BCSample F))
    (export_tm_curves : Bool) : List (BCAnimationCurve F) → Option (List (Event F))
  | [] => some []
  | curve :: rest =>
    if curve.channel_target = "rotation_quaternion" then
      export_curve_animation_set_loop E st S ob samples export_tm_curves rest
    else if !export_tm_curves && E.is_transform_curve curve then
      export_curve_animation_set_loop E st S ob samples export_tm_curves rest
    else
      let curve := S.add_value_set curve samples st.export_animation_type
      if E.is_flat curve then
        export_curve_animation_set_loop E st S ob samples export_tm_curves rest
      else
        match export_curve_animation E st S ob curve with
        | none => none
        | some record =>
          match export_curve_animation_set_loop E st S ob samples export_tm_curves rest with
          | none => none
          | some records => some (record ++ records)

/-- Function AnimationExporter::export_curve_animation_set (lines 218-251). -/
def export_curve_animation_set {F : Type} (E : Externals F) (st : ExportSettings F)
    (S : BCAnimationSampler F) (ob : Object F) (export_tm_curves : Bool) :
    Option (List (Event F)) :=
  let curves := S.get_curves ob
  let samples := S.get_samples ob
  export_curve_animation_set_loop E st S ob samples export_tm_curves curves

/-- Function AnimationExporter::exportAnimation (lines 173-205). -/
def exportAnimation {F : Type} (E : Externals F) (st : ExportSettings F)
    (S : BCAnimationSampler F) (ob : Object F) : Option (List (Event F)) :=
  let container_is_open := false
  let opened := open_animation_container E container_is_open ob
  let container_is_open := opened.1
  let export_tm_curves : Bool :=
    decide (st.export_transformation_type = BC_TRANSFORMATION_TYPE_TRANSROTLOC)
  let matrix := if !export_tm_curves then export_matrix_animation E st S ob else []
  match export_curve_animation_set E st S ob export_tm_curves with
  | none => none
  | some curves =>
    let bones : Option (List (Event F)) :=
      match ob.data with
      | ObjectData.armature bonebase => export_bone_animations_list E st S ob bonebase
      | ObjectData.other => some []
    match bones with
    | none => none
    | some bones =>
      some (opened.2 ++ matrix ++ curves ++ bones ++ close_animation_container container_is_open)

/-- The loop of exportAnimations over the export set (lines 131-136): the
objects passed to `add_object`, in order. -/
def add_object_loop {F : Type} [DecidableEq F] (animated_subset : List (Object F)) :
    List (Object F) → List (Object F)
  | [] => []
  | ob :: rest =>
    if ob ∈ animated_subset then ob :: add_object_loop animated_subset rest
    else add_object_loop animated_subset rest

/-- The loop of exportAnimations over the animated subset (lines 149-152). -/
def exportAnimation_loop {F : Type} (E : Externals F) (st : ExportSettings F)
    (S : BCAnimationSampler F) : List (Object F) → Option (List (Event F))
  | [] => some []
  | ob :: rest =>
    match exportAnimation E st S ob with
    | none => none
    | some first =>
      match exportAnimation_loop E st S rest with
      | none => none
      | some others => some (first ++ others)

/-- Function AnimationExporter::exportAnimations (lines 119-169): the returned
flag and the trace.  `animated_subset` is a `std::set`, given by the list of its
elements in iteration order; the sampler that is created, filled by
`add_object`, run by `sample_scene` and deleted at the end is represented by
the results `sample_scene` leaves in it. -/
def exportAnimations {F : Type} [DecidableEq F] (E : Externals F) (st : ExportSettings F) :
    Option (Bool × List (Event F)) :=
  let has_anim_data := E.has_animations st.export_set
  if has_anim_data then
    let animated_subset := E.get_animated_subset st.export_set
    let added := add_object_loop animated_subset st.export_set
    let S := E.sample_scene added st.sampling_rate true st.open_sim st.keep_keyframes
      st.export_animation_type
    match exportAnimation_loop E st S animated_subset with
    | none => none
    | some exported =>
      some (has_anim_data,
        added.map Event.add_object ++
        [Event.sample_scene st.sampling_rate true st.open_sim st.keep_keyframes
          st.export_animation_type] ++
        [Event.openLibrary] ++ exported ++ [Event.closeLibrary])
  else some (has_anim_data, [])

/-! ## The exporter: Euler angles from quaternion curves -/

/-- The inner loop of get_eul_source_for_quat over the keyframes of one
quaternion F-curve (lines 339-342), for the indices still to visit: the table
`quats` after the writes `quats[i][fcu->array_index] = fcu->bezt[i].vec[1][1]`;
`none` when a row, a column or a keyframe outside its array is accessed. -/
def quat_write_loop {F : Type} (fcu : FCurve F) : List Nat → List (List F) →
    Option (List (List F))
  | [], quats => some quats
  | i :: rest, quats =>
    match quats.get? i with
    | none => none
    | some quat =>
      if fcu.array_index < 0 ∨ (quat.length : Int) ≤ fcu.array_index then none
      else
        match fcu.bezt.get? i with
        | none => none
        | some bezt =>
          match (bezt.vec.getD 1 []).get? 1 with
          | none => none
          | some value =>
            quat_write_loop fcu rest (quats.set i (quat.set fcu.array_index.toNat value))

/-- The loop of get_eul_source_for_quat over the F-curves of the action (lines
334-347), with the current `curve_count`. -/
def quat_curves_loop {F : Type} (E : Externals F) : List (FCurve F) → Int → List (List F) →
    Option (List (List F))
  | [], _, quats => some quats
  | fcu :: rest, curve_count, quats =>
    if E.bc_string_after fcu.rna_path '.' = "rotation_quaternion" then
      match quat_write_loop fcu (List.range fcu.totvert.toNat) quats with
      | none => none
      | some written =>
        if curve_count + 1 = 4 then some written
        else quat_curves_loop E rest (curve_count + 1) written
    else quat_curves_loop E rest curve_count quats

/-- Function AnimationExporter::get_eul_source_for_quat (lines 322-357): the
vector `values` after the call; `none` when the action or its first F-curve is
a null pointer or when the table of quaternions is accessed out of range. -/
def get_eul_source_for_quat {F : Type} (E : Externals F) (values : List F) (ob : Object F) :
    Option (List F) :=
  match ob.action with
  | none => none
  | some action =>
    match action.curves with
    | [] => none
    | fcu :: _ =>
      let keys := fcu.totvert
      let quats : List (List F) := List.replicate keys.toNat (List.replicate 4 E.fzero)
      match quat_curves_loop E action.curves 0 quats with
      | none => none
      | some quats =>
        some (values ++ quats.flatMap (fun quat =>
          [(E.quat_to_eul quat).1, (E.quat_to_eul quat).2.1, (E.quat_to_eul quat).2.2]))

/-! ## Vocabulary of the properties -/

/-- The trace of calling `f` on each element of a list in turn: the
concatenation of the traces of the calls, undefined as soon as one call is. -/
def for_each_call {α β : Type} (f : α → Option (List β)) : List α → Option (List β)
  | [] => some []
  | a :: rest =>
    match f a with
    | none => none
    | some first =>
      match for_each_call f rest with
      | none => none
      | some others => some (first ++ others)

/-- The curves of an object that the specification says are exported as curve
animations: those that are not quaternion curves and not transform curves
under combined-matrix export, prepared by `add_value_set`, and then not flat. -/
def curves_to_export {F : Type} (E : Externals F) (st : ExportSettings F)
    (S : BCAnimationSampler F) (ob : Object F) (export_tm_curves : Bool) :
    List (BCAnimationCurve F) :=
  (((S.get_curves ob).filter (fun curve =>
      decide (curve.channel_target ≠ "rotation_quaternion") &&
      !(!export_tm_curves && E.is_transform_curve curve))).map
    (fun curve => S.add_value_set curve (S.get_samples ob) st.export_animation_type)).filter
    (fun curve => !E.is_flat curve)

/-- The interpolation name the specification assigns to a sample frame: the
Bezier name for the kind Bezier, the step name for the kind Constant, the linear
name for every other kind. -/
def interpolation_name {F : Type} (E : Externals F) (curve : BCAnimationCurve F) (frame : F) :
    String :=
  if E.get_ipo curve frame = BEZT_IPO_BEZ then BEZIER_NAME
  else if E.get_ipo curve frame = BEZT_IPO_CONST then STEP_NAME
  else LINEAR_NAME

/-- Whether an event is a call that feeds or runs the sampler (`add_object`,
`sample_scene`). -/
def Event.is_sampler_call {F : Type} : Event F → Bool
  | Event.add_object _ => true
  | Event.sample_scene _ _ _ _ _ => true
  | _ => false

/-- Whether an event belongs to the export of an entity: an animation record
(its opening, sources, sampler, channel, closing), an entry of `anim_meta`, or
the creation or release of a temporary curve. -/
def Event.is_animation_event {F : Type} : Event F → Bool
  | Event.add_object _ => false
  | Event.sample_scene _ _ _ _ _ => false
  | Event.openLibrary => false
  | Event.closeLibrary => false
  | _ => true

/-- Whether collada_tangent_from_curve treats the channel of a curve as an
angle (line 667). -/
def tangent_is_angle {F : Type} (curve : BCAnimationCurve F) : Bool :=
  bc_startswith curve.channel_target "rotation" || decide (curve.channel_target = "spot_size")

/-- The (X, Y) pair the specification gives for one sampled value at one frame:
with `k` the authored keyframe at `closest_index_below(frame)`, X is the first
component of the requested handle of `k` and Y is the sampled value (in degrees
for an angle) plus the difference between the second component of the handle
and the value of `k`; `none` when there is no such keyframe. -/
def tangent_pair {F : Type} (E : Externals F) (curve : BCAnimationCurve F)
    (semantic : Semantics) (is_angle : Bool) (value frame : F) : Option (F × F) :=
  match curve.fcurve with
  | none => none
  | some fcu =>
    if E.closest_index_below curve frame < 0 then none
    else
      match fcu.bezt.get? (E.closest_index_below curve frame).toNat with
      | none => none
      | some k =>
        let handle :=
          if semantic = Semantics.IN_TANGENT then E.get_in_tangent k is_angle
          else E.get_out_tangent k is_angle
        some (handle.1,
          E.fadd (if is_angle then E.RAD2DEGF value else value)
            (E.fsub handle.2 (E.get_value k is_angle)))

/-- The pairs for the sampled values and the frames taken in step, one pair per
sampled value; `none` when the frames run out or a pair is undefined. -/
def tangent_pairs {F : Type} (E : Externals F) (curve : BCAnimationCurve F)
    (semantic : Semantics) (is_angle : Bool) : List F → List F → Option (List (F × F))
  | [], _ => some []
  | _ :: _, [] => none
  | value :: values, frame :: frames =>
    match tangent_pair E curve semantic is_angle value frame with
    | none => none
    | some pair =>
      match tangent_pairs E curve semantic is_angle values frames with
      | none => none
      | some pairs => some (pair :: pairs)

/-- Change of the nesting depth of animation records an event causes: one up
for the opening of a record, one down for the closing, none otherwise. -/
def Event.depth_change {F : Type} : Event F → Int
  | Event.openAnimation _ _ => 1
  | Event.closeAnimation => -1
  | _ => 0

/-- Run of a trace from nesting depth `d`: the depth after the trace, provided
the depth stays between `lo` and `hi` after every event; `none` otherwise. -/
def nesting {F : Type} (lo hi : Int) : Int → List (Event F) → Option Int
  | d, [] => some d
  | d, e :: rest =>
    if lo ≤ d + e.depth_change ∧ d + e.depth_change ≤ hi then
      nesting lo hi (d + e.depth_change) rest
    else none

/-- Whether a string ends with the given suffix. -/
def ends_with (s suffix : String) : Bool :=
  suffix.data.isSuffixOf s.data

/-- Whether an event is a source (float, name or matrix). -/
def Event.is_source {F : Type} : Event F → Bool
  | Event.float_source _ _ _ _ _ _ => true
  | Event.name_source _ _ _ _ _ _ => true
  | Event.matrix_source _ _ _ _ _ _ => true
  | _ => false

/-- Whether an event is a matrix (Float4x4) source. -/
def Event.is_matrix_source {F : Type} : Event F → Bool
  | Event.matrix_source _ _ _ _ _ _ => true
  | _ => false

/-- The combined-matrix animation record of the own transform of an object: the
record export_matrix_animation writes for it (lines 261-270). -/
def object_matrix_record {F : Type} (E : Externals F) (st : ExportSettings F)
    (S : BCAnimationSampler F) (ob : Object F) : List (Event F) :=
  export_collada_matrix_animation E st
    (E.bc_get_action_id
      (match ob.action with
        | none => ob.id_name ++ "-action"
        | some a => a.id_name)
      ob.id_name "transform" "" none)
    ob.id_name (E.translate_id ob.id_name ++ "/" ++ "transform")
    (S.get_frame_set ob) (S.get_matrix_samples ob).1

/-- The bone animations exportAnimation writes for an object (lines 191-202):
those of the root bones of an armature, nothing for another object. -/
def object_bone_animations {F : Type} (E : Externals F) (st : ExportSettings F)
    (S : BCAnimationSampler F) (ob : Object F) : Option (List (Event F)) :=
  match ob.data with
  | ObjectData.armature bonebase => export_bone_animations_list E st S ob bonebase
  | ObjectData.other => some []

/-! ## A small scene

A concrete scene over the integers, used to evaluate the exporter: a cube with
a location curve, a quaternion curve, a flat curve and a Bezier colour curve, a
camera with a lens curve, a lamp without animation, an object without frames
and an armature. -/

/-- Keyframe with knot (frame, value), handles one frame before and after. -/
def demo_bezt (frame value : Int) (ipo : Int) : BezTriple Int :=
  { vec := [[frame - 1, value - 2], [frame, value], [frame + 1, value + 3]], ipo := ipo }

/-- Authored colour F-curve of the cube: a Bezier key, then a constant key,
then a linear key. -/
def demo_color_fcurve : FCurve Int :=
  { rna_path := "color", array_index := 1, totvert := 3,
    bezt := [demo_bezt 0 10 BEZT_IPO_BEZ, demo_bezt 1 20 BEZT_IPO_CONST,
             demo_bezt 2 40 BEZT_IPO_LIN] }

/-- Colour curve (green component) of the cube. -/
def demo_color_curve : BCAnimationCurve Int :=
  { channel_target := "color", array_index := 1,
    channel_type := BC_ANIMATION_CURVE_TYPE_OBJECT, tm_type := BC_ANIMATION_TYPE_LIGHT_COLOR,
    tag := -1, samples := [(0, 10), (1, 20), (2, 40)], curve_is_local_copy := false,
    fcurve := some demo_color_fcurve }

/-- Location curve (X) of the cube, a transform curve. -/
def demo_location_curve : BCAnimationCurve Int :=
  { channel_target := "location", array_index := 0,
    channel_type := BC_ANIMATION_CURVE_TYPE_OBJECT, tm_type := BC_ANIMATION_TYPE_LOCATION,
    tag := -1, samples := [(0, 1), (1, 2)], curve_is_local_copy := false, fcurve := none }

/-- Quaternion curve of the cube. -/
def demo_quat_curve : BCAnimationCurve Int :=
  { channel_target := "rotation_quaternion", array_index := 0,
    channel_type := BC_ANIMATION_CURVE_TYPE_OBJECT, tm_type := BC_ANIMATION_TYPE_ROTATION_QUAT,
    tag := -1, samples := [(0, 1), (1, 2)], curve_is_local_copy := false, fcurve := none }

/-- Flat alpha curve of the cube. -/
def demo_flat_curve : BCAnimationCurve Int :=
  { channel_target := "alpha", array_index := 0,
    channel_type := BC_ANIMATION_CURVE_TYPE_OBJECT, tm_type := BC_ANIMATION_TYPE_ALPHA,
    tag := -1, samples := [(0, 5), (1, 5)], curve_is_local_copy := false, fcurve := none }

/-- Lens curve of the camera. -/
def demo_lens_curve : BCAnimationCurve Int :=
  { channel_target := "lens", array_index := 0,
    channel_type := BC_ANIMATION_CURVE_TYPE_CAMERA, tm_type := BC_ANIMATION_TYPE_LENS,
    tag := -1, samples := [(0, 35), (1, 50), (7, 85)], curve_is_local_copy := false,
    fcurve := none }

/-- Spot-size curve of a lamp, with two Bezier keyframes; its transform type
is the fall-off angle of the lamp. -/
def demo_spot_curve : BCAnimationCurve Int :=
  { channel_target := "spot_size", array_index := 0,
    channel_type := BC_ANIMATION_CURVE_TYPE_LIGHT,
    tm_type := BC_ANIMATION_TYPE_LIGHT_FALLOFF_ANGLE,
    tag := -1, samples := [(0, 10), (1, 20)], curve_is_local_copy := false,
    fcurve := some { rna_path := "spot_size", array_index := 0, totvert := 2,
                     bezt := [demo_bezt 0 10 BEZT_IPO_BEZ, demo_bezt 1 20 BEZT_IPO_BEZ] } }

/-- Material curve (diffuse colour, red component) of the cube, animating the
material of slot 1, which is empty in the scene. -/
def demo_material_curve : BCAnimationCurve Int :=
  { channel_target := "diffuse_color", array_index := 0,
    channel_type := BC_ANIMATION_CURVE_TYPE_MATERIAL,
    tm_type := BC_ANIMATION_TYPE_DIFFUSE_COLOR,
    tag := 0, samples := [(0, 1), (1, 2)], curve_is_local_copy := false, fcurve := none }

/-- Action of the animated objects. -/
def demo_action : bAction Int := { id_name := "Act", curves := [demo_color_fcurve] }

/-- Animated cube. -/
def demo_cube : Object Int := { id_name := "Cube", data := ObjectData.other, action := some demo_action }

/-- Animated camera. -/
def demo_camera : Object Int :=
  { id_name := "Camera", data := ObjectData.other, action := some demo_action }

/-- Lamp without animation data. -/
def demo_lamp : Object Int := { id_name := "Lamp", data := ObjectData.other, action := none }

/-- Animated object whose curves are all filtered out and that has no frames. -/
def demo_still : Object Int :=
  { id_name := "Still", data := ObjectData.other, action := some demo_action }

/-- Armature of the scene: root bone with two children, the first of which has
a child of its own. -/
def demo_armature : Object Int :=
  { id_name := "Rig",
    data := ObjectData.armature
      [Bone.mk "root" 0 [Bone.mk "arm" 0 [Bone.mk "hand" 0 []], Bone.mk "leg" 0 []]],
    action := some demo_action }

/-- Quaternion F-curve with two keyframes, for a component of the quaternion. -/
def demo_quat_fcurve (array_index : Int) (first second : Int) : FCurve Int :=
  { rna_path := "rotation_quaternion", array_index := array_index, totvert := 2,
    bezt := [demo_bezt 0 first BEZT_IPO_LIN, demo_bezt 10 second BEZT_IPO_LIN] }

/-- Action whose first F-curve, a location curve, has one keyframe and whose
quaternion curve has two. -/
def demo_short_action : bAction Int :=
  { id_name := "Spin",
    curves := [{ rna_path := "location", array_index := 0, totvert := 1,
                 bezt := [demo_bezt 0 5 BEZT_IPO_LIN] },
               demo_quat_fcurve 0 1 0] }

/-- Object animated by `demo_short_action`. -/
def demo_spinner : Object Int :=
  { id_name := "Spinner", data := ObjectData.other, action := some demo_short_action }

/-- Action with the four quaternion curves, two keyframes each. -/
def demo_quat_action : bAction Int :=
  { id_name := "Turn",
    curves := [demo_quat_fcurve 0 1 0, demo_quat_fcurve 1 0 1, demo_quat_fcurve 2 0 2,
               demo_quat_fcurve 3 0 3] }

/-- Object animated by `demo_quat_action`. -/
def demo_turner : Object Int :=
  { id_name := "Turner", data := ObjectData.other, action := some demo_quat_action }

/-- Sample of the scene: unit matrix, camera with lens 50 and sensor width 36. -/
def demo_sample : BCSample Int :=
  { matrix := { matrix := [[1, 0, 0, 0], [0, 1, 0, 0], [0, 0, 1, 0], [0, 0, 0, 1]] },
    camera := { lens := 50, xfov := 0, xsensor := 36, ysensor := 24, xmag := 0, zfar := 100,
                znear := 1 } }

/-- Sampler results of the scene. -/
def demo_sampler : BCAnimationSampler Int :=
  { get_curves := fun ob =>
      if ob.id_name = "Cube" then
        [demo_color_curve, demo_flat_curve, demo_location_curve, demo_quat_curve]
      else if ob.id_name = "Camera" then [demo_lens_curve]
      else if ob.id_name = "Still" then [demo_flat_curve, demo_quat_curve]
      else [],
    get_samples := fun _ => [(0, demo_sample), (1, demo_sample)],
    get_frame_set := fun ob => if ob.id_name = "Cube" then [0, 1] else [],
    get_frame_set_bone := fun _ bone => if bone.name = "arm" then [] else [0, 1],
    get_matrix_samples := fun _ => ([(0, demo_sample.matrix), (1, demo_sample.matrix)], false),
    get_bone_matrix_samples := fun _ bone =>
      ([(0, demo_sample.matrix), (1, demo_sample.matrix)], decide (bone.name = "leg")),
    add_value_set := fun curve _ _ => curve }

/-- Entry [i][j] of the handle/knot vector of a keyframe. -/
def demo_vec (bezt : BezTriple Int) (i j : Nat) : Int :=
  ((bezt.vec.getD i []).getD j 0)

/-- Collaborators of the scene: integers stand for floats, `RAD2DEGF` is
multiplication by 57, `FRA2TIME` multiplication by 40, division is integer
division and the arc tangent is taken as multiplication by 1000.  Setting the
type of a curve by the path "xfov" gives it the type XFOV, and reset_values
empties its value map. -/
def demo_externals : Externals Int :=
  { RAD2DEGF := fun x => 57 * x,
    FRA2TIME := fun x => 40 * x,
    fadd := fun a b => a + b,
    fsub := fun a b => a - b,
    fmul := fun a b => a * b,
    fdiv := fun a b => a / b,
    atanf := fun x => 1000 * x,
    ftwo := 2,
    translate_id := fun s => s,
    bc_get_action_id := fun action_name ob_name channel_type axis_name axis_separator =>
      action_name ++ "_" ++ ob_name ++ "_" ++ channel_type ++
        (if axis_name = "" then "" else axis_separator.getD "_" ++ axis_name),
    give_current_material := fun _ _ => none,
    INPUT_SOURCE_ID_SUFFIX := "-input",
    OUTPUT_SOURCE_ID_SUFFIX := "-output",
    INTERPOLATION_SOURCE_ID_SUFFIX := "-interpolation",
    INTANGENT_SOURCE_ID_SUFFIX := "-intangent",
    OUTTANGENT_SOURCE_ID_SUFFIX := "-outtangent",
    ARRAY_ID_SUFFIX := "-array",
    SAMPLER_ID_SUFFIX := "-sampler",
    is_transform_curve := fun c =>
      decide (c.channel_target = "location" ∨ c.channel_target = "rotation_euler" ∨
        c.channel_target = "scale"),
    is_flat := fun c => c.samples.all (fun p => decide (p.2 = (c.samples.headD (0, 0)).2)),
    is_rot := fun c => decide (c.channel_target = "rotation_euler"),
    size := fun c => c.samples.length,
    get_sampled_frames := fun c => c.samples.map (fun p => p.1),
    get_sampled_values := fun c => c.samples.map (fun p => p.2),
    get_ipo := fun c frame =>
      match c.fcurve with
      | some fcu => ((fcu.bezt.get? frame.toNat).map (fun b => b.ipo)).getD BEZT_IPO_LIN
      | none => BEZT_IPO_LIN,
    closest_index_below := fun _ frame => frame,
    get_animation_name := fun _ ob => ob.id_name,
    set_transform_type := fun c path index =>
      { c with channel_target := path, array_index := index,
               tm_type := if path = "xfov" then BC_ANIMATION_TYPE_XFOV else c.tm_type },
    reset_values := fun c => { c with samples := [] },
    edit_fcurve_add_value := fun fcu _ _ => fcu,
    edit_fcurve_clean_handles := fun fcu => fcu,
    get_time := fun b => 40 * demo_vec b 1 0,
    get_value := fun b as_angle => if as_angle then 57 * demo_vec b 1 1 else demo_vec b 1 1,
    get_in_tangent := fun b as_angle =>
      (40 * demo_vec b 0 0, if as_angle then 57 * demo_vec b 0 1 else demo_vec b 0 1),
    get_out_tangent := fun b as_angle =>
      (40 * demo_vec b 2 0, if as_angle then 57 * demo_vec b 2 1 else demo_vec b 2 1),
    fzero := 0,
    quat_to_eul := fun quat => (quat.getD 1 0, quat.getD 2 0, quat.getD 3 0),
    bc_string_after := fun s c =>
      String.mk (s.data.reverse.takeWhile (fun x => decide (x ≠ c))).reverse,
    has_animations := fun set => set.any (fun ob => ob.action.isSome),
    get_animated_subset := fun set => set.filter (fun ob => ob.action.isSome),
    sample_scene := fun _ _ _ _ _ _ => demo_sampler }

/-- Export settings of the scene, for a transform-export mode and a choice of
keep_smooth_curves. -/
def demo_settings (mode : BC_export_transformation_type) (keep_smooth_curves : Bool) :
    ExportSettings Int :=
  { export_set := [demo_cube, demo_lamp, demo_camera],
    sampling_rate := 1, keyframe_at_end := false, open_sim := false, keep_keyframes := false,
    export_animation_type := BC_export_animation_type.BC_ANIMATION_EXPORT_SAMPLES,
    export_transformation_type := mode,
    keep_smooth_curves := keep_smooth_curves, limit_precision := true }

/-! ## Floats as expressions

A second choice of the float type: a float is the expression that computes it,
so that a value written by the exporter can be read as a formula. -/

/-- Number of binary digits of a natural number below `2 ^ fuel`. -/
def bit_length : Nat → Nat → Nat
  | 0, _ => 0
  | fuel + 1, n => if n = 0 then 0 else bit_length fuel (n / 2) + 1

/-- Rounding of an integer of magnitude below `2 ^ 128` to the nearest integer
that a binary32 float holds: 24 significant binary digits, a tie going to the
even significand. -/
def binary32_round (x : Int) : Int :=
  let n := x.natAbs
  let digits := bit_length 128 n
  if digits ≤ 24 then x
  else
    let unit := 2 ^ (digits - 24)
    let q := n / unit
    let r := n % unit
    let q := if unit < 2 * r ∨ (unit = 2 * r ∧ q % 2 = 1) then q + 1 else q
    if x < 0 then -((q * unit : Nat) : Int) else ((q * unit : Nat) : Int)

/-- Collaborators of the scene with binary32 addition and subtraction: the
exact sum or difference, rounded. -/
def rounded_externals : Externals Int :=
  { demo_externals with
    fadd := fun a b => binary32_round (a + b),
    fsub := fun a b => binary32_round (a - b) }

/-- Keyframe far from the origin: knot (0, 100000000), in-handle (-1, 1),
out-handle (1, 100000008); every entry is a binary32 value. -/
def demo_far_bezt : BezTriple Int :=
  { vec := [[-1, 1], [0, 100000000], [1, 100000008]], ipo := BEZT_IPO_BEZ }

/-- Location curve with the one keyframe `demo_far_bezt`, sampled at frame 0
with the value of the keyframe. -/
def demo_far_curve : BCAnimationCurve Int :=
  { channel_target := "location", array_index := 0,
    channel_type := BC_ANIMATION_CURVE_TYPE_OBJECT, tm_type := BC_ANIMATION_TYPE_LOCATION,
    tag := -1, samples := [(0, 100000000)], curve_is_local_copy := false,
    fcurve := some { rna_path := "location", array_index := 0, totvert := 1,
                     bezt := [demo_far_bezt] } }

/-- The armature of the scene without a scene action. -/
def demo_loose_armature : Object Int :=
  { id_name := "Loose",
    data := ObjectData.armature
      [Bone.mk "root" 0 [Bone.mk "arm" 0 [Bone.mk "hand" 0 []], Bone.mk "leg" 0 []]],
    action := none }

/-! ## Theorems -/

theorem map_find_channel_table (channel : String) :
    map_find BC_CHANNEL_NAME_FROM_TYPE channel =
      if channel ∈ ["color", "specular_color", "diffuse_color", "alpha"] then some ["R", "G", "B"]
      else if channel ∈ ["scale", "location", "rotation_euler"] then some ["X", "Y", "Z"]
      else none := by
  simp only [BC_CHANNEL_NAME_FROM_TYPE, map_find, List.mem_cons, List.mem_singleton,
    List.not_mem_nil, or_false]
  by_cases h1 : channel = "color"
  · simp [h1]
  by_cases h2 : channel = "specular_color"
  · simp [h2]
  by_cases h3 : channel = "diffuse_color"
  · simp [h3]
  by_cases h4 : channel = "alpha"
  · simp [h4]
  by_cases h5 : channel = "scale"
  · simp [h5]
  by_cases h6 : channel = "location"
  · simp [h6]
  by_cases h7 : channel = "rotation_euler"
  · simp [h7]
  simp [h1, h2, h3, h4, h5, h6, h7]

theorem to_size_t_of_nonneg (i : Int) (h0 : 0 ≤ i) (h1 : i < 2 ^ 31) :
    to_size_t i = i.toNat := by
  unfold to_size_t
  rw [Int.emod_eq_of_lt h0 (by omega)]

theorem to_size_t_of_neg (i : Int) (h0 : i < 0) (h1 : -2 ^ 31 ≤ i) :
    3 ≤ to_size_t i := by
  unfold to_size_t
  omega

/-- Claim C10.  For a C `int` id, get_axis_name returns the id-th entry of the
table row of the channel ("R","G","B" for color, specular_color, diffuse_color
and alpha; "X","Y","Z" for scale, location and rotation_euler) when the channel
is in the table and 0 <= id < 3, and the empty string in every other case (a
channel outside the table, id >= 3, id < 0); the result is never `none`, that
is, the row is never indexed outside its bounds. -/
theorem get_axis_name_spec (channel : String) (id : Int)
    (hlo : -2 ^ 31 ≤ id) (hhi : id < 2 ^ 31) :
    get_axis_name channel id =
      some (if 0 ≤ id ∧ id < 3 then
              (if channel ∈ ["color", "specular_color", "diffuse_color", "alpha"] then
                 ["R", "G", "B"].getD id.toNat ""
               else if channel ∈ ["scale", "location", "rotation_euler"] then
                 ["X", "Y", "Z"].getD id.toNat ""
               else "")
            else "") := by
  unfold get_axis_name
  rw [map_find_channel_table]
  by_cases hneg : id < 0
  · have h3 := to_size_t_of_neg id hneg hlo
    have hn : ¬ (0 ≤ id ∧ id < 3) := by omega
    rw [if_neg hn]
    split_ifs <;> simp <;> omega
  · have hnn : 0 ≤ id := by omega
    have hsz := to_size_t_of_nonneg id hnn hhi
    by_cases hbig : 3 ≤ id
    · have hn : ¬ (0 ≤ id ∧ id < 3) := by omega
      rw [if_neg hn, hsz]
      split_ifs <;> simp <;> omega
    · have hy : 0 ≤ id ∧ id < 3 := by omega
      rw [if_pos hy, hsz]
      have hcases : id = 0 ∨ id = 1 ∨ id = 2 := by omega
      rcases hcases with h | h | h <;> subst h <;> split_ifs <;> simp

/-- Witness for C10: the green component of a colour channel. -/
theorem get_axis_name_spec_witness :
    get_axis_name "color" 1 = some "G" := by
  have h := get_axis_name_spec "color" 1 (by decide) (by decide)
  simpa using h

/-! ### Deform groups -/

mutual
theorem is_bone_deform_group_iff_exists (N : Nat) :
    ∀ b : Bone, is_bone_deform_group N b = true ↔ ∃ d ∈ b.subtree, d.flag &&& N = 0
  | Bone.mk name flag cs => by
    have ih := is_bone_deform_group_children_iff_exists N cs
    unfold is_bone_deform_group
    by_cases h : flag &&& N = 0
    · rw [if_pos h]
      simp only [true_iff]
      exact ⟨Bone.mk name flag cs, by simp [Bone.subtree], h⟩
    · rw [if_neg h, ih]
      simp only [Bone.subtree, List.mem_cons]
      constructor
      · rintro ⟨d, hd, hf⟩
        exact ⟨d, Or.inr hd, hf⟩
      · rintro ⟨d, hd | hd, hf⟩
        · subst hd
          exact absurd hf h
        · exact ⟨d, hd, hf⟩
theorem is_bone_deform_group_children_iff_exists (N : Nat) :
    ∀ bs : List Bone,
      is_bone_deform_group_children N bs = true ↔ ∃ d ∈ Bone.subtree_list bs, d.flag &&& N = 0
  | [] => by simp [is_bone_deform_group_children, Bone.subtree_list]
  | c :: rest => by
    have ih1 := is_bone_deform_group_iff_exists N c
    have ih2 := is_bone_deform_group_children_iff_exists N rest
    unfold is_bone_deform_group_children
    by_cases h : is_bone_deform_group N c = true
    · rw [if_pos h]
      simp only [true_iff]
      obtain ⟨d, hd, hf⟩ := ih1.mp h
      exact ⟨d, by simp [Bone.subtree_list, hd], hf⟩
    · rw [if_neg h, ih2]
      simp only [Bone.subtree_list, List.mem_append]
      constructor
      · rintro ⟨d, hd, hf⟩
        exact ⟨d, Or.inr hd, hf⟩
      · rintro ⟨d, hd | hd, hf⟩
        · exact absurd (ih1.mpr ⟨d, hd, hf⟩) h
        · exact ⟨d, hd, hf⟩
end

theorem Bone.self_mem_subtree : ∀ b : Bone, b ∈ b.subtree
  | Bone.mk _ _ _ => by simp [Bone.subtree]

mutual
theorem Bone.subtree_trans : ∀ (r b d : Bone), b ∈ r.subtree → d ∈ b.subtree → d ∈ r.subtree
  | Bone.mk name flag cs, b, d, hb, hd => by
    simp only [Bone.subtree, List.mem_cons] at hb ⊢
    rcases hb with hb | hb
    · subst hb
      simpa [Bone.subtree] using hd
    · exact Or.inr (Bone.subtree_list_trans cs b d hb hd)
theorem Bone.subtree_list_trans :
    ∀ (rs : List Bone) (b d : Bone), b ∈ Bone.subtree_list rs → d ∈ b.subtree →
      d ∈ Bone.subtree_list rs
  | [], b, d, hb, _ => by simp [Bone.subtree_list] at hb
  | c :: rest, b, d, hb, hd => by
    simp only [Bone.subtree_list, List.mem_append] at hb ⊢
    rcases hb with hb | hb
    · exact Or.inl (Bone.subtree_trans c b d hb hd)
    · exact Or.inr (Bone.subtree_list_trans rest b d hb hd)
end

/-- Claim C9.  On every (finite) bone tree is_bone_deform_group is defined, and
it returns true if and only if the bone itself or one of its descendants at any
depth does not carry the no-deform flag.  Consequently, in the hierarchy below
`root` in which `leaf` is the only bone without the no-deform flag, it returns
true exactly for the bones whose subtree contains `leaf` (the leaf itself and
each of its ancestors) and false for every other bone. -/
theorem is_bone_deform_group_spec (N : Nat) (root : Bone) :
    (∀ b ∈ root.subtree,
      (is_bone_deform_group N b = true ↔ ∃ d ∈ b.subtree, d.flag &&& N = 0)) ∧
    (∀ leaf : Bone, leaf.flag &&& N = 0 →
      (∀ d ∈ root.subtree, d.flag &&& N = 0 → d = leaf) →
      ∀ b ∈ root.subtree,
        (leaf ∈ b.subtree → is_bone_deform_group N b = true) ∧
        (leaf ∉ b.subtree → is_bone_deform_group N b = false)) := by
  refine ⟨fun b _ => is_bone_deform_group_iff_exists N b, ?_⟩
  intro leaf hleaf honly b hb
  constructor
  · intro hmem
    exact (is_bone_deform_group_iff_exists N b).mpr ⟨leaf, hmem, hleaf⟩
  · intro hnot
    cases hres : is_bone_deform_group N b with
    | false => rfl
    | true =>
      obtain ⟨d, hd, hf⟩ := (is_bone_deform_group_iff_exists N b).mp hres
      have hdl : d = leaf := honly d (Bone.subtree_trans root b d hb hd) hf
      exact absurd (hdl ▸ hd) hnot

/-- Witness for C9: root > (mid > leaf, other), only `leaf` may deform. -/
theorem is_bone_deform_group_spec_witness :
    is_bone_deform_group 4096
        (Bone.mk "root" 4096 [Bone.mk "mid" 4096 [Bone.mk "leaf" 0 []], Bone.mk "other" 4096 []])
      = true ∧
    is_bone_deform_group 4096 (Bone.mk "mid" 4096 [Bone.mk "leaf" 0 []]) = true ∧
    is_bone_deform_group 4096 (Bone.mk "leaf" 0 []) = true ∧
    is_bone_deform_group 4096 (Bone.mk "other" 4096 []) = false := by
  have h := (is_bone_deform_group_spec 4096
    (Bone.mk "root" 4096 [Bone.mk "mid" 4096 [Bone.mk "leaf" 0 []], Bone.mk "other" 4096 []])).2
    (Bone.mk "leaf" 0 []) (by decide)
    (by
      intro d hd hf
      simp only [Bone.subtree, Bone.subtree_list, List.mem_cons, List.mem_append,
        List.append_nil, List.not_mem_nil, or_false, List.cons_append, List.nil_append] at hd
      rcases hd with rfl | rfl | rfl | rfl
      · exact absurd hf (by decide)
      · exact absurd hf (by decide)
      · rfl
      · exact absurd hf (by decide))
  refine ⟨(h _ ?_).1 ?_, (h _ ?_).1 ?_, (h _ ?_).1 ?_, (h _ ?_).2 ?_⟩ <;>
    simp [Bone.subtree, Bone.subtree_list]

/-! ### Curve animations of an object -/

theorem export_curve_animation_set_loop_eq {F : Type} (E : Externals F) (st : ExportSettings F)
    (S : BCAnimationSampler F) (ob : Object F) (samples : List (Int × BCSample F))
    (tm : Bool) (curves : List (BCAnimationCurve F)) :
    export_curve_animation_set_loop E st S ob samples tm curves =
      for_each_call (export_curve_animation E st S ob)
        (((curves.filter (fun curve =>
            decide (curve.channel_target ≠ "rotation_quaternion") &&
            !(!tm && E.is_transform_curve curve))).map
          (fun curve => S.add_value_set curve samples st.export_animation_type)).filter
          (fun curve => !E.is_flat curve)) := by
  induction curves with
  | nil => rfl
  | cons curve rest ih =>
    rw [export_curve_animation_set_loop]
    by_cases hq : curve.channel_target = "rotation_quaternion"
    · rw [if_pos hq, ih, List.filter_cons_of_neg (by simp [hq])]
    · rw [if_neg hq]
      by_cases ht : (!tm && E.is_transform_curve curve) = true
      · rw [if_pos ht, ih, List.filter_cons_of_neg (by simp [ht])]
      · rw [if_neg ht, List.filter_cons_of_pos (by simp [hq, ht]), List.map_cons]
        by_cases hf : E.is_flat (S.add_value_set curve samples st.export_animation_type) = true
        · simp only [hf, if_true]
          rw [ih, List.filter_cons_of_neg (by simp [hf])]
        · simp only [hf, if_false]
          rw [ih, List.filter_cons_of_pos (by simp [hf]), for_each_call]
          cases export_curve_animation E st S ob
              (S.add_value_set curve samples st.export_animation_type) with
          | none => rfl
          | some record =>
            dsimp only
            cases for_each_call (export_curve_animation E st S ob) _ <;> rfl

/-- Claim C1.  The trace of export_curve_animation_set is exactly the sequence
of the export_curve_animation calls for the curves of the object that satisfy
all three conditions, in the order of the curve map: a curve is passed to
export_curve_animation (after `add_value_set` prepared it) if and only if its
channel target is not "rotation_quaternion", it is not a transform curve while
`export_tm_curves` is false, and the prepared curve is not flat.  No quaternion
curve and no flat curve is ever passed on. -/
theorem export_curve_animation_set_spec {F : Type} (E : Externals F) (st : ExportSettings F)
    (S : BCAnimationSampler F) (ob : Object F) (export_tm_curves : Bool) :
    export_curve_animation_set E st S ob export_tm_curves =
        for_each_call (export_curve_animation E st S ob)
          (curves_to_export E st S ob export_tm_curves) ∧
    (∀ prepared : BCAnimationCurve F,
      prepared ∈ curves_to_export E st S ob export_tm_curves ↔
        ∃ curve ∈ S.get_curves ob,
          prepared = S.add_value_set curve (S.get_samples ob) st.export_animation_type ∧
          curve.channel_target ≠ "rotation_quaternion" ∧
          ¬ (export_tm_curves = false ∧ E.is_transform_curve curve = true) ∧
          E.is_flat prepared = false) := by
  refine ⟨export_curve_animation_set_loop_eq E st S ob _ export_tm_curves _, ?_⟩
  intro prepared
  simp only [curves_to_export, List.mem_filter, List.mem_map, Bool.and_eq_true,
    decide_eq_true_eq, Bool.not_eq_true', Bool.and_eq_false_imp, Bool.not_eq_eq_eq_not,
    Bool.not_true, Bool.not_false]
  constructor
  · rintro ⟨⟨curve, ⟨hmem, hq, ht⟩, rfl⟩, hflat⟩
    refine ⟨curve, hmem, rfl, hq, ?_, hflat⟩
    rintro ⟨h1, h2⟩
    have := ht h1
    simp [h2] at this
  · rintro ⟨curve, hmem, rfl, hq, ht, hflat⟩
    refine ⟨⟨curve, ⟨hmem, hq, ?_⟩, rfl⟩, hflat⟩
    intro h1
    cases h2 : E.is_transform_curve curve with
    | false => rfl
    | true => exact absurd ⟨h1, h2⟩ ht

/-! ### Matrix animation of an object -/

theorem export_matrix_animation_eq {F : Type} (E : Externals F) (st : ExportSettings F)
    (S : BCAnimationSampler F) (ob : Object F) :
    export_matrix_animation E st S ob =
      if 0 < (S.get_frame_set ob).length ∧ (S.get_matrix_samples ob).2 = false then
        object_matrix_record E st S ob
      else [] := by
  unfold export_matrix_animation object_matrix_record
  by_cases hfr : 0 < (S.get_frame_set ob).length
  · cases hflat : (S.get_matrix_samples ob).2 <;> simp [hfr]
  · simp [hfr]

theorem exportAnimation_eq {F : Type} (E : Externals F) (st : ExportSettings F)
    (S : BCAnimationSampler F) (ob : Object F) :
    exportAnimation E st S ob =
      match export_curve_animation_set E st S ob
              (decide (st.export_transformation_type = BC_TRANSFORMATION_TYPE_TRANSROTLOC)),
            object_bone_animations E st S ob with
      | some curves, some bones =>
        some ([Event.openAnimation ("action_container-" ++ E.translate_id ob.id_name) ob.id_name]
          ++ (if st.export_transformation_type ≠ BC_TRANSFORMATION_TYPE_TRANSROTLOC ∧
                0 < (S.get_frame_set ob).length ∧ (S.get_matrix_samples ob).2 = false
              then object_matrix_record E st S ob else [])
          ++ curves ++ bones ++ [Event.closeAnimation])
      | _, _ => none := by
  simp only [exportAnimation, export_matrix_animation_eq, open_animation_container,
    close_animation_container, object_bone_animations]
  cases export_curve_animation_set E st S ob
      (decide (st.export_transformation_type = BC_TRANSFORMATION_TYPE_TRANSROTLOC)) with
  | none => rfl
  | some curves =>
    have key : ∀ B : Option (List (Event F)),
        (match B with
          | none => none
          | some bones =>
            some (((((if (!false) = true then
                [Event.openAnimation ("action_container-" ++ E.translate_id ob.id_name)
                  ob.id_name] else []) ++
              (if (!decide (st.export_transformation_type =
                    BC_TRANSFORMATION_TYPE_TRANSROTLOC)) = true then
                (if 0 < (S.get_frame_set ob).length ∧ (S.get_matrix_samples ob).2 = false then
                  object_matrix_record E st S ob else [])
               else [])) ++ curves) ++ bones) ++
              (if true = true then [Event.closeAnimation] else []))) =
        (match some curves, B with
          | some curves, some bones =>
            some ([Event.openAnimation ("action_container-" ++ E.translate_id ob.id_name)
                ob.id_name]
              ++ (if st.export_transformation_type ≠ BC_TRANSFORMATION_TYPE_TRANSROTLOC ∧
                    0 < (S.get_frame_set ob).length ∧ (S.get_matrix_samples ob).2 = false
                  then object_matrix_record E st S ob else [])
              ++ curves ++ bones ++ [Event.closeAnimation])
          | _, _ => none) := by
      intro B
      cases B with
      | none => rfl
      | some bones =>
        by_cases hm : st.export_transformation_type = BC_TRANSFORMATION_TYPE_TRANSROTLOC
        · simp [hm]
        · simp [hm]
    exact key _

theorem collada_interpolation_source_events {F : Type} (E : Externals F)
    (curve : BCAnimationCurve F) (id axis : String) (r : (String × List (Event F)) × Bool)
    (h : collada_interpolation_source E curve id axis = some r) :
    ∃ names, r.1.2 = [Event.name_source r.1.1 (r.1.1 ++ E.ARRAY_ID_SUFFIX) (E.size curve) 1
      ["INTERPOLATION"] names] := by
  unfold collada_interpolation_source at h
  cases hl : interpolation_loop E curve (E.get_sampled_frames curve)
      (List.range (E.size curve)) with
  | none => simp [hl] at h
  | some p =>
    obtain ⟨names, ht⟩ := p
    simp only [hl, Option.some.injEq] at h
    subst h
    exact ⟨names, rfl⟩

theorem collada_tangent_from_curve_events {F : Type} (E : Externals F) (semantic : Semantics)
    (curve : BCAnimationCurve F) (frames : List F) (id axis : String)
    (r : String × List (Event F))
    (h : collada_tangent_from_curve E semantic curve frames id axis = some r) :
    ∃ params values, r.2 = [Event.float_source r.1 (r.1 ++ E.ARRAY_ID_SUFFIX) (E.size curve) 2
      params values] := by
  unfold collada_tangent_from_curve at h
  simp only at h
  split at h
  · exact absurd h (by simp)
  · simp only [Option.some.injEq] at h
    subst h
    exact ⟨_, _, rfl⟩

theorem export_collada_curve_animation_no_matrix {F : Type} (E : Externals F)
    (st : ExportSettings F) (id name target axis : String) (curve : BCAnimationCurve F)
    (trace : List (Event F))
    (h : export_collada_curve_animation E st id name target axis curve = some trace) :
    ∀ e ∈ trace, e.is_matrix_source = false := by
  unfold export_collada_curve_animation at h
  simp only at h
  split at h
  · exact absurd h (by simp)
  · rename_i interpolation has_tangents hint
    have hi : ∀ e ∈ interpolation.2, e.is_matrix_source = false := by
      by_cases hk : st.keep_smooth_curves = true
      · rw [if_pos hk] at hint
        obtain ⟨names, hn⟩ := collada_interpolation_source_events E curve id axis _ hint
        intro e he
        simp only at hn
        rw [hn] at he
        simp only [List.mem_singleton] at he
        subst he
        rfl
      · rw [if_neg hk] at hint
        simp only [Option.some.injEq, Prod.mk.injEq] at hint
        intro e he
        rw [← hint.1] at he
        simp only [collada_linear_interpolation_source, List.mem_singleton] at he
        subst he
        rfl
    split at h
    · exact absurd h (by simp)
    · rename_i intangent outtangent htan
      have ht : (∀ e ∈ intangent.2, e.is_matrix_source = false) ∧
          (∀ e ∈ outtangent.2, e.is_matrix_source = false) := by
        by_cases hh : has_tangents = true
        · rw [if_pos hh] at htan
          split at htan
          · rename_i a b ha hb
            simp only [Option.some.injEq, Prod.mk.injEq] at htan
            obtain ⟨_, _, h1⟩ := collada_tangent_from_curve_events E _ curve _ id axis a ha
            obtain ⟨_, _, h2⟩ := collada_tangent_from_curve_events E _ curve _ id axis b hb
            rw [← htan.1, ← htan.2, h1, h2]
            constructor <;>
            · intro e he
              simp only [List.mem_singleton] at he
              subst he
              rfl
          · exact absurd htan (by simp)
        · rw [if_neg hh] at htan
          simp only [Option.some.injEq, Prod.mk.injEq] at htan
          rw [← htan.1, ← htan.2]
          simp
      simp only [Option.some.injEq] at h
      subst h
      intro e he
      simp only [List.mem_append, List.mem_cons, List.mem_singleton, List.not_mem_nil,
        or_false, collada_source_from_values] at he
      rcases he with ((((((he | he) | he) | he) | he) | he) | he)
      · subst he; rfl
      · subst he; rfl
      · subst he; rfl
      · exact hi e he
      · exact ht.1 e he
      · exact ht.2 e he
      · rcases he with he | he | he <;> subst he <;> rfl

theorem export_curve_animation_cases {F : Type} (E : Externals F) (st : ExportSettings F)
    (S : BCAnimationSampler F) (ob : Object F) (icurve : BCAnimationCurve F)
    (trace : List (Event F)) (h : export_curve_animation E st S ob icurve = some trace) :
    ∃ id name target axis record,
      ((∃ m, get_modified_export_curve E S ob icurve = some m ∧
          export_collada_curve_animation E st id name target axis m = some record ∧
          trace = [Event.new_curve m] ++ record ++ [Event.delete_curve m]) ∨
       (get_modified_export_curve E S ob icurve = none ∧
          export_collada_curve_animation E st id name target axis icurve = some record ∧
          trace = record)) := by
  unfold export_curve_animation at h
  simp only at h
  split at h
  · exact absurd h (by simp)
  · rename_i axis hax
    split at h
    · exact absurd h (by simp)
    · rename_i target htarget
      split at h
      · exact absurd h (by simp)
      · rename_i record hrec
        cases hm : get_modified_export_curve E S ob icurve with
        | none =>
          rw [hm] at h hrec
          simp only [Option.some.injEq] at h
          exact ⟨_, _, _, _, record, Or.inr ⟨rfl, hrec, h.symm⟩⟩
        | some m =>
          rw [hm] at h hrec
          simp only [Option.some.injEq] at h
          exact ⟨_, _, _, _, record, Or.inl ⟨m, rfl, hrec, h.symm⟩⟩

theorem export_curve_animation_no_matrix {F : Type} (E : Externals F) (st : ExportSettings F)
    (S : BCAnimationSampler F) (ob : Object F) (icurve : BCAnimationCurve F)
    (trace : List (Event F)) (h : export_curve_animation E st S ob icurve = some trace) :
    ∀ e ∈ trace, e.is_matrix_source = false := by
  obtain ⟨id, name, target, axis, record, hcase⟩ :=
    export_curve_animation_cases E st S ob icurve trace h
  rcases hcase with ⟨m, _, hrec, rfl⟩ | ⟨_, hrec, rfl⟩
  · intro e he
    simp only [List.mem_append, List.mem_singleton] at he
    rcases he with (he | he) | he
    · subst he; rfl
    · exact export_collada_curve_animation_no_matrix E st id name target axis m record hrec e he
    · subst he; rfl
  · exact export_collada_curve_animation_no_matrix E st id name target axis icurve _ hrec

theorem for_each_call_forall {α β : Type} (f : α → Option (List β)) (P : β → Prop)
    (hf : ∀ a t, f a = some t → ∀ e ∈ t, P e) :
    ∀ (l : List α) (trace : List β), for_each_call f l = some trace → ∀ e ∈ trace, P e := by
  intro l
  induction l with
  | nil =>
    intro trace h e he
    simp only [for_each_call, Option.some.injEq] at h
    subst h
    simp at he
  | cons a rest ih =>
    intro trace h e he
    rw [for_each_call] at h
    cases ha : f a with
    | none => simp [ha] at h
    | some first =>
      cases hr : for_each_call f rest with
      | none => simp [ha, hr] at h
      | some others =>
        simp only [ha, hr, Option.some.injEq] at h
        subst h
        rcases List.mem_append.mp he with he | he
        · exact hf a first ha e he
        · exact ih others hr e he

theorem export_curve_animation_set_no_matrix {F : Type} (E : Externals F)
    (st : ExportSettings F) (S : BCAnimationSampler F) (ob : Object F) (tm : Bool)
    (trace : List (Event F)) (h : export_curve_animation_set E st S ob tm = some trace) :
    ∀ e ∈ trace, e.is_matrix_source = false := by
  unfold export_curve_animation_set at h
  rw [export_curve_animation_set_loop_eq] at h
  exact for_each_call_forall _ _ (export_curve_animation_no_matrix E st S ob) _ trace h

theorem object_matrix_record_count {F : Type} (E : Externals F) (st : ExportSettings F)
    (S : BCAnimationSampler F) (ob : Object F) :
    (object_matrix_record E st S ob).countP Event.is_matrix_source = 1 := by
  simp [object_matrix_record, export_collada_matrix_animation, openAnimationWithClip,
    collada_source_from_values, collada_source_from_values_matrix,
    collada_linear_interpolation_source, List.countP_cons, Event.is_matrix_source]

/-- Claim C2.  The trace of exportAnimation on an object is the container
record around the matrix part, the curve part and the bone part; the matrix
part is the combined-matrix record of the object's own transform when the
transform-export mode is not TRANSROTLOC, the sampled frame set is non-empty
and the sampler reports the matrix samples as not flat, and it is empty in
every other case (separate-curves mode, zero frames, flat samples); computing it
never fails.  Curve records hold no matrix source, so for an object without
bones the trace holds a matrix source once under the three conditions and not
at all otherwise. -/
theorem exportAnimation_matrix_spec {F : Type} (E : Externals F) (st : ExportSettings F)
    (S : BCAnimationSampler F) (ob : Object F) :
    (exportAnimation E st S ob =
      match export_curve_animation_set E st S ob
              (decide (st.export_transformation_type = BC_TRANSFORMATION_TYPE_TRANSROTLOC)),
            object_bone_animations E st S ob with
      | some curves, some bones =>
        some ([Event.openAnimation ("action_container-" ++ E.translate_id ob.id_name) ob.id_name]
          ++ (if st.export_transformation_type ≠ BC_TRANSFORMATION_TYPE_TRANSROTLOC ∧
                0 < (S.get_frame_set ob).length ∧ (S.get_matrix_samples ob).2 = false
              then object_matrix_record E st S ob else [])
          ++ curves ++ bones ++ [Event.closeAnimation])
      | _, _ => none) ∧
    (object_matrix_record E st S ob).countP Event.is_matrix_source = 1 ∧
    (∀ trace, exportAnimation E st S ob = some trace → ob.data = ObjectData.other →
      trace.countP Event.is_matrix_source =
        if st.export_transformation_type ≠ BC_TRANSFORMATION_TYPE_TRANSROTLOC ∧
            0 < (S.get_frame_set ob).length ∧ (S.get_matrix_samples ob).2 = false
        then 1 else 0) := by
  refine ⟨exportAnimation_eq E st S ob, object_matrix_record_count E st S ob, ?_⟩
  intro trace h hdata
  rw [exportAnimation_eq] at h
  cases hc : export_curve_animation_set E st S ob
      (decide (st.export_transformation_type = BC_TRANSFORMATION_TYPE_TRANSROTLOC)) with
  | none => simp [hc] at h
  | some curves =>
    have hb : object_bone_animations E st S ob = some [] := by
      simp [object_bone_animations, hdata]
    simp only [hc, hb, Option.some.injEq] at h
    have hcz : curves.countP Event.is_matrix_source = 0 := by
      rw [List.countP_eq_zero]
      intro e he
      simp [export_curve_animation_set_no_matrix E st S ob _ curves hc e he]
    subst h
    by_cases hcond : st.export_transformation_type ≠ BC_TRANSFORMATION_TYPE_TRANSROTLOC ∧
        0 < (S.get_frame_set ob).length ∧ (S.get_matrix_samples ob).2 = false
    · rw [if_pos hcond, if_pos hcond]
      simp [List.countP_append, hcz, List.countP_cons, Event.is_matrix_source,
        object_matrix_record_count]
    · rw [if_neg hcond, if_neg hcond]
      simp [List.countP_append, hcz, List.countP_cons, Event.is_matrix_source]

/-- Witness for C2: the cube of the scene under combined-matrix export. -/
theorem exportAnimation_matrix_spec_witness :
    ∃ trace, exportAnimation demo_externals (demo_settings BC_TRANSFORMATION_TYPE_MATRIX true)
      demo_sampler demo_cube = some trace ∧ trace.countP Event.is_matrix_source = 1 := by
  cases h : exportAnimation demo_externals (demo_settings BC_TRANSFORMATION_TYPE_MATRIX true)
      demo_sampler demo_cube with
  | none => exact absurd h (by decide)
  | some trace =>
    exact ⟨trace, rfl, by
      simpa using (exportAnimation_matrix_spec demo_externals _ demo_sampler demo_cube).2.2
        trace h rfl⟩

/-! ### The container of an object -/

/-- Claim C3.  The claim asks that the container of an object is opened only
if a curve, matrix or bone record is emitted for the object, so that no empty
container is written.  exportAnimation opens the container as its first step,
before it knows what will be exported: the object `Still` of the scene has only
a flat and a quaternion curve, no frames and no bones, so in either
transform-export mode no matrix, curve or bone record is emitted for it, and
its trace is the container opened and closed with nothing inside. -/
theorem exportAnimation_empty_container :
    export_matrix_animation demo_externals (demo_settings BC_TRANSFORMATION_TYPE_MATRIX false)
      demo_sampler demo_still = [] ∧
    export_curve_animation_set demo_externals
      (demo_settings BC_TRANSFORMATION_TYPE_MATRIX false) demo_sampler demo_still false =
      some [] ∧
    export_curve_animation_set demo_externals
      (demo_settings BC_TRANSFORMATION_TYPE_TRANSROTLOC false) demo_sampler demo_still true =
      some [] ∧
    object_bone_animations demo_externals (demo_settings BC_TRANSFORMATION_TYPE_MATRIX false)
      demo_sampler demo_still = some [] ∧
    exportAnimation demo_externals (demo_settings BC_TRANSFORMATION_TYPE_MATRIX false)
      demo_sampler demo_still =
      some [Event.openAnimation "action_container-Still" "Still", Event.closeAnimation] ∧
    exportAnimation demo_externals (demo_settings BC_TRANSFORMATION_TYPE_TRANSROTLOC false)
      demo_sampler demo_still =
      some [Event.openAnimation "action_container-Still" "Still", Event.closeAnimation] := by
  decide

/-- The trace of exportAnimation as the code writes it: whenever the call
returns, the trace is the record that opens the container of the object, the
matrix, curve and bone records of the object, and the record that closes the
container; when no record is emitted the two container records are all there
is. -/
theorem exportAnimation_container_spec {F : Type} (E : Externals F) (st : ExportSettings F)
    (S : BCAnimationSampler F) (ob : Object F) (trace : List (Event F))
    (h : exportAnimation E st S ob = some trace) :
    ∃ curves bones,
      export_curve_animation_set E st S ob
        (decide (st.export_transformation_type = BC_TRANSFORMATION_TYPE_TRANSROTLOC)) =
          some curves ∧
      object_bone_animations E st S ob = some bones ∧
      trace =
        [Event.openAnimation ("action_container-" ++ E.translate_id ob.id_name) ob.id_name] ++
        ((if st.export_transformation_type ≠ BC_TRANSFORMATION_TYPE_TRANSROTLOC then
            export_matrix_animation E st S ob else []) ++ curves ++ bones) ++
        [Event.closeAnimation] ∧
      (((if st.export_transformation_type ≠ BC_TRANSFORMATION_TYPE_TRANSROTLOC then
            export_matrix_animation E st S ob else []) ++ curves ++ bones) = [] →
        trace =
          [Event.openAnimation ("action_container-" ++ E.translate_id ob.id_name) ob.id_name,
           Event.closeAnimation]) := by
  rw [exportAnimation_eq] at h
  cases hc : export_curve_animation_set E st S ob
      (decide (st.export_transformation_type = BC_TRANSFORMATION_TYPE_TRANSROTLOC)) with
  | none => simp [hc] at h
  | some curves =>
    cases hb : object_bone_animations E st S ob with
    | none => simp [hc, hb] at h
    | some bones =>
      simp only [hc, hb, Option.some.injEq] at h
      have ht : trace =
          [Event.openAnimation ("action_container-" ++ E.translate_id ob.id_name) ob.id_name] ++
          ((if st.export_transformation_type ≠ BC_TRANSFORMATION_TYPE_TRANSROTLOC then
              export_matrix_animation E st S ob else []) ++ curves ++ bones) ++
          [Event.closeAnimation] := by
        rw [← h, export_matrix_animation_eq]
        by_cases hm : st.export_transformation_type = BC_TRANSFORMATION_TYPE_TRANSROTLOC
        · simp [hm]
        · by_cases hcond : 0 < (S.get_frame_set ob).length ∧ (S.get_matrix_samples ob).2 = false
          · simp [hm, hcond]
          · simp [hm, hcond]
      refine ⟨curves, bones, rfl, rfl, ht, ?_⟩
      intro hempty
      rw [ht, hempty]
      rfl

/-- The trace of exportAnimation for the camera of the scene, whose container
holds one curve record. -/
theorem exportAnimation_container_spec_witness :
    ∃ trace curves, exportAnimation demo_externals
        (demo_settings BC_TRANSFORMATION_TYPE_TRANSROTLOC false) demo_sampler demo_camera =
        some trace ∧
      trace = [Event.openAnimation "action_container-Camera" "Camera"] ++ curves ++
        [Event.closeAnimation] := by
  cases h : exportAnimation demo_externals
      (demo_settings BC_TRANSFORMATION_TYPE_TRANSROTLOC false) demo_sampler demo_camera with
  | none => exact absurd h (by decide)
  | some trace =>
    obtain ⟨curves, bones, _, _, ht, _⟩ :=
      exportAnimation_container_spec demo_externals _ demo_sampler demo_camera trace h
    exact ⟨trace, _, rfl, ht⟩

/-! ### The export set -/

theorem add_object_loop_eq_filter {F : Type} [DecidableEq F]
    (animated_subset export_set : List (Object F)) :
    add_object_loop animated_subset export_set =
      export_set.filter (fun ob => decide (ob ∈ animated_subset)) := by
  induction export_set with
  | nil => rfl
  | cons ob rest ih =>
    rw [add_object_loop]
    by_cases h : ob ∈ animated_subset
    · rw [if_pos h, ih, List.filter_cons_of_pos (by simpa using h)]
    · rw [if_neg h, ih, List.filter_cons_of_neg (by simpa using h)]

theorem exportAnimation_loop_eq {F : Type} (E : Externals F) (st : ExportSettings F)
    (S : BCAnimationSampler F) (obs : List (Object F)) :
    exportAnimation_loop E st S obs = for_each_call (exportAnimation E st S) obs := by
  induction obs with
  | nil => rfl
  | cons ob rest ih =>
    rw [exportAnimation_loop, for_each_call, ih]
    cases exportAnimation E st S ob with
    | none => rfl
    | some first =>
      dsimp only
      cases for_each_call (exportAnimation E st S) rest <;> rfl

/-- Claim C4.  Without animation data exportAnimations emits nothing and
returns false.  With animation data its trace is: one `add_object` for each
entry of the export set that is in the animated subset, in the order of the
export set, and for no other object; one `sample_scene`; the library opening;
the traces of the exportAnimation calls for the elements of the animated
subset, each element once; the library closing.  When the export set lists
each object once and the animated subset (a set) is contained in it, an object
is added exactly once and exported exactly once if it is in the export set and
in the animated subset, and neither added nor exported otherwise. -/
theorem exportAnimations_spec {F : Type} [DecidableEq F] (E : Externals F)
    (st : ExportSettings F) :
    (E.has_animations st.export_set = false → exportAnimations E st = some (false, [])) ∧
    (E.has_animations st.export_set = true →
      exportAnimations E st =
        (for_each_call
          (exportAnimation E st
            (E.sample_scene
              (st.export_set.filter
                (fun ob => decide (ob ∈ E.get_animated_subset st.export_set)))
              st.sampling_rate true st.open_sim st.keep_keyframes st.export_animation_type))
          (E.get_animated_subset st.export_set)).map
        (fun exported =>
          (true,
            (st.export_set.filter
              (fun ob => decide (ob ∈ E.get_animated_subset st.export_set))).map
              Event.add_object ++
            [Event.sample_scene st.sampling_rate true st.open_sim st.keep_keyframes
              st.export_animation_type] ++
            [Event.openLibrary] ++ exported ++ [Event.closeLibrary]))) ∧
    (∀ ob : Object F,
      (st.export_set.filter
        (fun o => decide (o ∈ E.get_animated_subset st.export_set))).count ob =
        if ob ∈ E.get_animated_subset st.export_set then st.export_set.count ob else 0) ∧
    (st.export_set.Nodup → (E.get_animated_subset st.export_set).Nodup →
      (∀ ob ∈ E.get_animated_subset st.export_set, ob ∈ st.export_set) →
      ∀ ob : Object F,
        ((st.export_set.filter
          (fun o => decide (o ∈ E.get_animated_subset st.export_set))).count ob =
          if ob ∈ st.export_set ∧ ob ∈ E.get_animated_subset st.export_set then 1 else 0) ∧
        ((E.get_animated_subset st.export_set).count ob =
          if ob ∈ st.export_set ∧ ob ∈ E.get_animated_subset st.export_set then 1 else 0)) := by
  have hcount : ∀ ob : Object F,
      (st.export_set.filter
        (fun o => decide (o ∈ E.get_animated_subset st.export_set))).count ob =
        if ob ∈ E.get_animated_subset st.export_set then st.export_set.count ob else 0 := by
    intro ob
    by_cases ha : ob ∈ E.get_animated_subset st.export_set
    · rw [if_pos ha]
      exact List.count_filter (by simpa using ha)
    · rw [if_neg ha]
      apply List.count_eq_zero_of_not_mem
      intro hmem
      exact ha (by simpa using (List.mem_filter.mp hmem).2)
  refine ⟨?_, ?_, hcount, ?_⟩
  · intro h
    simp [exportAnimations, h]
  · intro h
    simp only [exportAnimations, h, if_true, add_object_loop_eq_filter, exportAnimation_loop_eq]
    cases for_each_call _ (E.get_animated_subset st.export_set) <;> rfl
  · intro hnd hand hsub ob
    constructor
    · rw [hcount]
      by_cases ha : ob ∈ E.get_animated_subset st.export_set
      · have he := hsub ob ha
        rw [if_pos ha, if_pos ⟨he, ha⟩]
        exact List.count_eq_one_of_mem hnd he
      · rw [if_neg ha, if_neg (fun hh => ha hh.2)]
    · by_cases ha : ob ∈ E.get_animated_subset st.export_set
      · rw [if_pos ⟨hsub ob ha, ha⟩]
        exact List.count_eq_one_of_mem hand ha
      · rw [if_neg (fun hh => ha hh.2)]
        exact List.count_eq_zero_of_not_mem ha

/-- Witness for C4: the export set cube, lamp, camera of the scene, in which
the lamp has no animation. -/
theorem exportAnimations_spec_witness :
    ((demo_settings BC_TRANSFORMATION_TYPE_TRANSROTLOC false).export_set.Nodup ∧
     (demo_externals.get_animated_subset
        (demo_settings BC_TRANSFORMATION_TYPE_TRANSROTLOC false).export_set).Nodup) ∧
    (([demo_cube, demo_lamp, demo_camera].filter
        (fun o => decide (o ∈ [demo_cube, demo_camera]))).count demo_cube = 1 ∧
      [demo_cube, demo_camera].count demo_cube = 1) ∧
    (([demo_cube, demo_lamp, demo_camera].filter
        (fun o => decide (o ∈ [demo_cube, demo_camera]))).count demo_lamp = 0 ∧
      [demo_cube, demo_camera].count demo_lamp = 0) := by
  have h := (exportAnimations_spec demo_externals
    (demo_settings BC_TRANSFORMATION_TYPE_TRANSROTLOC false)).2.2.2
    (by decide) (by decide) (by decide)
  exact ⟨⟨by decide, by decide⟩, h demo_cube, h demo_lamp⟩

/-! ### Interpolation -/

/-- Claim C5.  When keep_smooth_curves is false, export_collada_curve_animation
is defined for every curve and writes: the record opening, the input and the
output source, an interpolation source whose values are one "LINEAR" per
sampled frame and nothing else (with the frame count as accessor count), a
sampler with the three inputs INPUT, OUTPUT and INTERPOLATION and no tangent
input, the channel, and the record closing; no tangent source is written.
The interpolation kinds of the keyframes (`get_ipo`) play no part. -/
theorem export_collada_curve_animation_linear {F : Type} (E : Externals F)
    (st : ExportSettings F) (id name target axis : String) (curve : BCAnimationCurve F)
    (h : st.keep_smooth_curves = false) :
    export_collada_curve_animation E st id name target axis curve =
      some ([Event.openAnimation id name] ++
        (collada_source_from_values E BC_ANIMATION_TYPE_TIMEFRAME Semantics.INPUT
          (E.get_sampled_frames curve) false id axis).2 ++
        (collada_source_from_values E curve.tm_type Semantics.OUTPUT
          (E.get_sampled_values curve) (E.is_rot curve) id axis).2 ++
        [Event.name_source (id ++ E.INTERPOLATION_SOURCE_ID_SUFFIX)
          (id ++ E.INTERPOLATION_SOURCE_ID_SUFFIX ++ E.ARRAY_ID_SUFFIX)
          ((E.get_sampled_frames curve).length : Int) 1 ["INTERPOLATION"]
          (List.replicate (E.get_sampled_frames curve).length "LINEAR"),
         Event.addSampler (id ++ E.SAMPLER_ID_SUFFIX)
          [(Semantics.INPUT, id ++ E.INPUT_SOURCE_ID_SUFFIX),
           (Semantics.OUTPUT, id ++ E.OUTPUT_SOURCE_ID_SUFFIX),
           (Semantics.INTERPOLATION, id ++ E.INTERPOLATION_SOURCE_ID_SUFFIX)],
         Event.addChannel (id ++ E.SAMPLER_ID_SUFFIX) target,
         Event.closeAnimation]) := by
  simp [export_collada_curve_animation, h, collada_linear_interpolation_source,
    collada_source_from_values, get_semantic_suffix, curve_sampler_inputs, LINEAR_NAME]

/-- Witness for C5: the colour curve of the cube, whose keyframes are Bezier,
constant and linear, exported with keep_smooth_curves off. -/
theorem export_collada_curve_animation_linear_witness :
    export_collada_curve_animation demo_externals
        (demo_settings BC_TRANSFORMATION_TYPE_TRANSROTLOC false)
        "id" "Cube" "Cube/color.G" "G" demo_color_curve =
      some [Event.openAnimation "id" "Cube",
        Event.float_source "id-input" "id-input-array" 3 1 ["TIME"] [0, 40, 80],
        Event.float_source "id-output" "id-output-array" 3 1 ["G"] [10, 20, 40],
        Event.name_source "id-interpolation" "id-interpolation-array" 3 1 ["INTERPOLATION"]
          ["LINEAR", "LINEAR", "LINEAR"],
        Event.addSampler "id-sampler"
          [(Semantics.INPUT, "id-input"), (Semantics.OUTPUT, "id-output"),
           (Semantics.INTERPOLATION, "id-interpolation")],
        Event.addChannel "id-sampler" "Cube/color.G",
        Event.closeAnimation] := by
  rw [export_collada_curve_animation_linear demo_externals _ "id" "Cube" "Cube/color.G" "G"
    demo_color_curve rfl]
  decide

theorem interpolation_loop_range {F : Type} (E : Externals F) (curve : BCAnimationCurve F)
    (frames : List F) :
    ∀ n k, k + n ≤ frames.length →
      interpolation_loop E curve frames (List.range' k n) =
        some (((frames.drop k).take n).map (interpolation_name E curve),
              ((frames.drop k).take n).any
                (fun frame => decide (E.get_ipo curve frame = BEZT_IPO_BEZ))) := by
  intro n
  induction n with
  | zero =>
    intro k _
    simp [interpolation_loop]
  | succ n ih =>
    intro k hk
    have hlt : k < frames.length := by omega
    have hget : frames.get? k = some frames[k] := by
      rw [List.get?_eq_getElem?, List.getElem?_eq_getElem hlt]
    have hdrop : frames.drop k = frames[k] :: frames.drop (k + 1) :=
      List.drop_eq_getElem_cons hlt
    rw [List.range'_succ, interpolation_loop, hget]
    simp only
    rw [ih (k + 1) (by omega), hdrop]
    simp only [List.take_succ_cons, List.map_cons, List.any_cons, interpolation_name]
    by_cases hb : E.get_ipo curve frames[k] = BEZT_IPO_BEZ
    · simp [hb]
    · by_cases hc : E.get_ipo curve frames[k] = BEZT_IPO_CONST
      · have hne : ¬ BEZT_IPO_CONST = BEZT_IPO_BEZ := by decide
        simp [hc, hne]
      · simp [hb, hc]

theorem interpolation_name_eq_bezier {F : Type} (E : Externals F) (curve : BCAnimationCurve F)
    (frame : F) :
    interpolation_name E curve frame = BEZIER_NAME ↔ E.get_ipo curve frame = BEZT_IPO_BEZ := by
  unfold interpolation_name
  by_cases hb : E.get_ipo curve frame = BEZT_IPO_BEZ
  · simp [hb]
  · by_cases hc : E.get_ipo curve frame = BEZT_IPO_CONST
    · simp only [hb, hc, if_false, if_true, iff_false]
      decide
    · simp only [hb, hc, if_false, iff_false]
      decide

/-- Claim C6.  For a curve whose sampled frames cover its `size()` samples,
collada_interpolation_source is defined and writes one name per sample, in
frame order: the Bezier name for the kind Bezier, the step name for Constant,
the linear name for every other kind; `has_tangents` is left true if and only if
one of the names written is the Bezier name.  With keep_smooth_curves on,
export_collada_curve_animation then gives its sampler exactly the inputs INPUT,
OUTPUT and INTERPOLATION and writes no tangent source when `has_tangents` is
false, and adds the two tangent sources and the inputs IN_TANGENT and
OUT_TANGENT after them when it is true. -/
theorem collada_interpolation_source_spec {F : Type} (E : Externals F)
    (curve : BCAnimationCurve F) (id axis : String)
    (hsize : E.size curve ≤ (E.get_sampled_frames curve).length) :
    ∃ (names : List String) (has_tangents : Bool),
      collada_interpolation_source E curve id axis =
        some ((id ++ E.INTERPOLATION_SOURCE_ID_SUFFIX,
          [Event.name_source (id ++ E.INTERPOLATION_SOURCE_ID_SUFFIX)
            (id ++ E.INTERPOLATION_SOURCE_ID_SUFFIX ++ E.ARRAY_ID_SUFFIX) (E.size curve) 1
            ["INTERPOLATION"] names]), has_tangents) ∧
      names = ((E.get_sampled_frames curve).take (E.size curve)).map
        (interpolation_name E curve) ∧
      names.length = E.size curve ∧
      (has_tangents = true ↔ BEZIER_NAME ∈ names) ∧
      (∀ (st : ExportSettings F) (name target : String), st.keep_smooth_curves = true →
        (has_tangents = false →
          export_collada_curve_animation E st id name target axis curve =
            some ([Event.openAnimation id name] ++
              (collada_source_from_values E BC_ANIMATION_TYPE_TIMEFRAME Semantics.INPUT
                (E.get_sampled_frames curve) false id axis).2 ++
              (collada_source_from_values E curve.tm_type Semantics.OUTPUT
                (E.get_sampled_values curve) (E.is_rot curve) id axis).2 ++
              [Event.name_source (id ++ E.INTERPOLATION_SOURCE_ID_SUFFIX)
                (id ++ E.INTERPOLATION_SOURCE_ID_SUFFIX ++ E.ARRAY_ID_SUFFIX) (E.size curve) 1
                ["INTERPOLATION"] names,
               Event.addSampler (id ++ E.SAMPLER_ID_SUFFIX)
                [(Semantics.INPUT, id ++ E.INPUT_SOURCE_ID_SUFFIX),
                 (Semantics.OUTPUT, id ++ E.OUTPUT_SOURCE_ID_SUFFIX),
                 (Semantics.INTERPOLATION, id ++ E.INTERPOLATION_SOURCE_ID_SUFFIX)],
               Event.addChannel (id ++ E.SAMPLER_ID_SUFFIX) target,
               Event.closeAnimation])) ∧
        (has_tangents = true →
          export_collada_curve_animation E st id name target axis curve =
            match collada_tangent_from_curve E Semantics.IN_TANGENT curve
                    (E.get_sampled_frames curve) id axis,
                  collada_tangent_from_curve E Semantics.OUT_TANGENT curve
                    (E.get_sampled_frames curve) id axis with
            | some intangent, some outtangent =>
              some ([Event.openAnimation id name] ++
                (collada_source_from_values E BC_ANIMATION_TYPE_TIMEFRAME Semantics.INPUT
                  (E.get_sampled_frames curve) false id axis).2 ++
                (collada_source_from_values E curve.tm_type Semantics.OUTPUT
                  (E.get_sampled_values curve) (E.is_rot curve) id axis).2 ++
                [Event.name_source (id ++ E.INTERPOLATION_SOURCE_ID_SUFFIX)
                  (id ++ E.INTERPOLATION_SOURCE_ID_SUFFIX ++ E.ARRAY_ID_SUFFIX) (E.size curve)
                  1 ["INTERPOLATION"] names] ++
                intangent.2 ++ outtangent.2 ++
                [Event.addSampler (id ++ E.SAMPLER_ID_SUFFIX)
                  [(Semantics.INPUT, id ++ E.INPUT_SOURCE_ID_SUFFIX),
                   (Semantics.OUTPUT, id ++ E.OUTPUT_SOURCE_ID_SUFFIX),
                   (Semantics.INTERPOLATION, id ++ E.INTERPOLATION_SOURCE_ID_SUFFIX),
                   (Semantics.IN_TANGENT, intangent.1),
                   (Semantics.OUT_TANGENT, outtangent.1)],
                 Event.addChannel (id ++ E.SAMPLER_ID_SUFFIX) target,
                 Event.closeAnimation])
            | _, _ => none)) := by
  have hloop := interpolation_loop_range E curve (E.get_sampled_frames curve) (E.size curve) 0
    (by omega)
  rw [← List.range_eq_range', List.drop_zero] at hloop
  have hsrc : collada_interpolation_source E curve id axis =
      some ((id ++ E.INTERPOLATION_SOURCE_ID_SUFFIX,
        [Event.name_source (id ++ E.INTERPOLATION_SOURCE_ID_SUFFIX)
          (id ++ E.INTERPOLATION_SOURCE_ID_SUFFIX ++ E.ARRAY_ID_SUFFIX) (E.size curve) 1
          ["INTERPOLATION"]
          (((E.get_sampled_frames curve).take (E.size curve)).map
            (interpolation_name E curve))]),
        ((E.get_sampled_frames curve).take (E.size curve)).any
          (fun frame => decide (E.get_ipo curve frame = BEZT_IPO_BEZ))) := by
    simp [collada_interpolation_source, hloop, get_semantic_suffix]
  refine ⟨_, _, hsrc, rfl, ?_, ?_, ?_⟩
  · simp [List.length_take, hsize]
  · simp only [List.any_eq_true, decide_eq_true_eq, List.mem_map]
    constructor
    · rintro ⟨frame, hmem, hipo⟩
      exact ⟨frame, hmem, (interpolation_name_eq_bezier E curve frame).mpr hipo⟩
    · rintro ⟨frame, hmem, hname⟩
      exact ⟨frame, hmem, (interpolation_name_eq_bezier E curve frame).mp hname⟩
  · intro st name target hkeep
    constructor
    · intro hfalse
      simp [export_collada_curve_animation, hkeep, hsrc, hfalse, collada_source_from_values,
        get_semantic_suffix, curve_sampler_inputs]
    · intro htrue
      simp only [export_collada_curve_animation, hkeep, hsrc, htrue, if_true]
      cases collada_tangent_from_curve E Semantics.IN_TANGENT curve
          (E.get_sampled_frames curve) id axis with
      | none => rfl
      | some intangent =>
        cases collada_tangent_from_curve E Semantics.OUT_TANGENT curve
            (E.get_sampled_frames curve) id axis with
        | none => rfl
        | some outtangent =>
          simp [collada_source_from_values, get_semantic_suffix, curve_sampler_inputs]

/-- Witness for C6: the colour curve of the cube, with a Bezier, a constant and
a linear keyframe. -/
theorem collada_interpolation_source_spec_witness :
    collada_interpolation_source demo_externals demo_color_curve "id" "G" =
      some (("id-interpolation",
        [Event.name_source "id-interpolation" "id-interpolation-array" 3 1 ["INTERPOLATION"]
          ["BEZIER", "STEP", "LINEAR"]]), true) := by
  obtain ⟨names, has_tangents, hsrc, hnames, _, hbez, _⟩ :=
    collada_interpolation_source_spec demo_externals demo_color_curve "id" "G" (by decide)
  have h1 : names = ["BEZIER", "STEP", "LINEAR"] := by
    rw [hnames]
    decide
  have h2 : has_tangents = true := hbez.mpr (by rw [h1]; decide)
  rw [hsrc, h1, h2]
  rfl

/-! ### Conversion of the lens curve -/

theorem get_axis_name_defined (channel : String) (id : Int) :
    ∃ axis, get_axis_name channel id = some axis := by
  unfold get_axis_name
  cases map_find BC_CHANNEL_NAME_FROM_TYPE channel with
  | none => exact ⟨"", rfl⟩
  | some subchannel =>
    simp only
    by_cases h : to_size_t id ≥ subchannel.length
    · rw [if_pos h]
      exact ⟨"", rfl⟩
    · rw [if_neg h]
      have hlt : to_size_t id < subchannel.length := by omega
      exact ⟨subchannel[to_size_t id], by
        rw [List.get?_eq_getElem?, List.getElem?_eq_getElem hlt]⟩

theorem export_collada_curve_animation_shape {F : Type} (E : Externals F)
    (st : ExportSettings F) (id name target axis : String) (curve : BCAnimationCurve F)
    (record : List (Event F))
    (h : export_collada_curve_animation E st id name target axis curve = some record) :
    ∃ sources inputs,
      record = [Event.openAnimation id name] ++ sources ++
        [Event.addSampler (id ++ E.SAMPLER_ID_SUFFIX) inputs,
         Event.addChannel (id ++ E.SAMPLER_ID_SUFFIX) target,
         Event.closeAnimation] ∧
      ∀ e ∈ sources, e.is_source = true := by
  unfold export_collada_curve_animation at h
  simp only at h
  split at h
  · exact absurd h (by simp)
  · rename_i interpolation has_tangents hint
    have hi : ∀ e ∈ interpolation.2, e.is_source = true := by
      by_cases hk : st.keep_smooth_curves = true
      · rw [if_pos hk] at hint
        obtain ⟨names, hn⟩ := collada_interpolation_source_events E curve id axis _ hint
        intro e he
        simp only at hn
        rw [hn] at he
        simp only [List.mem_singleton] at he
        subst he
        rfl
      · rw [if_neg hk] at hint
        simp only [Option.some.injEq, Prod.mk.injEq] at hint
        intro e he
        rw [← hint.1] at he
        simp only [collada_linear_interpolation_source, List.mem_singleton] at he
        subst he
        rfl
    split at h
    · exact absurd h (by simp)
    · rename_i intangent outtangent htan
      have ht : (∀ e ∈ intangent.2, e.is_source = true) ∧
          (∀ e ∈ outtangent.2, e.is_source = true) := by
        by_cases hh : has_tangents = true
        · rw [if_pos hh] at htan
          split at htan
          · rename_i a b ha hb
            simp only [Option.some.injEq, Prod.mk.injEq] at htan
            obtain ⟨_, _, h1⟩ := collada_tangent_from_curve_events E _ curve _ id axis a ha
            obtain ⟨_, _, h2⟩ := collada_tangent_from_curve_events E _ curve _ id axis b hb
            rw [← htan.1, ← htan.2, h1, h2]
            constructor <;>
            · intro e he
              simp only [List.mem_singleton] at he
              subst he
              rfl
          · exact absurd htan (by simp)
        · rw [if_neg hh] at htan
          simp only [Option.some.injEq, Prod.mk.injEq] at htan
          rw [← htan.1, ← htan.2]
          simp
      simp only [Option.some.injEq] at h
      refine ⟨(collada_source_from_values E BC_ANIMATION_TYPE_TIMEFRAME Semantics.INPUT
            (E.get_sampled_frames curve) false id axis).2 ++
          (collada_source_from_values E curve.tm_type Semantics.OUTPUT
            (E.get_sampled_values curve) (E.is_rot curve) id axis).2 ++
          interpolation.2 ++ intangent.2 ++ outtangent.2,
        curve_sampler_inputs
          (collada_source_from_values E BC_ANIMATION_TYPE_TIMEFRAME Semantics.INPUT
            (E.get_sampled_frames curve) false id axis).1
          (collada_source_from_values E curve.tm_type Semantics.OUTPUT
            (E.get_sampled_values curve) (E.is_rot curve) id axis).1
          interpolation.1 intangent.1 outtangent.1 has_tangents, ?_, ?_⟩
      · rw [← h]
        simp only [List.append_assoc]
      · intro e he
        simp only [List.mem_append, List.mem_singleton, collada_source_from_values] at he
        rcases he with (((he | he) | he) | he) | he
        · subst he; rfl
        · subst he; rfl
        · exact hi e he
        · exact ht.1 e he
        · exact ht.2 e he

theorem export_collada_curve_animation_defined {F : Type} (E : Externals F)
    (st : ExportSettings F) (id name target axis : String) (curve : BCAnimationCurve F)
    (h : st.keep_smooth_curves = false) :
    ∃ record, export_collada_curve_animation E st id name target axis curve = some record := by
  simp [export_collada_curve_animation, h]

theorem get_collada_sid_defined {F : Type} (curve : BCAnimationCurve F) (axis tm_name : String)
    (h : get_collada_name curve.tm_type = some tm_name) :
    ∃ sid, get_collada_sid curve axis = some sid := by
  unfold get_collada_sid
  rw [h]
  simp only
  split_ifs <;> exact ⟨_, rfl⟩

/-- Claim C8.  Whenever export_curve_animation returns, its trace holds exactly
one curve animation record (the opening of the record, its sources, its
sampler, its channel and the closing).  When get_modified_export_curve yields a
converted curve, the record is the record of the converted curve, preceded by
the creation of that curve and followed by its release, and no record of the
original curve is written; otherwise the record is the record of the original
curve and nothing is created or released.  The call does return when
keep_smooth_curves is off and the type of the exported curve has a Collada
name. -/
theorem export_curve_animation_spec {F : Type} (E : Externals F) (st : ExportSettings F)
    (S : BCAnimationSampler F) (ob : Object F) (icurve : BCAnimationCurve F) :
    (∀ trace, export_curve_animation E st S ob icurve = some trace →
      ∃ id name target axis sources inputs,
        (∀ e ∈ sources, e.is_source = true) ∧
        ((∃ m, get_modified_export_curve E S ob icurve = some m ∧
            export_collada_curve_animation E st id name target axis m =
              some ([Event.openAnimation id name] ++ sources ++
                [Event.addSampler (id ++ E.SAMPLER_ID_SUFFIX) inputs,
                 Event.addChannel (id ++ E.SAMPLER_ID_SUFFIX) target,
                 Event.closeAnimation]) ∧
            trace = [Event.new_curve m] ++
              ([Event.openAnimation id name] ++ sources ++
                [Event.addSampler (id ++ E.SAMPLER_ID_SUFFIX) inputs,
                 Event.addChannel (id ++ E.SAMPLER_ID_SUFFIX) target,
                 Event.closeAnimation]) ++
              [Event.delete_curve m]) ∨
         (get_modified_export_curve E S ob icurve = none ∧
            export_collada_curve_animation E st id name target axis icurve =
              some ([Event.openAnimation id name] ++ sources ++
                [Event.addSampler (id ++ E.SAMPLER_ID_SUFFIX) inputs,
                 Event.addChannel (id ++ E.SAMPLER_ID_SUFFIX) target,
                 Event.closeAnimation]) ∧
            trace = [Event.openAnimation id name] ++ sources ++
              [Event.addSampler (id ++ E.SAMPLER_ID_SUFFIX) inputs,
               Event.addChannel (id ++ E.SAMPLER_ID_SUFFIX) target,
               Event.closeAnimation]))) ∧
    (st.keep_smooth_curves = false →
      (∃ tm_name, get_collada_name
        (match get_modified_export_curve E S ob icurve with
          | some m => m
          | none => icurve).tm_type = some tm_name) →
      ∃ trace, export_curve_animation E st S ob icurve = some trace) := by
  constructor
  · intro trace h
    obtain ⟨id, name, target, axis, record, hcase⟩ :=
      export_curve_animation_cases E st S ob icurve trace h
    rcases hcase with ⟨m, hm, hrec, ht⟩ | ⟨hm, hrec, ht⟩
    · obtain ⟨sources, inputs, hshape, hsrc⟩ :=
        export_collada_curve_animation_shape E st id name target axis m record hrec
      subst hshape
      exact ⟨id, name, target, axis, sources, inputs, hsrc, Or.inl ⟨m, hm, hrec, ht⟩⟩
    · obtain ⟨sources, inputs, hshape, hsrc⟩ :=
        export_collada_curve_animation_shape E st id name target axis icurve record hrec
      subst hshape
      exact ⟨id, name, target, axis, sources, inputs, hsrc, Or.inr ⟨hm, hrec, ht⟩⟩
  · intro hkeep hname
    obtain ⟨tm_name, hname⟩ := hname
    unfold export_curve_animation
    simp only
    obtain ⟨axis, hax⟩ := get_axis_name_defined icurve.channel_target
      (match get_modified_export_curve E S ob icurve with
        | some m => m
        | none => icurve).array_index
    rw [hax]
    simp only
    obtain ⟨sid, hsid⟩ := get_collada_sid_defined _ axis tm_name hname
    rw [hsid]
    simp only
    have hrec := fun id name target curve =>
      export_collada_curve_animation_defined E st id name target axis curve hkeep
    by_cases hmat : icurve.channel_type = BC_ANIMATION_CURVE_TYPE_MATERIAL
    · rw [if_pos hmat]
      cases E.give_current_material ob
          ((match get_modified_export_curve E S ob icurve with
            | some m => m
            | none => icurve).tag + 1) with
      | none =>
        simp only
        obtain ⟨record, hr⟩ := hrec _ _ _ _
        rw [hr]
        cases get_modified_export_curve E S ob icurve <;> exact ⟨_, rfl⟩
      | some ma =>
        simp only
        obtain ⟨record, hr⟩ := hrec _ _ _ _
        rw [hr]
        cases get_modified_export_curve E S ob icurve <;> exact ⟨_, rfl⟩
    · rw [if_neg hmat]
      simp only
      obtain ⟨record, hr⟩ := hrec _ _ _ _
      rw [hr]
      cases get_modified_export_curve E S ob icurve <;> exact ⟨_, rfl⟩

/-- Witness for C8: the lens curve of the camera of the scene, which is
exported through a converted field-of-view curve. -/
theorem export_curve_animation_spec_witness :
    ∃ m record,
      get_modified_export_curve demo_externals demo_sampler demo_camera demo_lens_curve =
        some m ∧
      export_curve_animation demo_externals
        (demo_settings BC_TRANSFORMATION_TYPE_TRANSROTLOC false) demo_sampler demo_camera
        demo_lens_curve = some ([Event.new_curve m] ++ record ++ [Event.delete_curve m]) := by
  obtain ⟨trace, htrace⟩ := (export_curve_animation_spec demo_externals
    (demo_settings BC_TRANSFORMATION_TYPE_TRANSROTLOC false) demo_sampler demo_camera
    demo_lens_curve).2 rfl ⟨"xfov", rfl⟩
  obtain ⟨id, name, target, axis, sources, inputs, _, hcase⟩ :=
    (export_curve_animation_spec demo_externals
      (demo_settings BC_TRANSFORMATION_TYPE_TRANSROTLOC false) demo_sampler demo_camera
      demo_lens_curve).1 trace htrace
  rcases hcase with ⟨m, hm, _, ht⟩ | ⟨hm, _, _⟩
  · exact ⟨m, _, hm, by rw [htrace, ht]⟩
  · exact absurd hm (by decide)

/-! ### Collada names of the transform types -/

/-- Claim C11.  The claim asks get_collada_name to answer the empty string for a
type without table entry; the code looks the type up with `find` and reads
`name_it->second` without a test against `end()`.  The lookup is defined
exactly for the types of the table (with the empty name for UNKNOWN) and is a
dereference of the end iterator, here `none`, for the sensor-x, sensor-y and
timeframe types. -/
theorem get_collada_name_missing_entry :
    get_collada_name BC_ANIMATION_TYPE_SENSOR_X = none ∧
    get_collada_name BC_ANIMATION_TYPE_SENSOR_Y = none ∧
    get_collada_name BC_ANIMATION_TYPE_TIMEFRAME = none ∧
    get_collada_name BC_ANIMATION_TYPE_UNKNOWN = some "" ∧
    (∀ tm_type : BC_animation_transform_type,
      get_collada_name tm_type = none ↔
        (tm_type = BC_ANIMATION_TYPE_SENSOR_X ∨ tm_type = BC_ANIMATION_TYPE_SENSOR_Y ∨
         tm_type = BC_ANIMATION_TYPE_TIMEFRAME)) := by
  refine ⟨by decide, by decide, by decide, by decide, ?_⟩
  intro tm_type
  cases tm_type <;> decide

theorem get_axis_name_range (channel : String) (id : Int) (axis : String)
    (h : get_axis_name channel id = some axis) :
    axis ∈ ["", "R", "G", "B", "X", "Y", "Z"] := by
  unfold get_axis_name at h
  rw [map_find_channel_table] at h
  split_ifs at h with h1 h2
  · simp only at h
    split_ifs at h with h3
    · simp only [Option.some.injEq] at h
      subst h
      simp
    · have := List.get?_mem h
      simp only [List.mem_cons, List.mem_singleton, List.not_mem_nil, or_false] at this
      rcases this with rfl | rfl | rfl <;> simp
  · simp only at h
    split_ifs at h with h3
    · simp only [Option.some.injEq] at h
      subst h
      simp
    · have := List.get?_mem h
      simp only [List.mem_cons, List.mem_singleton, List.not_mem_nil, or_false] at this
      rcases this with rfl | rfl | rfl <;> simp
  · simp only [Option.some.injEq] at h
    subst h
    simp

/-- Claim C12.  With `tm_name` the Collada name of the transform type of the
curve, get_collada_sid returns the empty string when `tm_name` is empty,
`tm_name` followed by the axis name and ".ANGLE" for the three rotation types
(whether or not the axis name is empty), `tm_name`, "." and the axis name for
another type with a non-empty axis name, and `tm_name` alone for another type
with an empty axis name.  Hence, for an axis name as the function receives it
(both calls, lines 438 and 442, pass the result of get_axis_name), the result
ends in ".ANGLE" exactly when the type is a rotation type and `tm_name` is not
empty. -/
theorem get_collada_sid_spec {F : Type} (curve : BCAnimationCurve F)
    (axis_name tm_name : String) (h : get_collada_name curve.tm_type = some tm_name) :
    get_collada_sid curve axis_name =
      some (if tm_name = "" then ""
            else if curve.tm_type = BC_ANIMATION_TYPE_ROTATION_EULER ∨
                    curve.tm_type = BC_ANIMATION_TYPE_ROTATION_QUAT ∨
                    curve.tm_type = BC_ANIMATION_TYPE_ROTATION then
              tm_name ++ axis_name ++ ".ANGLE"
            else if axis_name ≠ "" then tm_name ++ "." ++ axis_name
            else tm_name) ∧
    (∀ (channel : String) (id : Int), get_axis_name channel id = some axis_name →
      ∃ sid, get_collada_sid curve axis_name = some sid ∧
        (ends_with sid ".ANGLE" = true ↔
          ((curve.tm_type = BC_ANIMATION_TYPE_ROTATION_EULER ∨
            curve.tm_type = BC_ANIMATION_TYPE_ROTATION_QUAT ∨
            curve.tm_type = BC_ANIMATION_TYPE_ROTATION) ∧ tm_name ≠ ""))) := by
  constructor
  · unfold get_collada_sid
    rw [h]
    simp only
    by_cases hn : tm_name = ""
    · subst hn
      simp
    · have hlen : tm_name.length ≠ 0 := by
        intro h0
        apply hn
        have hd : tm_name.data = [] := List.length_eq_zero.mp h0
        exact String.ext hd
      rw [if_pos hlen, if_neg hn]
      by_cases hr : curve.tm_type = BC_ANIMATION_TYPE_ROTATION_EULER ∨
          curve.tm_type = BC_ANIMATION_TYPE_ROTATION_QUAT ∨
          curve.tm_type = BC_ANIMATION_TYPE_ROTATION
      · have hb : (decide (curve.tm_type = BC_ANIMATION_TYPE_ROTATION_EULER) ||
            decide (curve.tm_type = BC_ANIMATION_TYPE_ROTATION_QUAT) ||
            decide (curve.tm_type = BC_ANIMATION_TYPE_ROTATION)) = true := by
          simpa [or_assoc] using hr
        rw [if_pos hb, if_pos hr]
      · have hb : ¬ (decide (curve.tm_type = BC_ANIMATION_TYPE_ROTATION_EULER) ||
            decide (curve.tm_type = BC_ANIMATION_TYPE_ROTATION_QUAT) ||
            decide (curve.tm_type = BC_ANIMATION_TYPE_ROTATION)) = true := by
          simpa [or_assoc] using hr
        rw [if_neg hb, if_neg hr]
        split_ifs <;> rfl
  · intro channel id hax
    have hmem := get_axis_name_range channel id axis_name hax
    have key : ∀ t : BC_animation_transform_type, curve.tm_type = t →
        ∃ sid, get_collada_sid curve axis_name = some sid ∧
          (ends_with sid ".ANGLE" = true ↔
            (curve.tm_type = BC_ANIMATION_TYPE_ROTATION_EULER ∨
             curve.tm_type = BC_ANIMATION_TYPE_ROTATION_QUAT ∨
             curve.tm_type = BC_ANIMATION_TYPE_ROTATION)) := by
      intro t ht
      simp only [get_collada_sid, ht]
      rw [ht] at h
      simp only [List.mem_cons, List.mem_singleton, List.not_mem_nil, or_false] at hmem
      rcases hmem with rfl | rfl | rfl | rfl | rfl | rfl | rfl <;> cases t <;>
        first
        | exact ⟨_, rfl, by decide⟩
        | simp [get_collada_name, BC_ANIMATION_NAME_FROM_TYPE, map_find] at h
    have hname : (curve.tm_type = BC_ANIMATION_TYPE_ROTATION_EULER ∨
        curve.tm_type = BC_ANIMATION_TYPE_ROTATION_QUAT ∨
        curve.tm_type = BC_ANIMATION_TYPE_ROTATION) → tm_name ≠ "" := by
      intro hr
      have hrot : get_collada_name curve.tm_type = some "rotation" := by
        rcases hr with hr | hr | hr <;> rw [hr] <;> rfl
      rw [hrot] at h
      simp only [Option.some.injEq] at h
      rw [← h]
      decide
    obtain ⟨sid, hsid, hiff⟩ := key _ rfl
    exact ⟨sid, hsid, hiff.trans ⟨fun hr => ⟨hr, hname hr⟩, fun hr => hr.1⟩⟩

/-- Witness for C12: the location curve of the scene with the axis name "X"
that get_axis_name returns for it. -/
theorem get_collada_sid_spec_witness :
    get_collada_sid demo_location_curve "X" = some "location.X" ∧
    ends_with "location.X" ".ANGLE" = false := by
  have h := get_collada_sid_spec demo_location_curve "X" "location" (by decide)
  exact ⟨by rw [h.1]; decide, by decide⟩

/-! ### Channel targets -/

/-- Counterexample to C13: the material curve of the cube animates a slot that
holds no material; its record is exported with the target "Cube", which has no
"/" and no property path. -/
theorem export_curve_animation_empty_slot :
    export_curve_animation demo_externals
        (demo_settings BC_TRANSFORMATION_TYPE_TRANSROTLOC false) demo_sampler demo_cube
        demo_material_curve =
      some [Event.openAnimation "Act_Cube_diffuse_color.R" "Cube",
        Event.float_source "Act_Cube_diffuse_color.R-input"
          "Act_Cube_diffuse_color.R-input-array" 2 1 ["TIME"] [0, 40],
        Event.float_source "Act_Cube_diffuse_color.R-output"
          "Act_Cube_diffuse_color.R-output-array" 2 1 ["R"] [1, 2],
        Event.name_source "Act_Cube_diffuse_color.R-interpolation"
          "Act_Cube_diffuse_color.R-interpolation-array" 2 1 ["INTERPOLATION"]
          ["LINEAR", "LINEAR"],
        Event.addSampler "Act_Cube_diffuse_color.R-sampler"
          [(Semantics.INPUT, "Act_Cube_diffuse_color.R-input"),
           (Semantics.OUTPUT, "Act_Cube_diffuse_color.R-output"),
           (Semantics.INTERPOLATION, "Act_Cube_diffuse_color.R-interpolation")],
        Event.addChannel "Act_Cube_diffuse_color.R-sampler" "Cube",
        Event.closeAnimation] ∧
    '/' ∉ "Cube".data := by
  decide

/-- Claim C13, amended.  Whenever export_curve_animation returns, its trace
holds one channel, with the sampler of the record as source.  For a curve that
is not a material curve the target of the channel is the sanitized animation
name of the entity, then "/", then get_collada_sid of the exported curve.  For
a material curve whose slot (tag + 1) of the object holds a material the target
is the identifier of that material, then "-effect/common/", then the sid; it is
built from the material and the sid alone.  In these two cases the target
holds a "/" followed by the property path. -/
theorem export_curve_animation_target {F : Type} (E : Externals F) (st : ExportSettings F)
    (S : BCAnimationSampler F) (ob : Object F) (icurve : BCAnimationCurve F)
    (trace : List (Event F)) (h : export_curve_animation E st S ob icurve = some trace) :
    ∃ axis id target,
      get_axis_name icurve.channel_target
        (match get_modified_export_curve E S ob icurve with
          | some m => m
          | none => icurve).array_index = some axis ∧
      Event.addChannel (id ++ E.SAMPLER_ID_SUFFIX) target ∈ trace ∧
      (∀ s t, Event.addChannel s t ∈ trace → s = id ++ E.SAMPLER_ID_SUFFIX ∧ t = target) ∧
      (icurve.channel_type ≠ BC_ANIMATION_CURVE_TYPE_MATERIAL →
        ∃ sid, get_collada_sid
            (match get_modified_export_curve E S ob icurve with
              | some m => m
              | none => icurve) axis = some sid ∧
          target = E.translate_id (E.get_animation_name
            (match get_modified_export_curve E S ob icurve with
              | some m => m
              | none => icurve) ob) ++ "/" ++ sid) ∧
      (icurve.channel_type = BC_ANIMATION_CURVE_TYPE_MATERIAL →
        ∀ ma, E.give_current_material ob
            ((match get_modified_export_curve E S ob icurve with
              | some m => m
              | none => icurve).tag + 1) = some ma →
          ∃ sid, get_collada_sid
              (match get_modified_export_curve E S ob icurve with
                | some m => m
                | none => icurve) axis = some sid ∧
            target = ma.id_name ++ "-effect/common/" ++ sid) := by
  unfold export_curve_animation at h
  simp only at h
  split at h
  · exact absurd h (by simp)
  · rename_i axis hax
    split at h
    · exact absurd h (by simp)
    · rename_i target htarget
      split at h
      · exact absurd h (by simp)
      · rename_i record hrec
        obtain ⟨idv, hidv⟩ : ∃ idv, idv = E.bc_get_action_id
            (match ob.action with
              | some action => action.id_name
              | none => "constraint_anim")
            (E.get_animation_name
              (match get_modified_export_curve E S ob icurve with
                | some m => m
                | none => icurve) ob)
            icurve.channel_target axis (some ".") := ⟨_, rfl⟩
        rw [← hidv] at hrec
        obtain ⟨sources, inputs, hshape, hsrc⟩ :=
          export_collada_curve_animation_shape E st idv _ target axis _ record hrec
        have hchan : ∀ s t, Event.addChannel s t ∈ record →
            s = idv ++ E.SAMPLER_ID_SUFFIX ∧ t = target := by
          intro s t hmem
          rw [hshape] at hmem
          simp only [List.mem_append, List.mem_cons, List.mem_singleton, List.not_mem_nil,
            or_false] at hmem
          rcases hmem with (hmem | hmem) | hmem
          · exact absurd hmem (by simp)
          · have := hsrc _ hmem
            simp [Event.is_source] at this
          · rcases hmem with hmem | hmem | hmem
            · exact absurd hmem (by simp)
            · simp only [Event.addChannel.injEq] at hmem
              exact hmem
            · exact absurd hmem (by simp)
        have hin : Event.addChannel (idv ++ E.SAMPLER_ID_SUFFIX) target ∈ record := by
          rw [hshape]
          simp
        refine ⟨axis, idv, target, hax, ?_, ?_, ?_, ?_⟩
        · cases hm : get_modified_export_curve E S ob icurve with
          | none =>
            rw [hm] at h
            simp only [Option.some.injEq] at h
            rw [← h]
            exact hin
          | some m =>
            rw [hm] at h
            simp only [Option.some.injEq] at h
            rw [← h]
            simp [hin]
        · intro s t hmem
          apply hchan
          cases hm : get_modified_export_curve E S ob icurve with
          | none =>
            rw [hm] at h
            simp only [Option.some.injEq] at h
            rw [← h] at hmem
            exact hmem
          | some m =>
            rw [hm] at h
            simp only [Option.some.injEq] at h
            rw [← h] at hmem
            simp only [List.mem_append, List.mem_singleton] at hmem
            rcases hmem with (hmem | hmem) | hmem
            · exact absurd hmem (by simp)
            · exact hmem
            · exact absurd hmem (by simp)
        · intro hmat
          rw [if_neg hmat] at htarget
          split at htarget
          · exact absurd htarget (by simp)
          · rename_i sid hsid
            simp only [Option.some.injEq] at htarget
            exact ⟨sid, hsid, htarget.symm⟩
        · intro hmat ma hma
          rw [if_pos hmat] at htarget
          simp only [hma] at htarget
          split at htarget
          · exact absurd htarget (by simp)
          · rename_i sid hsid
            simp only [Option.some.injEq] at htarget
            exact ⟨sid, hsid, htarget.symm⟩

/-- Witness for C13 (amended): the colour curve of the cube, an object curve. -/
theorem export_curve_animation_target_witness :
    ∃ trace s, export_curve_animation demo_externals
        (demo_settings BC_TRANSFORMATION_TYPE_TRANSROTLOC false) demo_sampler demo_cube
        demo_color_curve = some trace ∧
      Event.addChannel s "Cube/color.G" ∈ trace := by
  cases h : export_curve_animation demo_externals
      (demo_settings BC_TRANSFORMATION_TYPE_TRANSROTLOC false) demo_sampler demo_cube
      demo_color_curve with
  | none => exact absurd h (by decide)
  | some trace =>
    obtain ⟨axis, id, target, hax, hmem, _, hobject, _⟩ :=
      export_curve_animation_target demo_externals _ demo_sampler demo_cube demo_color_curve
        trace h
    obtain ⟨sid, hsid, htarget⟩ := hobject (by decide)
    have hax2 : some "G" = some axis := hax
    obtain rfl := Option.some.inj hax2
    have hsid2 : some "color.G" = some sid := hsid
    obtain rfl := Option.some.inj hsid2
    rw [htarget] at hmem
    exact ⟨trace, _, rfl, hmem⟩

/-! ### Sources -/

/-- Claim C14.  The scalar collada_source_from_values writes one source with
one output value per input value, in input order: FRA2TIME of the value for the
type TIMEFRAME, RAD2DEGF of the value for the types ROTATION_EULER and
ROTATION, and the value itself for every other type; the accessor count is the
number of input values and the stride is 1.  The argument `is_rot` only enters
the parameter names (through add_source_parameters) and no value. -/
theorem collada_source_from_values_spec {F : Type} (E : Externals F)
    (tm_type : BC_animation_transform_type) (semantic : Semantics) (values : List F)
    (is_rot : Bool) (anim_id axis_name : String) :
    collada_source_from_values E tm_type semantic values is_rot anim_id axis_name =
      (anim_id ++ get_semantic_suffix E semantic,
        [Event.float_source (anim_id ++ get_semantic_suffix E semantic)
          (anim_id ++ get_semantic_suffix E semantic ++ E.ARRAY_ID_SUFFIX)
          (values.length : Int) 1
          (add_source_parameters [] semantic is_rot axis_name false)
          (values.map (fun val =>
            if tm_type = BC_ANIMATION_TYPE_TIMEFRAME then E.FRA2TIME val
            else if tm_type = BC_ANIMATION_TYPE_ROTATION_EULER ∨
                    tm_type = BC_ANIMATION_TYPE_ROTATION then E.RAD2DEGF val
            else val))]) ∧
    (∀ id array_id count stride params out,
      Event.float_source id array_id count stride params out ∈
          (collada_source_from_values E tm_type semantic values is_rot anim_id axis_name).2 →
        out.length = values.length ∧
        ∀ id2 array_id2 count2 stride2 params2 out2,
          Event.float_source id2 array_id2 count2 stride2 params2 out2 ∈
            (collada_source_from_values E tm_type semantic values (!is_rot) anim_id
              axis_name).2 →
          out2 = out) := by
  have hconv : ∀ val : F, convert_source_value E tm_type val =
      (if tm_type = BC_ANIMATION_TYPE_TIMEFRAME then E.FRA2TIME val
       else if tm_type = BC_ANIMATION_TYPE_ROTATION_EULER ∨
               tm_type = BC_ANIMATION_TYPE_ROTATION then E.RAD2DEGF val
       else val) := by
    intro val
    cases tm_type <;> simp [convert_source_value]
  have hmap : List.map (convert_source_value E tm_type) values =
      values.map (fun val =>
        if tm_type = BC_ANIMATION_TYPE_TIMEFRAME then E.FRA2TIME val
        else if tm_type = BC_ANIMATION_TYPE_ROTATION_EULER ∨
                tm_type = BC_ANIMATION_TYPE_ROTATION then E.RAD2DEGF val
        else val) := by
    apply List.map_congr_left
    intro val _
    exact hconv val
  have heq : ∀ rot : Bool,
      collada_source_from_values E tm_type semantic values rot anim_id axis_name =
      (anim_id ++ get_semantic_suffix E semantic,
        [Event.float_source (anim_id ++ get_semantic_suffix E semantic)
          (anim_id ++ get_semantic_suffix E semantic ++ E.ARRAY_ID_SUFFIX)
          (values.length : Int) 1
          (add_source_parameters [] semantic rot axis_name false)
          (values.map (fun val =>
            if tm_type = BC_ANIMATION_TYPE_TIMEFRAME then E.FRA2TIME val
            else if tm_type = BC_ANIMATION_TYPE_ROTATION_EULER ∨
                    tm_type = BC_ANIMATION_TYPE_ROTATION then E.RAD2DEGF val
            else val))]) := by
    intro rot
    simp only [collada_source_from_values, Int.ediv_one, Int.toNat_ofNat, List.take_length,
      hmap]
  refine ⟨heq is_rot, ?_⟩
  intro id array_id count stride params out hmem
  rw [heq is_rot] at hmem
  simp only [List.mem_singleton, Event.float_source.injEq] at hmem
  obtain ⟨_, _, _, _, _, hout⟩ := hmem
  refine ⟨by rw [hout]; simp, ?_⟩
  intro id2 array_id2 count2 stride2 params2 out2 hmem2
  rw [heq (!is_rot)] at hmem2
  simp only [List.mem_singleton, Event.float_source.injEq] at hmem2
  obtain ⟨_, _, _, _, _, hout2⟩ := hmem2
  rw [hout, hout2]

/-- Claim C15.  The matrix collada_source_from_values writes one source with
accessor count the number of samples and stride 16, holding one matrix per
entry of the sample map, in the order of the map (ascending frames): the i-th
value is the matrix of the i-th entry, requested from `get_matrix` transposed
and with precision 6 when limit_precision is set and precision -1 when it is
not. -/
theorem collada_source_from_values_matrix_spec {F : Type} (E : Externals F)
    (st : ExportSettings F) (samples : List (Int × BCMatrix F)) (anim_id : String) :
    collada_source_from_values_matrix E st samples anim_id =
      (anim_id ++ E.OUTPUT_SOURCE_ID_SUFFIX,
        [Event.matrix_source (anim_id ++ E.OUTPUT_SOURCE_ID_SUFFIX)
          (anim_id ++ E.OUTPUT_SOURCE_ID_SUFFIX ++ E.ARRAY_ID_SUFFIX)
          (samples.length : Int) 16 ["TRANSFORM"]
          (samples.map (fun it =>
            (it.2, true, if st.limit_precision = true then (6 : Int) else -1)))]) ∧
    (samples.map (fun it =>
        (it.2, true, if st.limit_precision = true then (6 : Int) else -1))).length =
      samples.length ∧
    (∀ (i : Nat) (frame : Int) (m : BCMatrix F), samples.get? i = some (frame, m) →
      (samples.map (fun it =>
          (it.2, true, if st.limit_precision = true then (6 : Int) else -1))).get? i =
        some (m, true, if st.limit_precision = true then (6 : Int) else -1)) := by
  refine ⟨?_, by simp, ?_⟩
  · simp [collada_source_from_values_matrix, get_semantic_suffix, add_source_parameters]
  · intro i frame m hget
    rw [List.get?_eq_getElem?] at hget
    simp [hget]

/-- Witness for C14: two Euler angles, converted to degrees whether or not
`is_rot` is set. -/
theorem collada_source_from_values_spec_witness :
    collada_source_from_values demo_externals BC_ANIMATION_TYPE_ROTATION_EULER
        Semantics.OUTPUT [1, 2] false "id" "X" =
      ("id-output", [Event.float_source "id-output" "id-output-array" 2 1 ["X"] [57, 114]]) ∧
    collada_source_from_values demo_externals BC_ANIMATION_TYPE_ROTATION_EULER
        Semantics.OUTPUT [1, 2] true "id" "X" =
      ("id-output",
        [Event.float_source "id-output" "id-output-array" 2 1 ["ANGLE"] [57, 114]]) := by
  constructor
  · rw [(collada_source_from_values_spec demo_externals BC_ANIMATION_TYPE_ROTATION_EULER
      Semantics.OUTPUT [1, 2] false "id" "X").1]
    decide
  · rw [(collada_source_from_values_spec demo_externals BC_ANIMATION_TYPE_ROTATION_EULER
      Semantics.OUTPUT [1, 2] true "id" "X").1]
    decide

/-- Witness for C15: the two matrix samples of the scene, with limit_precision
set. -/
theorem collada_source_from_values_matrix_spec_witness :
    collada_source_from_values_matrix demo_externals
        (demo_settings BC_TRANSFORMATION_TYPE_MATRIX false)
        [(0, demo_sample.matrix), (1, demo_sample.matrix)] "id" =
      ("id-output",
        [Event.matrix_source "id-output" "id-output-array" 2 16 ["TRANSFORM"]
          [(demo_sample.matrix, true, 6), (demo_sample.matrix, true, 6)]]) := by
  rw [(collada_source_from_values_matrix_spec demo_externals
    (demo_settings BC_TRANSFORMATION_TYPE_MATRIX false)
    [(0, demo_sample.matrix), (1, demo_sample.matrix)] "id").1]
  decide

/-! ### Bone animations -/

theorem for_each_call_append {α β : Type} (f : α → Option (List β)) (l1 l2 : List α) :
    for_each_call f (l1 ++ l2) =
      match for_each_call f l1, for_each_call f l2 with
      | some first, some second => some (first ++ second)
      | _, _ => none := by
  induction l1 with
  | nil =>
    simp only [List.nil_append, for_each_call]
    cases for_each_call f l2 <;> simp
  | cons a rest ih =>
    have e1 : for_each_call f (a :: rest ++ l2) =
        match f a with
        | none => none
        | some first =>
          match for_each_call f (rest ++ l2) with
          | none => none
          | some others => some (first ++ others) := rfl
    have e2 : for_each_call f (a :: rest) =
        match f a with
        | none => none
        | some first =>
          match for_each_call f rest with
          | none => none
          | some others => some (first ++ others) := rfl
    rw [e1, e2, ih]
    cases f a with
    | none => rfl
    | some first =>
      cases for_each_call f rest with
      | none => rfl
      | some others =>
        cases for_each_call f l2 with
        | none => rfl
        | some second => simp

mutual
theorem export_bone_animations_recursive_eq {F : Type} (E : Externals F)
    (st : ExportSettings F) (S : BCAnimationSampler F) (ob : Object F) :
    ∀ bone : Bone, export_bone_animations_recursive E st S ob bone =
      for_each_call (export_bone_own_animation E st S ob) bone.subtree
  | Bone.mk name flag childbase => by
    have ih := export_bone_animations_list_eq E st S ob childbase
    rw [export_bone_animations_recursive, ih, Bone.subtree, for_each_call]
    cases export_bone_own_animation E st S ob (Bone.mk name flag childbase) with
    | none => rfl
    | some own =>
      cases for_each_call (export_bone_own_animation E st S ob)
        (Bone.subtree_list childbase) <;> rfl
theorem export_bone_animations_list_eq {F : Type} (E : Externals F)
    (st : ExportSettings F) (S : BCAnimationSampler F) (ob : Object F) :
    ∀ bones : List Bone, export_bone_animations_list E st S ob bones =
      for_each_call (export_bone_own_animation E st S ob) (Bone.subtree_list bones)
  | [] => by simp [export_bone_animations_list, Bone.subtree_list, for_each_call]
  | bone :: rest => by
    have ih1 := export_bone_animations_recursive_eq E st S ob bone
    have ih2 := export_bone_animations_list_eq E st S ob rest
    rw [export_bone_animations_list, ih1, ih2, Bone.subtree_list, for_each_call_append]
    cases for_each_call (export_bone_own_animation E st S ob) bone.subtree with
    | none => rfl
    | some first =>
      cases for_each_call (export_bone_own_animation E st S ob)
        (Bone.subtree_list rest) <;> rfl
end

theorem export_bone_own_animation_mode {F : Type} (E : Externals F) (st : ExportSettings F)
    (S : BCAnimationSampler F) (ob : Object F) (mode : BC_export_transformation_type)
    (bone : Bone) :
    export_bone_own_animation E { st with export_transformation_type := mode } S ob bone =
      export_bone_own_animation E st S ob bone := by
  simp only [export_bone_own_animation, export_bone_animation,
    export_collada_matrix_animation, collada_source_from_values_matrix]

/-- The bone export as the code writes it.  The recursion over the bone tree is
structural; its trace is the sequence of the own animations of the bones of the
root bones' subtrees in pre-order (a bone before its children, siblings in list
order), each bone of the tree once, whatever the transform-export mode.  The
own animation of a bone is the result of export_bone_animation when its own
frame set is non-empty and its own samples are not flat, and nothing otherwise;
the children follow in either case.  export_bone_animation writes the matrix
animation of the bone when the object has a scene action. -/
theorem export_bone_animations_spec {F : Type} (E : Externals F) (st : ExportSettings F)
    (S : BCAnimationSampler F) (ob : Object F) :
    (∀ bone : Bone, export_bone_animations_recursive E st S ob bone =
      for_each_call (export_bone_own_animation E st S ob) bone.subtree) ∧
    (∀ bonebase : List Bone, ob.data = ObjectData.armature bonebase →
      ∀ mode : BC_export_transformation_type,
        object_bone_animations E { st with export_transformation_type := mode } S ob =
          for_each_call (export_bone_own_animation E st S ob) (Bone.subtree_list bonebase)) ∧
    (∀ bone : Bone, export_bone_own_animation E st S ob bone =
      if 0 < (S.get_frame_set_bone ob bone).length ∧
          (S.get_bone_matrix_samples ob bone).2 = false then
        export_bone_animation E st ob bone (S.get_frame_set_bone ob bone)
          (S.get_bone_matrix_samples ob bone).1
      else some []) ∧
    (∀ action, ob.action = some action → ∀ bone frames samples,
      export_bone_animation E st ob bone frames samples =
        some (export_collada_matrix_animation E st
          (E.bc_get_action_id action.id_name ob.id_name bone.name "pose_matrix" none)
          ob.id_name (E.translate_id (ob.id_name ++ "_" ++ bone.name) ++ "/transform")
          frames samples) ∧
      export_collada_matrix_animation E st
          (E.bc_get_action_id action.id_name ob.id_name bone.name "pose_matrix" none)
          ob.id_name (E.translate_id (ob.id_name ++ "_" ++ bone.name) ++ "/transform")
          frames samples ≠ []) := by
  refine ⟨export_bone_animations_recursive_eq E st S ob, ?_, ?_, ?_⟩
  · intro bonebase hdata mode
    have hfun : export_bone_own_animation E { st with export_transformation_type := mode } S ob
        = export_bone_own_animation E st S ob :=
      funext (export_bone_own_animation_mode E st S ob mode)
    simp only [object_bone_animations, hdata, export_bone_animations_list_eq, hfun]
  · intro bone
    unfold export_bone_own_animation
    by_cases hfr : 0 < (S.get_frame_set_bone ob bone).length
    · have hne : (S.get_frame_set_bone ob bone).length ≠ 0 := by omega
      cases hflat : (S.get_bone_matrix_samples ob bone).2 <;> simp [hfr, hne]
    · have hz : (S.get_frame_set_bone ob bone).length = 0 := by omega
      simp [hz]
  · intro action haction bone frames samples
    constructor
    · simp [export_bone_animation, haction]
    · simp [export_collada_matrix_animation, openAnimationWithClip]

/-- The armature of the scene, root > (arm > hand, leg), which has a scene
action: the bone `arm` has no frames and the bone `leg` has flat samples, so the
trace holds the matrix animations of `root` and of `hand`, in this order. -/
theorem export_bone_animations_spec_witness :
    object_bone_animations demo_externals (demo_settings BC_TRANSFORMATION_TYPE_TRANSROTLOC false)
        demo_sampler demo_armature =
      (match export_bone_animation demo_externals
                (demo_settings BC_TRANSFORMATION_TYPE_MATRIX false) demo_armature
                (Bone.mk "root" 0 [Bone.mk "arm" 0 [Bone.mk "hand" 0 []], Bone.mk "leg" 0 []])
                [0, 1] [(0, demo_sample.matrix), (1, demo_sample.matrix)],
             export_bone_animation demo_externals
                (demo_settings BC_TRANSFORMATION_TYPE_MATRIX false) demo_armature
                (Bone.mk "hand" 0 []) [0, 1] [(0, demo_sample.matrix), (1, demo_sample.matrix)]
       with
       | some root, some hand => some (root ++ hand)
       | _, _ => none) := by
  have h := (export_bone_animations_spec demo_externals
    (demo_settings BC_TRANSFORMATION_TYPE_MATRIX false) demo_sampler demo_armature).2.1
    _ rfl BC_TRANSFORMATION_TYPE_TRANSROTLOC
  rw [show demo_settings BC_TRANSFORMATION_TYPE_TRANSROTLOC false =
    { demo_settings BC_TRANSFORMATION_TYPE_MATRIX false with
      export_transformation_type := BC_TRANSFORMATION_TYPE_TRANSROTLOC } from rfl, h]
  decide

/-- Claim C16.  The claim asks that for every armature the bone export visits
every bone and emits the matrix animation of a bone exactly when the frame set
of the bone is non-empty and its samples are not flat.  export_bone_animation
calls `id_name(action)` on the scene action of the object without testing it
(line 457), while export_matrix_animation (line 263) and export_curve_animation
(line 427) test the action for null.  For the armature `Loose`, which has no
scene action, the bone `root` has frames and samples that are not flat, so its
animation is due; the call that should write it dereferences the null action,
and neither the bone export nor exportAnimation returns.  The same armature
with a scene action is exported. -/
theorem export_bone_animation_without_action :
    demo_loose_armature.action = none ∧
    demo_sampler.get_frame_set_bone demo_loose_armature
      (Bone.mk "root" 0 [Bone.mk "arm" 0 [Bone.mk "hand" 0 []], Bone.mk "leg" 0 []]) = [0, 1] ∧
    (demo_sampler.get_bone_matrix_samples demo_loose_armature
      (Bone.mk "root" 0 [Bone.mk "arm" 0 [Bone.mk "hand" 0 []], Bone.mk "leg" 0 []])).2 = false ∧
    export_bone_animation demo_externals (demo_settings BC_TRANSFORMATION_TYPE_MATRIX false)
      demo_loose_armature
      (Bone.mk "root" 0 [Bone.mk "arm" 0 [Bone.mk "hand" 0 []], Bone.mk "leg" 0 []])
      [0, 1] [(0, demo_sample.matrix), (1, demo_sample.matrix)] = none ∧
    export_bone_animations_recursive demo_externals
      (demo_settings BC_TRANSFORMATION_TYPE_MATRIX false) demo_sampler demo_loose_armature
      (Bone.mk "root" 0 [Bone.mk "arm" 0 [Bone.mk "hand" 0 []], Bone.mk "leg" 0 []]) = none ∧
    exportAnimation demo_externals (demo_settings BC_TRANSFORMATION_TYPE_MATRIX false)
      demo_sampler demo_loose_armature = none ∧
    exportAnimation demo_externals (demo_settings BC_TRANSFORMATION_TYPE_TRANSROTLOC false)
      demo_sampler demo_loose_armature = none ∧
    (exportAnimation demo_externals (demo_settings BC_TRANSFORMATION_TYPE_MATRIX false)
      demo_sampler demo_armature).isSome = true := by
  decide

/-! ### Sampling before exporting -/

theorem export_collada_matrix_animation_events {F : Type} (E : Externals F)
    (st : ExportSettings F) (id name target : String) (frames : List F)
    (samples : List (Int × BCMatrix F)) :
    ∀ e ∈ export_collada_matrix_animation E st id name target frames samples,
      e.is_animation_event = true := by
  intro e he
  simp only [export_collada_matrix_animation, openAnimationWithClip,
    collada_source_from_values, collada_source_from_values_matrix,
    collada_linear_interpolation_source, List.mem_append, List.mem_cons, List.mem_singleton,
    List.not_mem_nil, or_false] at he
  rcases he with (((he | he) | he) | he) | he
  · rcases he with he | he <;> subst he <;> rfl
  · subst he; rfl
  · subst he; rfl
  · subst he; rfl
  · rcases he with he | he | he <;> subst he <;> rfl

theorem export_curve_animation_events {F : Type} (E : Externals F) (st : ExportSettings F)
    (S : BCAnimationSampler F) (ob : Object F) (icurve : BCAnimationCurve F)
    (trace : List (Event F)) (h : export_curve_animation E st S ob icurve = some trace) :
    ∀ e ∈ trace, e.is_animation_event = true := by
  have hsource : ∀ e : Event F, e.is_source = true → e.is_animation_event = true := by
    intro e he
    cases e <;> simp_all [Event.is_source, Event.is_animation_event]
  have hrecord : ∀ id name target axis curve record,
      export_collada_curve_animation E st id name target axis curve = some record →
      ∀ e ∈ record, e.is_animation_event = true := by
    intro id name target axis curve record hrec e he
    obtain ⟨sources, inputs, hshape, hsrc⟩ :=
      export_collada_curve_animation_shape E st id name target axis curve record hrec
    rw [hshape] at he
    simp only [List.mem_append, List.mem_cons, List.mem_singleton, List.not_mem_nil,
      or_false] at he
    rcases he with (he | he) | he
    · subst he; rfl
    · exact hsource e (hsrc e he)
    · rcases he with he | he | he <;> subst he <;> rfl
  obtain ⟨id, name, target, axis, record, hcase⟩ :=
    export_curve_animation_cases E st S ob icurve trace h
  rcases hcase with ⟨m, _, hrec, rfl⟩ | ⟨_, hrec, rfl⟩
  · intro e he
    simp only [List.mem_append, List.mem_singleton] at he
    rcases he with (he | he) | he
    · subst he; rfl
    · exact hrecord _ _ _ _ _ _ hrec e he
    · subst he; rfl
  · exact hrecord _ _ _ _ _ _ hrec

theorem export_bone_own_animation_events {F : Type} (E : Externals F) (st : ExportSettings F)
    (S : BCAnimationSampler F) (ob : Object F) (bone : Bone) (trace : List (Event F))
    (h : export_bone_own_animation E st S ob bone = some trace) :
    ∀ e ∈ trace, e.is_animation_event = true := by
  unfold export_bone_own_animation at h
  simp only at h
  split_ifs at h
  · unfold export_bone_animation at h
    split at h
    · exact absurd h (by simp)
    · simp only [Option.some.injEq] at h
      rw [← h]
      exact export_collada_matrix_animation_events E st _ _ _ _ _
  · simp only [Option.some.injEq] at h
    rw [← h]
    simp
  · simp only [Option.some.injEq] at h
    rw [← h]
    simp

theorem exportAnimation_events {F : Type} (E : Externals F) (st : ExportSettings F)
    (S : BCAnimationSampler F) (ob : Object F) (trace : List (Event F))
    (h : exportAnimation E st S ob = some trace) :
    ∀ e ∈ trace, e.is_animation_event = true := by
  rw [exportAnimation_eq] at h
  cases hc : export_curve_animation_set E st S ob
      (decide (st.export_transformation_type = BC_TRANSFORMATION_TYPE_TRANSROTLOC)) with
  | none => simp [hc] at h
  | some curves =>
    cases hb : object_bone_animations E st S ob with
    | none => simp [hc, hb] at h
    | some bones =>
      simp only [hc, hb, Option.some.injEq] at h
      have hcurves : ∀ e ∈ curves, e.is_animation_event = true := by
        unfold export_curve_animation_set at hc
        rw [export_curve_animation_set_loop_eq] at hc
        exact for_each_call_forall _ _ (export_curve_animation_events E st S ob) _ curves hc
      have hbones : ∀ e ∈ bones, e.is_animation_event = true := by
        unfold object_bone_animations at hb
        split at hb
        · rw [export_bone_animations_list_eq] at hb
          exact for_each_call_forall _ _ (export_bone_own_animation_events E st S ob) _
            bones hb
        · simp only [Option.some.injEq] at hb
          rw [← hb]
          simp
      have hmatrix : ∀ e ∈ object_matrix_record E st S ob, e.is_animation_event = true :=
        export_collada_matrix_animation_events E st _ _ _ _ _
      intro e he
      rw [← h] at he
      simp only [List.mem_append, List.mem_singleton] at he
      rcases he with (((he | he) | he) | he) | he
      · subst he; rfl
      · split_ifs at he
        · exact hmatrix e he
        · simp at he
      · exact hcurves e he
      · exact hbones e he
      · subst he; rfl

theorem exportAnimations_trace {F : Type} [DecidableEq F] (E : Externals F)
    (st : ExportSettings F) (result : Bool × List (Event F))
    (h : exportAnimations E st = some result)
    (hanim : E.has_animations st.export_set = true) :
    ∃ exported,
      for_each_call
        (exportAnimation E st
          (E.sample_scene
            (st.export_set.filter (fun ob => decide (ob ∈ E.get_animated_subset st.export_set)))
            st.sampling_rate true st.open_sim st.keep_keyframes st.export_animation_type))
        (E.get_animated_subset st.export_set) = some exported ∧
      result.2 =
        ((st.export_set.filter
            (fun ob => decide (ob ∈ E.get_animated_subset st.export_set))).map
            Event.add_object ++
          [Event.sample_scene st.sampling_rate true st.open_sim st.keep_keyframes
            st.export_animation_type]) ++
        ([Event.openLibrary] ++ exported ++ [Event.closeLibrary]) ∧
      (∀ e ∈ exported, e.is_animation_event = true) := by
  simp only [exportAnimations, hanim, if_true, add_object_loop_eq_filter,
    exportAnimation_loop_eq] at h
  cases hex : for_each_call
      (exportAnimation E st
        (E.sample_scene
          (st.export_set.filter (fun ob => decide (ob ∈ E.get_animated_subset st.export_set)))
          st.sampling_rate true st.open_sim st.keep_keyframes st.export_animation_type))
      (E.get_animated_subset st.export_set) with
  | none => simp [hex] at h
  | some exported =>
    simp only [hex, Option.some.injEq] at h
    refine ⟨exported, rfl, ?_, ?_⟩
    · rw [← h]
      simp
    · exact for_each_call_forall _ _ (fun ob t ht => exportAnimation_events E st _ ob t ht) _
        exported hex

/-- Counterexample to C17: in the scene the configured keyframe-at-end flag is
off, and the sampler is run with `keyframe_at_end` on all the same. -/
theorem exportAnimations_keyframe_at_end_fixed :
    (demo_settings BC_TRANSFORMATION_TYPE_TRANSROTLOC false).keyframe_at_end = false ∧
    ∃ trace, exportAnimations demo_externals
        (demo_settings BC_TRANSFORMATION_TYPE_TRANSROTLOC false) = some (true, trace) ∧
      Event.sample_scene 1 true false false
        BC_export_animation_type.BC_ANIMATION_EXPORT_SAMPLES ∈ trace ∧
      Event.sample_scene 1 false false false
        BC_export_animation_type.BC_ANIMATION_EXPORT_SAMPLES ∉ trace := by
  refine ⟨rfl, ?_⟩
  have hall : (exportAnimations demo_externals
      (demo_settings BC_TRANSFORMATION_TYPE_TRANSROTLOC false)).any
      (fun r => r.1 &&
        decide (Event.sample_scene 1 true false false
          BC_export_animation_type.BC_ANIMATION_EXPORT_SAMPLES ∈ r.2) &&
        !decide (Event.sample_scene 1 false false false
          BC_export_animation_type.BC_ANIMATION_EXPORT_SAMPLES ∈ r.2)) = true := by
    decide
  cases h : exportAnimations demo_externals
      (demo_settings BC_TRANSFORMATION_TYPE_TRANSROTLOC false) with
  | none =>
    rw [h] at hall
    exact absurd hall (by simp)
  | some result =>
    rw [h] at hall
    simp only [Option.any_some, Bool.and_eq_true, decide_eq_true_eq, Bool.not_eq_true',
      decide_eq_false_iff_not] at hall
    obtain ⟨⟨h1, h2⟩, h3⟩ := hall
    refine ⟨result.2, ?_, h2, h3⟩
    rw [← h1]

/-- Claim C17, amended.  In every run of exportAnimations with animation data
the sampler is run once, with the sampling rate, the open-interchange mode, the
keep-keyframes flag and the animation-export mode of the export configuration
and with `keyframe_at_end` true, whatever the configuration says: every
`sample_scene` call of the trace has these arguments, there is one, and the
entities are exported from the samples of that run. -/
theorem exportAnimations_sampling_options {F : Type} [DecidableEq F] (E : Externals F)
    (st : ExportSettings F) (result : Bool × List (Event F))
    (h : exportAnimations E st = some result)
    (hanim : E.has_animations st.export_set = true) :
    Event.sample_scene st.sampling_rate true st.open_sim st.keep_keyframes
        st.export_animation_type ∈ result.2 ∧
    (∀ rate keyframe_at_end open_sim keep_keyframes animation_type,
      Event.sample_scene rate keyframe_at_end open_sim keep_keyframes animation_type ∈
          result.2 →
        rate = st.sampling_rate ∧ keyframe_at_end = true ∧ open_sim = st.open_sim ∧
        keep_keyframes = st.keep_keyframes ∧ animation_type = st.export_animation_type) ∧
    (result.2.countP
      (fun e => decide (e = Event.sample_scene st.sampling_rate true st.open_sim
        st.keep_keyframes st.export_animation_type)) = 1) ∧
    (∃ exported,
      for_each_call
        (exportAnimation E st
          (E.sample_scene
            (st.export_set.filter (fun ob => decide (ob ∈ E.get_animated_subset st.export_set)))
            st.sampling_rate true st.open_sim st.keep_keyframes st.export_animation_type))
        (E.get_animated_subset st.export_set) = some exported) := by
  obtain ⟨exported, hex, htrace, hev⟩ := exportAnimations_trace E st result h hanim
  have hnot : ∀ rate kfe os kk ty,
      Event.sample_scene rate kfe os kk ty ∉ exported := by
    intro rate kfe os kk ty hmem
    have := hev _ hmem
    simp [Event.is_animation_event] at this
  refine ⟨?_, ?_, ?_, ⟨exported, hex⟩⟩
  · rw [htrace]
    simp
  · intro rate kfe os kk ty hmem
    rw [htrace] at hmem
    simp only [List.mem_append, List.mem_map, List.mem_singleton, List.mem_cons,
      List.not_mem_nil, or_false] at hmem
    rcases hmem with (⟨_, _, hmem⟩ | hmem) | ((hmem | hmem) | hmem)
    · exact absurd hmem (by simp)
    · simp only [Event.sample_scene.injEq] at hmem
      exact hmem
    · exact absurd hmem (by simp)
    · exact absurd hmem (hnot _ _ _ _ _)
    · exact absurd hmem (by simp)
  · rw [htrace]
    have h1 : ((st.export_set.filter
        (fun ob => decide (ob ∈ E.get_animated_subset st.export_set))).map
        Event.add_object).countP
        (fun e => decide (e = Event.sample_scene st.sampling_rate true st.open_sim
          st.keep_keyframes st.export_animation_type)) = 0 := by
      rw [List.countP_eq_zero]
      intro e he
      simp only [List.mem_map] at he
      obtain ⟨_, _, rfl⟩ := he
      simp
    have h2 : exported.countP
        (fun e => decide (e = Event.sample_scene st.sampling_rate true st.open_sim
          st.keep_keyframes st.export_animation_type)) = 0 := by
      rw [List.countP_eq_zero]
      intro e he
      have := hev e he
      intro heq
      simp only [decide_eq_true_eq] at heq
      rw [heq] at this
      simp [Event.is_animation_event] at this
    simp [List.countP_append, h1, h2, List.countP_cons]

/-- Witness for C17 (amended): the scene, exported with separate curves. -/
theorem exportAnimations_sampling_options_witness :
    ∃ result, exportAnimations demo_externals
        (demo_settings BC_TRANSFORMATION_TYPE_TRANSROTLOC false) = some result ∧
      Event.sample_scene 1 true false false
        BC_export_animation_type.BC_ANIMATION_EXPORT_SAMPLES ∈ result.2 := by
  cases h : exportAnimations demo_externals
      (demo_settings BC_TRANSFORMATION_TYPE_TRANSROTLOC false) with
  | none => exact absurd h (by decide)
  | some result =>
    exact ⟨result, rfl,
      (exportAnimations_sampling_options demo_externals _ result h (by decide)).1⟩

theorem index_lt_of_split {α : Type} (p : α → Bool) (front back : List α)
    (hfront : ∀ e ∈ front, p e = true) (hback : ∀ e ∈ back, p e = false)
    (i j : Nat) (a b : α) (hi : (front ++ back).get? i = some a)
    (hj : (front ++ back).get? j = some b) (ha : p a = true) (hb : p b = false) : i < j := by
  have hil : i < front.length := by
    by_contra hcon
    have hge : front.length ≤ i := by omega
    rw [List.get?_eq_getElem?, List.getElem?_append_right hge, ← List.get?_eq_getElem?] at hi
    have hmem := List.get?_mem hi
    rw [hback a hmem] at ha
    exact absurd ha (by simp)
  have hjl : front.length ≤ j := by
    by_contra hcon
    have hlt : j < front.length := by omega
    rw [List.get?_eq_getElem?, List.getElem?_append_left hlt, ← List.get?_eq_getElem?] at hj
    have hmem := List.get?_mem hj
    rw [hfront b hmem] at hb
    exact absurd hb (by simp)
  omega

/-- Claim C18.  In every run of exportAnimations with animation data the trace
is: the `add_object` calls, then the one `sample_scene` call, then the opening
of the library, then the traces of the exportAnimation calls, then the closing
of the library.  The part from the opening of the library on holds no
`add_object` and no `sample_scene`, so every sampler call of the trace comes
before every other event of the trace: sampling and exporting do not
interleave. -/
theorem exportAnimations_sampling_first {F : Type} [DecidableEq F] (E : Externals F)
    (st : ExportSettings F) (result : Bool × List (Event F))
    (h : exportAnimations E st = some result)
    (hanim : E.has_animations st.export_set = true) :
    (∃ exported,
      result.2 =
        ((st.export_set.filter
            (fun ob => decide (ob ∈ E.get_animated_subset st.export_set))).map
            Event.add_object ++
          [Event.sample_scene st.sampling_rate true st.open_sim st.keep_keyframes
            st.export_animation_type]) ++
        ([Event.openLibrary] ++ exported ++ [Event.closeLibrary]) ∧
      for_each_call
        (exportAnimation E st
          (E.sample_scene
            (st.export_set.filter (fun ob => decide (ob ∈ E.get_animated_subset st.export_set)))
            st.sampling_rate true st.open_sim st.keep_keyframes st.export_animation_type))
        (E.get_animated_subset st.export_set) = some exported ∧
      (∀ e ∈ exported, e.is_sampler_call = false ∧ e ≠ Event.openLibrary)) ∧
    (∀ (i j : Nat) (a b : Event F), result.2.get? i = some a → result.2.get? j = some b →
      a.is_sampler_call = true → b.is_sampler_call = false → i < j) := by
  obtain ⟨exported, hex, htrace, hev⟩ := exportAnimations_trace E st result h hanim
  have hexp : ∀ e ∈ exported, e.is_sampler_call = false ∧ e ≠ Event.openLibrary := by
    intro e he
    have := hev e he
    cases e <;> simp_all [Event.is_animation_event, Event.is_sampler_call]
  refine ⟨⟨exported, htrace, hex, hexp⟩, ?_⟩
  intro i j a b hi hj ha hb
  rw [htrace] at hi hj
  refine index_lt_of_split Event.is_sampler_call _ _ ?_ ?_ i j a b hi hj ha hb
  · intro e he
    simp only [List.mem_append, List.mem_map, List.mem_singleton] at he
    rcases he with ⟨_, _, rfl⟩ | rfl <;> rfl
  · intro e he
    simp only [List.mem_append, List.mem_singleton] at he
    rcases he with (rfl | he) | rfl
    · rfl
    · exact (hexp e he).1
    · rfl

/-- Witness for C18: the scene, exported with separate curves; the trace starts
with the two `add_object` calls and the `sample_scene` call. -/
theorem exportAnimations_sampling_first_witness :
    ∃ result rest, exportAnimations demo_externals
        (demo_settings BC_TRANSFORMATION_TYPE_TRANSROTLOC false) = some result ∧
      result.2 = [Event.add_object demo_cube, Event.add_object demo_camera,
        Event.sample_scene 1 true false false
          BC_export_animation_type.BC_ANIMATION_EXPORT_SAMPLES,
        Event.openLibrary] ++ rest := by
  cases h : exportAnimations demo_externals
      (demo_settings BC_TRANSFORMATION_TYPE_TRANSROTLOC false) with
  | none => exact absurd h (by decide)
  | some result =>
    obtain ⟨⟨exported, htrace, _, _⟩, _⟩ :=
      exportAnimations_sampling_first demo_externals _ result h (by decide)
    have hadded : ((demo_settings BC_TRANSFORMATION_TYPE_TRANSROTLOC false).export_set.filter
        (fun ob => decide (ob ∈ demo_externals.get_animated_subset
          (demo_settings BC_TRANSFORMATION_TYPE_TRANSROTLOC false).export_set))).map
        Event.add_object = [Event.add_object demo_cube, Event.add_object demo_camera] := by
      decide
    refine ⟨result, exported ++ [Event.closeLibrary], rfl, ?_⟩
    rw [htrace, hadded]
    rfl

/-! ### Tangents -/

theorem tangent_loop_eq {F : Type} (E : Externals F) (curve : BCAnimationCurve F)
    (frames : List F) (semantic : Semantics) (is_angle : Bool)
    (hsem : semantic = Semantics.IN_TANGENT ∨ semantic = Semantics.OUT_TANGENT) :
    ∀ (values : List F) (k : Nat),
      tangent_loop E curve frames semantic is_angle k values =
        (tangent_pairs E curve semantic is_angle values (frames.drop k)).map
          (fun pairs => pairs.flatMap (fun p => [p.1, p.2])) := by
  intro values
  induction values with
  | nil =>
    intro k
    simp [tangent_loop, tangent_pairs]
  | cons value rest ih =>
    intro k
    rw [tangent_loop]
    by_cases hk : k < frames.length
    · have hget : frames.get? k = some frames[k] := by
        rw [List.get?_eq_getElem?, List.getElem?_eq_getElem hk]
      have hdrop : frames.drop k = frames[k] :: frames.drop (k + 1) :=
        List.drop_eq_getElem_cons hk
      rw [hget, hdrop, tangent_pairs, ih (k + 1)]
      simp only [tangent_pair, get_point_in_curve]
      cases hf : curve.fcurve with
      | none => rfl
      | some fcu =>
        simp only
        by_cases hneg : E.closest_index_below curve frames[k] < 0
        · simp [hneg]
        · simp only [hneg, if_false]
          cases hb : fcu.bezt.get? (E.closest_index_below curve frames[k]).toNat with
          | none => rfl
          | some bezt =>
            rcases hsem with rfl | rfl
            · simp only [get_point_in_curve_bezt, List.set, List.get?, if_true]
              cases tangent_pairs E curve Semantics.IN_TANGENT is_angle rest
                (frames.drop (k + 1)) <;> simp
            · simp only [get_point_in_curve_bezt, List.set, List.get?]
              cases tangent_pairs E curve Semantics.OUT_TANGENT is_angle rest
                (frames.drop (k + 1)) <;> simp
    · have hget : frames.get? k = none := by
        rw [List.get?_eq_getElem?, List.getElem?_eq_none (by omega)]
      have hdrop : frames.drop k = [] := List.drop_eq_nil_of_le (by omega)
      rw [hget, hdrop, tangent_pairs]
      rfl

theorem tangent_pairs_defined {F : Type} (E : Externals F) (curve : BCAnimationCurve F)
    (semantic : Semantics) (is_angle : Bool) (fcu : FCurve F)
    (hfcu : curve.fcurve = some fcu) :
    ∀ (values frames : List F), values.length ≤ frames.length →
      (∀ frame ∈ frames, 0 ≤ E.closest_index_below curve frame ∧
        (E.closest_index_below curve frame).toNat < fcu.bezt.length) →
      ∃ pairs, tangent_pairs E curve semantic is_angle values frames = some pairs ∧
        pairs.length = values.length := by
  intro values
  induction values with
  | nil =>
    intro frames _ _
    exact ⟨[], by simp [tangent_pairs], rfl⟩
  | cons value rest ih =>
    intro frames hlen hidx
    cases frames with
    | nil => simp at hlen
    | cons frame more =>
      have h0 := hidx frame (by simp)
      obtain ⟨pairs, hp, hl⟩ := ih more (by simpa using hlen)
        (fun f hf => hidx f (by simp [hf]))
      have hget : fcu.bezt.get? (E.closest_index_below curve frame).toNat =
          some fcu.bezt[(E.closest_index_below curve frame).toNat] := by
        rw [List.get?_eq_getElem?, List.getElem?_eq_getElem h0.2]
      have hneg : ¬ E.closest_index_below curve frame < 0 := by omega
      have hpair : ∃ pair, tangent_pair E curve semantic is_angle value frame = some pair := by
        simp only [tangent_pair, hfcu, hneg, if_false, hget]
        exact ⟨_, rfl⟩
      obtain ⟨pair, hpair⟩ := hpair
      refine ⟨pair :: pairs, ?_, by simp [hl]⟩
      simp only [tangent_pairs, hpair, hp]

/-- Counterexample to C19: with binary32 addition and subtraction, the location
curve `demo_far_curve` has one keyframe with the value 100000000 and the
in-handle value 1, and its one sampled value is the value of the keyframe; the
difference 1 - 100000000 rounds to -100000000, so collada_tangent_from_curve
writes Y = 0, which is not the handle value 1.  With exact arithmetic Y is 1. -/
theorem collada_tangent_from_curve_rounding :
    rounded_externals.get_sampled_values demo_far_curve = [100000000] ∧
    rounded_externals.get_value demo_far_bezt false = 100000000 ∧
    (rounded_externals.get_in_tangent demo_far_bezt false).2 = 1 ∧
    rounded_externals.fsub 1 100000000 = -100000000 ∧
    collada_tangent_from_curve rounded_externals Semantics.IN_TANGENT demo_far_curve [0]
        "id" "X" =
      some ("id-intangent",
        [Event.float_source "id-intangent" "id-intangent-array" 1 2 ["X", "Y"] [-40, 0]]) ∧
    collada_tangent_from_curve demo_externals Semantics.IN_TANGENT demo_far_curve [0]
        "id" "X" =
      some ("id-intangent",
        [Event.float_source "id-intangent" "id-intangent-array" 1 2 ["X", "Y"] [-40, 1]]) := by
  decide

/-- Claim C19, amended.  For the semantics IN_TANGENT and OUT_TANGENT,
collada_tangent_from_curve writes one source of stride 2 with the parameters X
and Y that holds one (X, Y) pair per sampled value of the curve, in frame order:
for the i-th sampled value and the i-th frame, with `k` the authored keyframe at
`closest_index_below` of the frame, X is the first component of the in- or
out-handle of `k` and Y is the sampled value (in degrees for an angle) plus the
difference between the second component of the handle and the value of `k`.
The source is defined when the curve has an F-curve, there is a frame for every
sampled value and every frame has a keyframe below it.  When the sampled value
equals the value of `k`, Y is the float sum of the value of `k` and of the float
difference between the handle value and the value of `k`; Y is the handle value
where this sum gives the handle value back. -/
theorem collada_tangent_from_curve_spec {F : Type} (E : Externals F) (semantic : Semantics)
    (curve : BCAnimationCurve F) (frames : List F) (id axis : String)
    (hsem : semantic = Semantics.IN_TANGENT ∨ semantic = Semantics.OUT_TANGENT) :
    collada_tangent_from_curve E semantic curve frames id axis =
      (tangent_pairs E curve semantic (tangent_is_angle curve) (E.get_sampled_values curve)
        frames).map
        (fun pairs =>
          (id ++ get_semantic_suffix E semantic,
            [Event.float_source (id ++ get_semantic_suffix E semantic)
              (id ++ get_semantic_suffix E semantic ++ E.ARRAY_ID_SUFFIX) (E.size curve) 2
              ["X", "Y"] (pairs.flatMap (fun p => [p.1, p.2]))])) ∧
    (∀ fcu, curve.fcurve = some fcu →
      (E.get_sampled_values curve).length ≤ frames.length →
      (∀ frame ∈ frames, 0 ≤ E.closest_index_below curve frame ∧
        (E.closest_index_below curve frame).toNat < fcu.bezt.length) →
      ∃ pairs, tangent_pairs E curve semantic (tangent_is_angle curve)
          (E.get_sampled_values curve) frames = some pairs ∧
        pairs.length = (E.get_sampled_values curve).length) ∧
    (∀ (fcu : FCurve F) (k : BezTriple F) (value frame : F) (pair : F × F),
      curve.fcurve = some fcu →
      fcu.bezt.get? (E.closest_index_below curve frame).toNat = some k →
      tangent_pair E curve semantic (tangent_is_angle curve) value frame = some pair →
      (if tangent_is_angle curve = true then E.RAD2DEGF value else value) =
        E.get_value k (tangent_is_angle curve) →
      pair.2 =
        E.fadd (E.get_value k (tangent_is_angle curve))
          (E.fsub
            (if semantic = Semantics.IN_TANGENT then
              E.get_in_tangent k (tangent_is_angle curve)
             else E.get_out_tangent k (tangent_is_angle curve)).2
            (E.get_value k (tangent_is_angle curve))) ∧
      (E.fadd (E.get_value k (tangent_is_angle curve))
          (E.fsub
            (if semantic = Semantics.IN_TANGENT then
              E.get_in_tangent k (tangent_is_angle curve)
             else E.get_out_tangent k (tangent_is_angle curve)).2
            (E.get_value k (tangent_is_angle curve))) =
          (if semantic = Semantics.IN_TANGENT then E.get_in_tangent k (tangent_is_angle curve)
           else E.get_out_tangent k (tangent_is_angle curve)).2 →
        pair.2 =
          (if semantic = Semantics.IN_TANGENT then E.get_in_tangent k (tangent_is_angle curve)
           else E.get_out_tangent k (tangent_is_angle curve)).2)) := by
  refine ⟨?_, ?_, ?_⟩
  · have hparam : add_source_parameters [] semantic (tangent_is_angle curve) axis false =
        ["X", "Y"] := by
      rcases hsem with rfl | rfl <;> rfl
    have hloop := tangent_loop_eq E curve frames semantic (tangent_is_angle curve) hsem
      (E.get_sampled_values curve) 0
    rw [List.drop_zero] at hloop
    unfold collada_tangent_from_curve
    simp only
    rw [show (bc_startswith curve.channel_target "rotation" ||
      decide (curve.channel_target = "spot_size")) = tangent_is_angle curve from rfl,
      hloop, hparam]
    cases tangent_pairs E curve semantic (tangent_is_angle curve)
      (E.get_sampled_values curve) frames <;> rfl
  · intro fcu hfcu hlen hidx
    exact tangent_pairs_defined E curve semantic _ fcu hfcu _ frames hlen hidx
  · intro fcu k value frame pair hfcu hk hpair hsame
    unfold tangent_pair at hpair
    rw [hfcu] at hpair
    simp only at hpair
    by_cases hneg : E.closest_index_below curve frame < 0
    · rw [if_pos hneg] at hpair
      exact absurd hpair (by simp)
    · rw [if_neg hneg, hk] at hpair
      simp only [Option.some.injEq] at hpair
      have hy : pair.2 =
          E.fadd (E.get_value k (tangent_is_angle curve))
            (E.fsub
              (if semantic = Semantics.IN_TANGENT then
                E.get_in_tangent k (tangent_is_angle curve)
               else E.get_out_tangent k (tangent_is_angle curve)).2
              (E.get_value k (tangent_is_angle curve))) := by
        rw [← hpair]
        simp only
        rw [hsame]
      exact ⟨hy, fun hexact => hy.trans hexact⟩

/-- Witness for C19 (amended): the in-tangents of the colour curve of the cube,
whose sampled values are the values of its keyframes; the integer arithmetic of
the scene is exact, so that each Y is the value of the in-handle (two below the
keyframe value in the scene). -/
theorem collada_tangent_from_curve_spec_witness :
    collada_tangent_from_curve demo_externals Semantics.IN_TANGENT demo_color_curve [0, 1, 2]
        "id" "G" =
      some ("id-intangent",
        [Event.float_source "id-intangent" "id-intangent-array" 3 2 ["X", "Y"]
          [-40, 8, 0, 18, 40, 38]]) := by
  rw [(collada_tangent_from_curve_spec demo_externals Semantics.IN_TANGENT demo_color_curve
    [0, 1, 2] "id" "G" (Or.inl rfl)).1]
  decide

/-! ### Euler angles from quaternion curves -/

/-- Claim C20.  The claim asks that, for an object with a scene action, every
write `quats[i][array_index]` of get_eul_source_for_quat stays inside the table
whose row count is the keyframe count of the first F-curve of the action.  The
code sizes the table by the first F-curve and indexes it by the keyframes of
each quaternion curve: for the action of `Spinner`, whose first F-curve has one
keyframe and whose quaternion curve has two, the write to row 1 is outside the
table (the result is `none`).  For the action of `Turner`, whose four
quaternion curves come first with two keyframes each, the call is defined and
appends 3 * 2 values. -/
theorem get_eul_source_for_quat_out_of_range :
    demo_spinner.action = some demo_short_action ∧
    get_eul_source_for_quat demo_externals [] demo_spinner = none ∧
    quat_write_loop (demo_quat_fcurve 0 1 0) [0] [[0, 0, 0, 0]] = some [[1, 0, 0, 0]] ∧
    quat_write_loop (demo_quat_fcurve 0 1 0) [1] [[1, 0, 0, 0]] = none ∧
    get_eul_source_for_quat demo_externals [] demo_turner = some [0, 0, 0, 1, 2, 3] := by
  decide

/-! ### Nesting of the animation records -/

theorem nesting_append {F : Type} (lo hi : Int) :
    ∀ (front back : List (Event F)) (d : Int),
      nesting lo hi d (front ++ back) =
        match nesting lo hi d front with
        | none => none
        | some d1 => nesting lo hi d1 back := by
  intro front
  induction front with
  | nil =>
    intro back d
    rfl
  | cons e rest ih =>
    intro back d
    have e1 : nesting lo hi d (e :: rest ++ back) =
        if lo ≤ d + e.depth_change ∧ d + e.depth_change ≤ hi then
          nesting lo hi (d + e.depth_change) (rest ++ back)
        else none := rfl
    have e2 : nesting lo hi d (e :: rest) =
        if lo ≤ d + e.depth_change ∧ d + e.depth_change ≤ hi then
          nesting lo hi (d + e.depth_change) rest
        else none := rfl
    rw [e1, e2]
    by_cases hstep : lo ≤ d + e.depth_change ∧ d + e.depth_change ≤ hi
    · rw [if_pos hstep, if_pos hstep, ih]
    · rw [if_neg hstep, if_neg hstep]

theorem nesting_neutral {F : Type} (lo hi : Int) :
    ∀ (l : List (Event F)) (d : Int), (∀ e ∈ l, e.depth_change = 0) → lo ≤ d → d ≤ hi →
      nesting lo hi d l = some d := by
  intro l
  induction l with
  | nil =>
    intro d _ _ _
    rfl
  | cons e rest ih =>
    intro d hall hlo hhi
    have he : e.depth_change = 0 := hall e (by simp)
    rw [nesting, he]
    simp only [add_zero]
    rw [if_pos ⟨hlo, hhi⟩]
    exact ih d (fun x hx => hall x (by simp [hx])) hlo hhi

theorem nesting_record {F : Type} (lo hi d : Int) (id name : String)
    (before inside after : List (Event F))
    (hbefore : ∀ e ∈ before, e.depth_change = 0) (hinside : ∀ e ∈ inside, e.depth_change = 0)
    (hafter : ∀ e ∈ after, e.depth_change = 0) (hlo : lo ≤ d) (hhi : d + 1 ≤ hi) :
    nesting lo hi d
      (before ++ ([Event.openAnimation id name] ++ inside ++ [Event.closeAnimation]) ++ after) =
      some d := by
  have h1 : nesting lo hi d before = some d :=
    nesting_neutral lo hi before d hbefore hlo (by omega)
  have h2 : nesting lo hi (d + 1) inside = some (d + 1) :=
    nesting_neutral lo hi inside (d + 1) hinside (by omega) hhi
  have h3 : nesting lo hi d after = some d :=
    nesting_neutral lo hi after d hafter hlo (by omega)
  have hopen : nesting lo hi d ([Event.openAnimation id name] ++ inside ++ [Event.closeAnimation])
      = some d := by
    rw [List.append_assoc, List.singleton_append, nesting]
    have hstep : lo ≤ d + (Event.openAnimation id name : Event F).depth_change ∧
        d + (Event.openAnimation id name : Event F).depth_change ≤ hi := by
      simp only [Event.depth_change]
      omega
    rw [if_pos hstep, nesting_append]
    simp only [Event.depth_change]
    rw [h2]
    simp only [nesting, Event.depth_change]
    have hclose : lo ≤ d + 1 + -1 ∧ d + 1 + -1 ≤ hi := by omega
    rw [if_pos hclose]
    congr 1
    omega
  rw [nesting_append, nesting_append, h1]
  simp only
  rw [hopen]
  simp only
  exact h3

theorem for_each_call_nesting {α F : Type} (f : α → Option (List (Event F))) (lo hi d : Int)
    (hlo : lo ≤ d) (hhi : d ≤ hi)
    (hf : ∀ a t, f a = some t → nesting lo hi d t = some d) :
    ∀ (l : List α) (trace : List (Event F)), for_each_call f l = some trace →
      nesting lo hi d trace = some d := by
  intro l
  induction l with
  | nil =>
    intro trace h
    simp only [for_each_call, Option.some.injEq] at h
    subst h
    exact nesting_neutral lo hi [] d (by simp) hlo hhi
  | cons a rest ih =>
    intro trace h
    rw [for_each_call] at h
    cases ha : f a with
    | none => simp [ha] at h
    | some first =>
      cases hr : for_each_call f rest with
      | none => simp [ha, hr] at h
      | some others =>
        simp only [ha, hr, Option.some.injEq] at h
        subst h
        rw [nesting_append, hf a first ha]
        exact ih others hr

theorem export_collada_matrix_animation_nesting {F : Type} (E : Externals F)
    (st : ExportSettings F) (id name target : String) (frames : List F)
    (samples : List (Int × BCMatrix F)) (lo hi d : Int) (hlo : lo ≤ d) (hhi : d + 1 ≤ hi) :
    nesting lo hi d (export_collada_matrix_animation E st id name target frames samples) =
      some d := by
  have hshape : export_collada_matrix_animation E st id name target frames samples =
      [Event.anim_meta_push_back [E.translate_id id, name]] ++
      ([Event.openAnimation (E.translate_id id) name] ++
        ((collada_source_from_values E BC_ANIMATION_TYPE_TIMEFRAME Semantics.INPUT frames
            false id "").2 ++
          (collada_source_from_values_matrix E st samples id).2 ++
          (collada_linear_interpolation_source E (frames.length : Int) id).2 ++
          [Event.addSampler (id ++ E.SAMPLER_ID_SUFFIX)
            [(Semantics.INPUT,
              (collada_source_from_values E BC_ANIMATION_TYPE_TIMEFRAME Semantics.INPUT
                frames false id "").1),
             (Semantics.OUTPUT, (collada_source_from_values_matrix E st samples id).1),
             (Semantics.INTERPOLATION,
              (collada_linear_interpolation_source E (frames.length : Int) id).1)],
           Event.addChannel (id ++ E.SAMPLER_ID_SUFFIX) target]) ++
        [Event.closeAnimation]) ++ [] := by
    simp [export_collada_matrix_animation, openAnimationWithClip]
  rw [hshape]
  apply nesting_record lo hi d _ _ _ _ _ ?_ ?_ ?_ hlo hhi
  · intro e he
    simp only [List.mem_singleton] at he
    subst he
    rfl
  · intro e he
    simp only [collada_source_from_values, collada_source_from_values_matrix,
      collada_linear_interpolation_source, List.mem_append, List.mem_cons, List.mem_singleton,
      List.not_mem_nil, or_false] at he
    rcases he with ((he | he) | he) | he
    · subst he; rfl
    · subst he; rfl
    · subst he; rfl
    · rcases he with he | he <;> subst he <;> rfl
  · intro e he
    simp at he

theorem export_curve_animation_nesting {F : Type} (E : Externals F) (st : ExportSettings F)
    (S : BCAnimationSampler F) (ob : Object F) (lo hi d : Int) (hlo : lo ≤ d)
    (hhi : d + 1 ≤ hi) (icurve : BCAnimationCurve F) (trace : List (Event F))
    (h : export_curve_animation E st S ob icurve = some trace) :
    nesting lo hi d trace = some d := by
  have hsource : ∀ e : Event F, e.is_source = true → e.depth_change = 0 := by
    intro e he
    cases e <;> simp_all [Event.is_source, Event.depth_change]
  obtain ⟨id, name, target, axis, record, hcase⟩ :=
    export_curve_animation_cases E st S ob icurve trace h
  have hrecord : ∀ curve, export_collada_curve_animation E st id name target axis curve =
      some record → ∀ before after : List (Event F),
      (∀ e ∈ before, e.depth_change = 0) → (∀ e ∈ after, e.depth_change = 0) →
      nesting lo hi d (before ++ record ++ after) = some d := by
    intro curve hrec before after hbefore hafter
    obtain ⟨sources, inputs, hshape, hsrc⟩ :=
      export_collada_curve_animation_shape E st id name target axis curve record hrec
    have hre : record = [Event.openAnimation id name] ++
        (sources ++ [Event.addSampler (id ++ E.SAMPLER_ID_SUFFIX) inputs,
          Event.addChannel (id ++ E.SAMPLER_ID_SUFFIX) target]) ++ [Event.closeAnimation] := by
      rw [hshape]
      simp
    rw [hre]
    apply nesting_record lo hi d _ _ _ _ _ hbefore ?_ hafter hlo hhi
    intro e he
    simp only [List.mem_append, List.mem_cons, List.mem_singleton, List.not_mem_nil,
      or_false] at he
    rcases he with he | he | he
    · exact hsource e (hsrc e he)
    · subst he; rfl
    · subst he; rfl
  rcases hcase with ⟨m, _, hrec, rfl⟩ | ⟨_, hrec, rfl⟩
  · apply hrecord m hrec [Event.new_curve m] [Event.delete_curve m]
    · intro e he
      simp only [List.mem_singleton] at he
      subst he
      rfl
    · intro e he
      simp only [List.mem_singleton] at he
      subst he
      rfl
  · have := hrecord icurve hrec [] [] (by simp) (by simp)
    simpa using this

theorem export_bone_own_animation_nesting {F : Type} (E : Externals F) (st : ExportSettings F)
    (S : BCAnimationSampler F) (ob : Object F) (lo hi d : Int) (hlo : lo ≤ d)
    (hhi : d + 1 ≤ hi) (bone : Bone) (trace : List (Event F))
    (h : export_bone_own_animation E st S ob bone = some trace) :
    nesting lo hi d trace = some d := by
  have hempty : nesting lo hi d ([] : List (Event F)) = some d := rfl
  unfold export_bone_own_animation at h
  simp only at h
  split_ifs at h
  · unfold export_bone_animation at h
    split at h
    · exact absurd h (by simp)
    · simp only [Option.some.injEq] at h
      rw [← h]
      exact export_collada_matrix_animation_nesting E st _ _ _ _ _ lo hi d hlo hhi
  · simp only [Option.some.injEq] at h
    rw [← h]
    exact hempty
  · simp only [Option.some.injEq] at h
    rw [← h]
    exact hempty

theorem exportAnimation_inner_nesting {F : Type} (E : Externals F) (st : ExportSettings F)
    (S : BCAnimationSampler F) (ob : Object F) (curves bones : List (Event F))
    (hc : export_curve_animation_set E st S ob
      (decide (st.export_transformation_type = BC_TRANSFORMATION_TYPE_TRANSROTLOC)) =
        some curves)
    (hb : object_bone_animations E st S ob = some bones)
    (lo hi d : Int) (hlo : lo ≤ d) (hhi : d + 1 ≤ hi) :
    nesting lo hi d
      ((if st.export_transformation_type ≠ BC_TRANSFORMATION_TYPE_TRANSROTLOC ∧
            0 < (S.get_frame_set ob).length ∧ (S.get_matrix_samples ob).2 = false
          then object_matrix_record E st S ob else []) ++ curves ++ bones) = some d := by
  have hcurves : nesting lo hi d curves = some d := by
    unfold export_curve_animation_set at hc
    rw [export_curve_animation_set_loop_eq] at hc
    exact for_each_call_nesting _ lo hi d hlo (by omega)
      (fun c t ht => export_curve_animation_nesting E st S ob lo hi d hlo hhi c t ht) _ curves hc
  have hbones : nesting lo hi d bones = some d := by
    unfold object_bone_animations at hb
    split at hb
    · rw [export_bone_animations_list_eq] at hb
      exact for_each_call_nesting _ lo hi d hlo (by omega)
        (fun b t ht => export_bone_own_animation_nesting E st S ob lo hi d hlo hhi b t ht) _
        bones hb
    · simp only [Option.some.injEq] at hb
      rw [← hb]
      rfl
  have hmatrix : nesting lo hi d
      (if st.export_transformation_type ≠ BC_TRANSFORMATION_TYPE_TRANSROTLOC ∧
            0 < (S.get_frame_set ob).length ∧ (S.get_matrix_samples ob).2 = false
          then object_matrix_record E st S ob else []) = some d := by
    split_ifs
    · exact export_collada_matrix_animation_nesting E st _ _ _ _ _ lo hi d hlo hhi
    · rfl
  rw [nesting_append, nesting_append, hmatrix]
  simp only
  rw [hcurves]
  simp only
  exact hbones

/-- Claim C21.  Whenever exportAnimation returns, the openings and closings of
animation records in its trace are well nested: run from any depth `d0` at
entry, the depth never drops below `d0`, never exceeds `d0 + 2`, and is `d0`
again at the end, so every opening is matched by a later closing.  The trace is
the opening of the container of the object, an inner part, and the closing of
the container; over the inner part, which holds the matrix, curve and bone
records, the depth never drops below `d0 + 1`, that is, every such record is
opened and closed inside the container. -/
theorem exportAnimation_nesting {F : Type} (E : Externals F) (st : ExportSettings F)
    (S : BCAnimationSampler F) (ob : Object F) (trace : List (Event F))
    (h : exportAnimation E st S ob = some trace) (d0 : Int) :
    nesting d0 (d0 + 2) d0 trace = some d0 ∧
    ∃ inner,
      trace =
        [Event.openAnimation ("action_container-" ++ E.translate_id ob.id_name) ob.id_name] ++
          inner ++ [Event.closeAnimation] ∧
      nesting (d0 + 1) (d0 + 2) (d0 + 1) inner = some (d0 + 1) := by
  rw [exportAnimation_eq] at h
  cases hc : export_curve_animation_set E st S ob
      (decide (st.export_transformation_type = BC_TRANSFORMATION_TYPE_TRANSROTLOC)) with
  | none => simp [hc] at h
  | some curves =>
    cases hb : object_bone_animations E st S ob with
    | none => simp [hc, hb] at h
    | some bones =>
      simp only [hc, hb, Option.some.injEq] at h
      have hinner := exportAnimation_inner_nesting E st S ob curves bones hc hb
      have htrace : trace =
          [Event.openAnimation ("action_container-" ++ E.translate_id ob.id_name) ob.id_name] ++
          ((if st.export_transformation_type ≠ BC_TRANSFORMATION_TYPE_TRANSROTLOC ∧
                0 < (S.get_frame_set ob).length ∧ (S.get_matrix_samples ob).2 = false
              then object_matrix_record E st S ob else []) ++ curves ++ bones) ++
          [Event.closeAnimation] := by
        rw [← h]
        simp only [List.append_assoc]
      refine ⟨?_, _, htrace, hinner (d0 + 1) (d0 + 2) (d0 + 1) (by omega) (by omega)⟩
      rw [htrace, List.append_assoc, List.singleton_append, nesting]
      have hopen : d0 ≤ d0 + (Event.openAnimation
          ("action_container-" ++ E.translate_id ob.id_name) ob.id_name : Event F).depth_change ∧
          d0 + (Event.openAnimation
            ("action_container-" ++ E.translate_id ob.id_name) ob.id_name :
              Event F).depth_change ≤ d0 + 2 := by
        simp only [Event.depth_change]
        omega
      rw [if_pos hopen, nesting_append]
      simp only [Event.depth_change]
      rw [hinner d0 (d0 + 2) (d0 + 1) (by omega) (by omega)]
      simp only [nesting, Event.depth_change]
      have hclose : d0 ≤ d0 + 1 + -1 ∧ d0 + 1 + -1 ≤ d0 + 2 := by omega
      rw [if_pos hclose]
      congr 1
      omega

theorem exportAnimation_nesting_witness :
    ∃ trace inner, exportAnimation demo_externals
        (demo_settings BC_TRANSFORMATION_TYPE_MATRIX true) demo_sampler demo_cube =
        some trace ∧
      nesting 0 (0 + 2) 0 trace = some 0 ∧
      trace = [Event.openAnimation
          ("action_container-" ++ demo_externals.translate_id demo_cube.id_name)
          demo_cube.id_name] ++ inner ++ [Event.closeAnimation] ∧
      nesting (0 + 1) (0 + 2) (0 + 1) inner = some (0 + 1) := by
  cases h : exportAnimation demo_externals
      (demo_settings BC_TRANSFORMATION_TYPE_MATRIX true) demo_sampler demo_cube with
  | none => exact absurd h (by decide)
  | some trace =>
    obtain ⟨hall, inner, ht, hin⟩ :=
      exportAnimation_nesting demo_externals _ demo_sampler demo_cube trace h 0
    exact ⟨trace, inner, rfl, hall, ht, hin⟩

/-! ### Units of the value stream and of the tangent streams -/

/-- Claim C22.  The two streams do not always agree on the unit.  For the
spot-size curve of a lamp (channel "spot_size", transform type fall-off angle,
two Bezier keys, smooth curves kept) collada_tangent_from_curve treats the
channel as an angle, while the transform type is neither ROTATION_EULER nor
ROTATION, so collada_source_from_values leaves the values as they are.  In the
one record export_curve_animation writes for this curve, the value stream
holds the sampled values 10 and 20 unconverted, and the tangent streams hold Y
values built from the same sampled values converted to degrees (here a factor
of 57) and from handles converted to degrees. -/
theorem export_curve_animation_spot_size_units :
    tangent_is_angle demo_spot_curve = true ∧
    demo_spot_curve.tm_type ≠ BC_ANIMATION_TYPE_ROTATION_EULER ∧
    demo_spot_curve.tm_type ≠ BC_ANIMATION_TYPE_ROTATION ∧
    demo_externals.get_sampled_values demo_spot_curve = [10, 20] ∧
    (demo_externals.get_sampled_values demo_spot_curve).map
        (convert_source_value demo_externals demo_spot_curve.tm_type) = [10, 20] ∧
    (demo_externals.get_sampled_values demo_spot_curve).map demo_externals.RAD2DEGF =
      [570, 1140] ∧
    ∃ trace,
      export_curve_animation demo_externals
          (demo_settings BC_TRANSFORMATION_TYPE_MATRIX true) demo_sampler demo_lamp
          demo_spot_curve = some trace ∧
      Event.float_source "constraint_anim_Lamp_spot_size-output"
          "constraint_anim_Lamp_spot_size-output-array" 2 1 ["X", "Y", "Z"] [10, 20] ∈ trace ∧
      Event.float_source "constraint_anim_Lamp_spot_size-intangent"
          "constraint_anim_Lamp_spot_size-intangent-array" 2 2 ["X", "Y"]
          [-40, 456, 0, 1026] ∈ trace ∧
      Event.float_source "constraint_anim_Lamp_spot_size-outtangent"
          "constraint_anim_Lamp_spot_size-outtangent-array" 2 2 ["X", "Y"]
          [40, 741, 80, 1311] ∈ trace := by
  refine ⟨by decide, by decide, by decide, by decide, by decide, by decide, ?_⟩
  cases h : export_curve_animation demo_externals
      (demo_settings BC_TRANSFORMATION_TYPE_MATRIX true) demo_sampler demo_lamp
      demo_spot_curve with
  | none => exact absurd h (by decide)
  | some trace =>
    have hany : (export_curve_animation demo_externals
        (demo_settings BC_TRANSFORMATION_TYPE_MATRIX true) demo_sampler demo_lamp
        demo_spot_curve).any (fun t =>
          decide (Event.float_source "constraint_anim_Lamp_spot_size-output"
            "constraint_anim_Lamp_spot_size-output-array" 2 1 ["X", "Y", "Z"] [10, 20] ∈ t) &&
          decide (Event.float_source "constraint_anim_Lamp_spot_size-intangent"
            "constraint_anim_Lamp_spot_size-intangent-array" 2 2 ["X", "Y"]
            [-40, 456, 0, 1026] ∈ t) &&
          decide (Event.float_source "constraint_anim_Lamp_spot_size-outtangent"
            "constraint_anim_Lamp_spot_size-outtangent-array" 2 2 ["X", "Y"]
            [40, 741, 80, 1311] ∈ t)) = true := by decide
    rw [h] at hany
    simp only [Option.any_some, Bool.and_eq_true, decide_eq_true_eq] at hany
    exact ⟨trace, rfl, hany.1.1, hany.1.2, hany.2⟩

end Collada
